import Mathlib

/-! Ray2D collision routines (`Ray2DExtension.h`).

A shallow embedding of the 2D ray casting routines of `Ray2DExtension.h`.

* C `float` values are read as elements of a linearly ordered field `F`; the
  definitions are generic in `F` (hence executable, e.g. over `ℚ`) and the
  theorems are stated over `ℝ`.
* `sqrtf` (libm) is a parameter of every definition that takes a square root.
  Theorems assume only `IsSqrt sqrtf`: on non-negative arguments `sqrtf` is the
  non-negative square root. Nothing is assumed about negative arguments.
* The `raymath.h` vector helpers are not part of `Ray2DExtension.h`; they are
  written out below.
* Where rounding decides a claim, the functions are read a second time as
  IEEE 754 binary32 on `ℚ` with explicit rounding (names ending in `F32`).
-/

namespace Ray2DExtension

/-! ## Data model -/

/-- Two-component vector, the `Vector2` of `raylib.h`. -/
@[ext]
structure Vector2 (F : Type) where
  x : F
  y : F

/-- Axis-aligned rectangle, the `Rectangle` of `raylib.h`. -/
structure Rectangle (F : Type) where
  x : F
  y : F
  width : F
  height : F

/-- Ray for raycasting: `typedef struct Ray2D`. -/
structure Ray2D (F : Type) where
  position : Vector2 F
  direction : Vector2 F

/-- Ray hit information: `typedef struct Ray2DCollision`. -/
@[ext]
structure Ray2DCollision (F : Type) where
  hit : Bool
  distance : F
  point : Vector2 F
  normal : Vector2 F

section Defs

variable {F : Type} [LinearOrderedField F]

/-! ## `raymath.h` helpers -/

/-- Modelled from the spec: `Vector2Add` of `raymath.h` (not under `src/`),
component-wise sum. -/
def Vector2Add (v1 v2 : Vector2 F) : Vector2 F :=
  { x := v1.x + v2.x, y := v1.y + v2.y }

/-- Modelled from the spec: `Vector2Subtract` of `raymath.h` (not under `src/`),
component-wise difference. -/
def Vector2Subtract (v1 v2 : Vector2 F) : Vector2 F :=
  { x := v1.x - v2.x, y := v1.y - v2.y }

/-- Modelled from the spec: `Vector2Scale` of `raymath.h` (not under `src/`),
multiplication of both components by a scalar. -/
def Vector2Scale (v : Vector2 F) (scale : F) : Vector2 F :=
  { x := v.x * scale, y := v.y * scale }

/-- Modelled from the spec: `Vector2Negate` of `raymath.h` (not under `src/`). -/
def Vector2Negate (v : Vector2 F) : Vector2 F :=
  { x := -v.x, y := -v.y }

/-- Modelled from the spec: `Vector2DotProduct` of `raymath.h` (not under
`src/`). -/
def Vector2DotProduct (v1 v2 : Vector2 F) : F :=
  v1.x * v2.x + v1.y * v2.y

/-- Modelled from the spec: `Vector2Length` of `raymath.h` (not under `src/`),
the Euclidean norm `sqrtf(x*x + y*y)`. -/
def Vector2Length (sqrtf : F → F) (v : Vector2 F) : F :=
  sqrtf (v.x * v.x + v.y * v.y)

/-- Modelled from the spec: `Vector2Normalize` of `raymath.h` (not under
`src/`): a vector of positive length is multiplied by the inverse of its
length, any other vector gives the zero vector. -/
def Vector2Normalize (sqrtf : F → F) (v : Vector2 F) : Vector2 F :=
  let length := sqrtf (v.x * v.x + v.y * v.y)
  if length > 0 then
    let ilength := 1 / length
    { x := v.x * ilength, y := v.y * ilength }
  else
    { x := 0, y := 0 }

/-! ## `Ray2DExtension.h` -/

/-- The macro `#define RAYLENGTH 1000000`. -/
def RAYLENGTH : F := 1000000

/-- The initialiser `Ray2DCollision collision = { 0 }`. -/
def zeroCollision : Ray2DCollision F :=
  { hit := false, distance := 0, point := { x := 0, y := 0 }, normal := { x := 0, y := 0 } }

/-- Get sign value: `float Sign(float value)`. -/
def Sign (value : F) : F :=
  if value > 0 then 1
  else if value < 0 then -1
  else 0

/-- The 90 degree rotation `Vector2CrossProduct`: `{ -v.y, v.x }`. -/
def Vector2CrossProduct (v : Vector2 F) : Vector2 F :=
  { x := -v.y, y := v.x }

/-- Get collision info between ray2d and a line segment. -/
def GetRay2DCollisionLineSegment (sqrtf : F → F) (ray : Ray2D F) (p1 p2 : Vector2 F) :
    Ray2DCollision F :=
  let collision : Ray2DCollision F := zeroCollision
  let rayEndPoint := Vector2Add ray.position (Vector2Scale ray.direction RAYLENGTH)
  let uADenominator := (p2.y - p1.y) * (ray.position.x - rayEndPoint.x)
    - (p2.x - p1.x) * (ray.position.y - rayEndPoint.y)
  let uBDenominator := (p2.y - p1.y) * (ray.position.x - rayEndPoint.x)
    - (p2.x - p1.x) * (ray.position.y - rayEndPoint.y)
  if uADenominator ≠ 0 ∧ uBDenominator ≠ 0 then
    let uA := ((p2.x - p1.x) * (rayEndPoint.y - p1.y)
      - (p2.y - p1.y) * (rayEndPoint.x - p1.x)) / uADenominator
    let uB := ((ray.position.x - rayEndPoint.x) * (rayEndPoint.y - p1.y)
      - (ray.position.y - rayEndPoint.y) * (rayEndPoint.x - p1.x)) / uBDenominator
    if uA ≥ 0 ∧ uA ≤ 1 ∧ uB ≥ 0 ∧ uB ≤ 1 then
      let point : Vector2 F :=
        { x := rayEndPoint.x + uA * (ray.position.x - rayEndPoint.x),
          y := rayEndPoint.y + uA * (ray.position.y - rayEndPoint.y) }
      let distance := Vector2Length sqrtf (Vector2Subtract point ray.position)
      let collision := { collision with hit := true, point := point, distance := distance }
      let OnWhichSide := Sign ((ray.position.x - p1.x) * (-p2.y + p1.y)
        + (ray.position.y - p1.y) * (p2.x - p1.x))
      if OnWhichSide = 1 then
        { collision with
          normal := Vector2Negate
            (Vector2CrossProduct (Vector2Normalize sqrtf (Vector2Subtract p1 p2))) }
      else if OnWhichSide = -1 then
        { collision with
          normal := Vector2CrossProduct (Vector2Normalize sqrtf (Vector2Subtract p1 p2)) }
      else
        collision
    else
      { collision with hit := false }
  else
    { collision with hit := false }

/-- Get collision info between ray2d and circle. -/
def GetRay2DCollisionCircle (sqrtf : F → F) (ray : Ray2D F) (center : Vector2 F) (radius : F) :
    Ray2DCollision F :=
  let collision : Ray2DCollision F := zeroCollision
  let u := Vector2Subtract center ray.position
  let u1 := Vector2Scale ray.direction (Vector2DotProduct u ray.direction)
  let u2 := Vector2Subtract u u1
  let d := Vector2Length sqrtf u2
  let collision := { collision with hit := decide (d ≤ radius) }
  let m := sqrtf (radius * radius - d * d)
  if Vector2Length sqrtf u > radius then
    let p2 := Vector2Add ray.position (Vector2Add u1 (Vector2Scale ray.direction (-m)))
    { collision with
      distance := Vector2Length sqrtf (Vector2Subtract p2 ray.position),
      point := p2,
      normal := Vector2Normalize sqrtf (Vector2Subtract p2 center) }
  else
    let p1 := Vector2Add ray.position (Vector2Add u1 (Vector2Scale ray.direction m))
    { collision with
      distance := Vector2Length sqrtf (Vector2Subtract p1 ray.position),
      point := p1,
      normal := Vector2Negate (Vector2Normalize sqrtf (Vector2Subtract p1 center)) }

/-- One iteration of the loop body "Save the closest hit edge":
`if (edge.hit) { if (collision.distance >= edge.distance) collision = edge; }`. -/
def saveClosestHit (collision edge : Ray2DCollision F) : Ray2DCollision F :=
  if edge.hit then
    if collision.distance ≥ edge.distance then edge else collision
  else
    collision

/-- The `for` loop over the array of candidates, started from a zeroed record
whose distance is `RAYLENGTH`. -/
def closestHit (edgesCollision : List (Ray2DCollision F)) : Ray2DCollision F :=
  edgesCollision.foldl saveClosestHit { (zeroCollision : Ray2DCollision F) with distance := RAYLENGTH }

/-- The array `edgesCollision[4]` of `GetRay2DCollisionRectangle`. -/
def rectangleEdges (sqrtf : F → F) (ray : Ray2D F) (rect : Rectangle F) :
    List (Ray2DCollision F) :=
  [ GetRay2DCollisionLineSegment sqrtf ray
      { x := rect.x, y := rect.y } { x := rect.x + rect.width, y := rect.y },
    GetRay2DCollisionLineSegment sqrtf ray
      { x := rect.x + rect.width, y := rect.y }
      { x := rect.x + rect.width, y := rect.y + rect.height },
    GetRay2DCollisionLineSegment sqrtf ray
      { x := rect.x + rect.width, y := rect.y + rect.height }
      { x := rect.x, y := rect.y + rect.height },
    GetRay2DCollisionLineSegment sqrtf ray
      { x := rect.x, y := rect.y + rect.height } { x := rect.x, y := rect.y } ]

/-- Get collision info between ray and Rectangle. -/
def GetRay2DCollisionRectangle (sqrtf : F → F) (ray : Ray2D F) (rect : Rectangle F) :
    Ray2DCollision F :=
  closestHit (rectangleEdges sqrtf ray rect)

/-- The array `edgesCollision[3]` of `GetRay2DCollisionTriangle`. -/
def triangleEdges (sqrtf : F → F) (ray : Ray2D F) (p1 p2 p3 : Vector2 F) :
    List (Ray2DCollision F) :=
  [ GetRay2DCollisionLineSegment sqrtf ray p1 p2,
    GetRay2DCollisionLineSegment sqrtf ray p2 p3,
    GetRay2DCollisionLineSegment sqrtf ray p3 p1 ]

/-- Get collision info between ray and triangle. -/
def GetRay2DCollisionTriangle (sqrtf : F → F) (ray : Ray2D F) (p1 p2 p3 : Vector2 F) :
    Ray2DCollision F :=
  closestHit (triangleEdges sqrtf ray p1 p2 p3)

/-! ## Derived quantities used in the statements -/

/-- The 2D cross product `a.x * b.y - a.y * b.x` of two vectors. -/
def cross (a b : Vector2 F) : F :=
  a.x * b.y - a.y * b.x

/-- Ray parameter (in units of the direction vector) of the point where the
supporting lines of the ray and of the segment `p1`-`p2` cross. -/
def segT (ray : Ray2D F) (p1 p2 : Vector2 F) : F :=
  cross (Vector2Subtract p1 ray.position) (Vector2Subtract p2 p1)
    / cross ray.direction (Vector2Subtract p2 p1)

/-- Segment parameter (0 at `p1`, 1 at `p2`) of the point where the supporting
lines of the ray and of the segment `p1`-`p2` cross. -/
def segS (ray : Ray2D F) (p1 p2 : Vector2 F) : F :=
  cross (Vector2Subtract p1 ray.position) ray.direction
    / cross ray.direction (Vector2Subtract p2 p1)

/-- The argument of `Sign` in `GetRay2DCollisionLineSegment`: it is positive on
one side of the line through `p1` and `p2`, negative on the other and zero on
the line. -/
def segSide (ray : Ray2D F) (p1 p2 : Vector2 F) : F :=
  (ray.position.x - p1.x) * (-p2.y + p1.y) + (ray.position.y - p1.y) * (p2.x - p1.x)

/-- The local `m` of `GetRay2DCollisionCircle`: `sqrtf(radius*radius - d*d)` with
`d` the length of `u2 = u - u1`. -/
def circleM (sqrtf : F → F) (ray : Ray2D F) (center : Vector2 F) (radius : F) : F :=
  sqrtf (radius * radius
    - Vector2Length sqrtf
        (Vector2Subtract (Vector2Subtract center ray.position)
          (Vector2Scale ray.direction
            (Vector2DotProduct (Vector2Subtract center ray.position) ray.direction)))
      * Vector2Length sqrtf
        (Vector2Subtract (Vector2Subtract center ray.position)
          (Vector2Scale ray.direction
            (Vector2DotProduct (Vector2Subtract center ray.position) ray.direction))))

end Defs

/-! ## The binary32 reading

The definitions above read `float` as an exact field. The definitions below
read it as IEEE 754 binary32 with values in `ℚ`: each arithmetic operation of
the source yields the exact result rounded to the nearest number with a 24-bit
significand, ties to the even significand. Comparisons and negation are exact.
The exponent range is not modelled (no overflow, no subnormal numbers, no
infinities or NaN), and each operation is rounded on its own (no excess
precision, no fused multiply-add). -/

/-- Search from `k` upward for the first exponent with `n < 2 ^ (k + 1)`. -/
def log2Up (n : ℕ) : ℕ → ℕ → ℕ
  | 0, k => k
  | fuel + 1, k => if n < 2 ^ (k + 1) then k else log2Up n fuel (k + 1)

/-- Floor of the binary logarithm of `n ≥ 1`: `2 ^ ilog2 n ≤ n < 2 ^ (ilog2 n + 1)`. -/
def ilog2 (n : ℕ) : ℕ := log2Up n n 0

/-- The integer nearest to `num / den`, a tie going to the even integer. -/
def roundHalfEven (num den : ℕ) : ℕ :=
  if 2 * (num % den) < den then num / den
  else if den < 2 * (num % den) then num / den + 1
  else if (num / den) % 2 = 0 then num / den
  else num / den + 1

/-- The binary32 number nearest to `a / b` for `a, b ≥ 1`: the quotient is scaled
by the power of two `2 ^ p / 2 ^ r` that brings it into `[2 ^ 23, 2 ^ 24)`,
rounded to an integer (the 24-bit significand), and scaled back. -/
def roundPos (a b : ℕ) : ℚ :=
  let p0 := (23 + ilog2 b) - ilog2 a
  let r := ilog2 a - (23 + ilog2 b)
  let p := if a * 2 ^ p0 < 2 ^ 23 * (b * 2 ^ r) then p0 + 1 else p0
  ((roundHalfEven (a * 2 ^ p) (b * 2 ^ r) * 2 ^ r : ℕ) : ℚ) / ((2 ^ p : ℕ) : ℚ)

/-- Rounding of an exact result to binary32: round to nearest, ties to even. -/
def roundF32 (q : ℚ) : ℚ :=
  if q = 0 then 0
  else if 0 < q then roundPos q.num.natAbs q.den
  else -roundPos q.num.natAbs q.den

/-- Integer square root, one bit at a time from bit `i` down to bit `0`. -/
def isqrtBits (n : ℕ) : ℕ → ℕ → ℕ
  | 0, r => if (r + 1) * (r + 1) ≤ n then r + 1 else r
  | i + 1, r =>
    isqrtBits n i (if (r + 2 ^ (i + 1)) * (r + 2 ^ (i + 1)) ≤ n then r + 2 ^ (i + 1) else r)

/-- Floor of the square root of `n`. -/
def isqrt (n : ℕ) : ℕ := isqrtBits n (ilog2 n / 2 + 1) 0

/-- The libm function `sqrtf` on binary32: the correctly rounded square root.
With `T` large enough, `y = ⌊√q * 2 ^ T⌋` has more than 26 bits; `√q` is `y / 2 ^ T`
when that is exact and lies strictly between `y / 2 ^ T` and `(y + 1) / 2 ^ T`
otherwise, where it rounds like the midpoint. Arguments `≤ 0` give `0`. -/
def sqrtF32 (q : ℚ) : ℚ :=
  if q ≤ 0 then 0
  else
    let a := q.num.natAbs
    let b := q.den
    let T := 32 + ilog2 b
    let y := isqrt (a * 4 ^ T / b)
    let sticky : ℚ := if y * y * b = a * 4 ^ T then 0 else 1 / 2
    roundF32 (((y : ℚ) + sticky) / ((2 ^ T : ℕ) : ℚ))

/-- The binary32 sum `a + b`. -/
def fadd (a b : ℚ) : ℚ := roundF32 (a + b)

/-- The binary32 difference `a - b`. -/
def fsub (a b : ℚ) : ℚ := roundF32 (a - b)

/-- The binary32 product `a * b`. -/
def fmul (a b : ℚ) : ℚ := roundF32 (a * b)

/-- The binary32 quotient `a / b`. -/
def fdiv (a b : ℚ) : ℚ := roundF32 (a / b)

/-- Modelled from the spec: `Vector2Add` of `raymath.h` (not under `src/`), in
binary32. -/
def Vector2AddF32 (v1 v2 : Vector2 ℚ) : Vector2 ℚ :=
  { x := fadd v1.x v2.x, y := fadd v1.y v2.y }

/-- Modelled from the spec: `Vector2Subtract` of `raymath.h` (not under `src/`),
in binary32. -/
def Vector2SubtractF32 (v1 v2 : Vector2 ℚ) : Vector2 ℚ :=
  { x := fsub v1.x v2.x, y := fsub v1.y v2.y }

/-- Modelled from the spec: `Vector2Scale` of `raymath.h` (not under `src/`), in
binary32. -/
def Vector2ScaleF32 (v : Vector2 ℚ) (scale : ℚ) : Vector2 ℚ :=
  { x := fmul v.x scale, y := fmul v.y scale }

/-- Modelled from the spec: `Vector2Length` of `raymath.h` (not under `src/`), in
binary32: `sqrtf((v.x*v.x) + (v.y*v.y))`. -/
def Vector2LengthF32 (v : Vector2 ℚ) : ℚ :=
  sqrtF32 (fadd (fmul v.x v.x) (fmul v.y v.y))

/-- Modelled from the spec: `Vector2Normalize` of `raymath.h` (not under
`src/`), in binary32: a vector of positive length is multiplied by
`1.0f/length`, any other vector gives the zero vector. -/
def Vector2NormalizeF32 (v : Vector2 ℚ) : Vector2 ℚ :=
  let length := sqrtF32 (fadd (fmul v.x v.x) (fmul v.y v.y))
  if length > 0 then
    let ilength := fdiv 1 length
    { x := fmul v.x ilength, y := fmul v.y ilength }
  else
    { x := 0, y := 0 }

/-- Get collision info between ray2d and a line segment, in binary32: the body
of `GetRay2DCollisionLineSegment` with every `+`, `-`, `*`, `/` rounded. -/
def GetRay2DCollisionLineSegmentF32 (ray : Ray2D ℚ) (p1 p2 : Vector2 ℚ) : Ray2DCollision ℚ :=
  let collision : Ray2DCollision ℚ := zeroCollision
  let rayEndPoint := Vector2AddF32 ray.position (Vector2ScaleF32 ray.direction RAYLENGTH)
  let uADenominator := fsub (fmul (fsub p2.y p1.y) (fsub ray.position.x rayEndPoint.x))
    (fmul (fsub p2.x p1.x) (fsub ray.position.y rayEndPoint.y))
  let uBDenominator := fsub (fmul (fsub p2.y p1.y) (fsub ray.position.x rayEndPoint.x))
    (fmul (fsub p2.x p1.x) (fsub ray.position.y rayEndPoint.y))
  if uADenominator ≠ 0 ∧ uBDenominator ≠ 0 then
    let uA := fdiv (fsub (fmul (fsub p2.x p1.x) (fsub rayEndPoint.y p1.y))
      (fmul (fsub p2.y p1.y) (fsub rayEndPoint.x p1.x))) uADenominator
    let uB := fdiv
      (fsub (fmul (fsub ray.position.x rayEndPoint.x) (fsub rayEndPoint.y p1.y))
        (fmul (fsub ray.position.y rayEndPoint.y) (fsub rayEndPoint.x p1.x))) uBDenominator
    if uA ≥ 0 ∧ uA ≤ 1 ∧ uB ≥ 0 ∧ uB ≤ 1 then
      let point : Vector2 ℚ :=
        { x := fadd rayEndPoint.x (fmul uA (fsub ray.position.x rayEndPoint.x)),
          y := fadd rayEndPoint.y (fmul uA (fsub ray.position.y rayEndPoint.y)) }
      let distance := Vector2LengthF32 (Vector2SubtractF32 point ray.position)
      let collision := { collision with hit := true, point := point, distance := distance }
      let OnWhichSide := Sign (fadd (fmul (fsub ray.position.x p1.x) (fadd (-p2.y) p1.y))
        (fmul (fsub ray.position.y p1.y) (fsub p2.x p1.x)))
      if OnWhichSide = 1 then
        { collision with
          normal := Vector2Negate
            (Vector2CrossProduct (Vector2NormalizeF32 (Vector2SubtractF32 p1 p2))) }
      else if OnWhichSide = -1 then
        { collision with
          normal := Vector2CrossProduct (Vector2NormalizeF32 (Vector2SubtractF32 p1 p2)) }
      else
        collision
    else
      { collision with hit := false }
  else
    { collision with hit := false }

/-- Get collision info between ray and Rectangle, in binary32. -/
def GetRay2DCollisionRectangleF32 (ray : Ray2D ℚ) (rect : Rectangle ℚ) : Ray2DCollision ℚ :=
  closestHit
    [ GetRay2DCollisionLineSegmentF32 ray
        { x := rect.x, y := rect.y } { x := fadd rect.x rect.width, y := rect.y },
      GetRay2DCollisionLineSegmentF32 ray
        { x := fadd rect.x rect.width, y := rect.y }
        { x := fadd rect.x rect.width, y := fadd rect.y rect.height },
      GetRay2DCollisionLineSegmentF32 ray
        { x := fadd rect.x rect.width, y := fadd rect.y rect.height }
        { x := rect.x, y := fadd rect.y rect.height },
      GetRay2DCollisionLineSegmentF32 ray
        { x := rect.x, y := fadd rect.y rect.height } { x := rect.x, y := rect.y } ]

/-- Get collision info between ray and triangle, in binary32. -/
def GetRay2DCollisionTriangleF32 (ray : Ray2D ℚ) (p1 p2 p3 : Vector2 ℚ) : Ray2DCollision ℚ :=
  closestHit
    [ GetRay2DCollisionLineSegmentF32 ray p1 p2,
      GetRay2DCollisionLineSegmentF32 ray p2 p3,
      GetRay2DCollisionLineSegmentF32 ray p3 p1 ]

/-- On non-negative arguments `sqrtf` returns the non-negative square root. -/
def IsSqrt (sqrtf : ℝ → ℝ) : Prop :=
  ∀ x : ℝ, 0 ≤ x → 0 ≤ sqrtf x ∧ sqrtf x * sqrtf x = x

/-! ## Reading `sqrtf` over the reals -/

theorem isSqrt_real : IsSqrt Real.sqrt := fun x hx =>
  ⟨Real.sqrt_nonneg x, Real.mul_self_sqrt hx⟩

theorem IsSqrt.eq_sqrt {sqrtf : ℝ → ℝ} (hs : IsSqrt sqrtf) {x : ℝ} (hx : 0 ≤ x) :
    sqrtf x = Real.sqrt x := by
  obtain ⟨h0, h1⟩ := hs x hx
  have h2 := Real.sqrt_mul_self h0
  rw [h1] at h2
  exact h2.symm

theorem IsSqrt.sqrt_mul_self {sqrtf : ℝ → ℝ} (hs : IsSqrt sqrtf) {a : ℝ} (ha : 0 ≤ a) :
    sqrtf (a * a) = a := by
  rw [hs.eq_sqrt (mul_self_nonneg a), Real.sqrt_mul_self ha]

/-- A vector of length one has squared length one. -/
theorem IsSqrt.sq_of_length_eq_one {sqrtf : ℝ → ℝ} (hs : IsSqrt sqrtf) {v : Vector2 ℝ}
    (h : Vector2Length sqrtf v = 1) : v.x * v.x + v.y * v.y = 1 := by
  have h1 := (hs (v.x * v.x + v.y * v.y) (add_nonneg (mul_self_nonneg _) (mul_self_nonneg _))).2
  unfold Vector2Length at h
  rw [h] at h1
  linarith

/-- A vector of squared length one has length one. -/
theorem IsSqrt.length_eq_one {sqrtf : ℝ → ℝ} (hs : IsSqrt sqrtf) {v : Vector2 ℝ}
    (h : v.x * v.x + v.y * v.y = 1) : Vector2Length sqrtf v = 1 := by
  unfold Vector2Length
  rw [h]
  simpa using hs.sqrt_mul_self (zero_le_one)

/-- A vector of length at most one has squared length at most one. -/
theorem IsSqrt.sq_le_one_of_length_le_one {sqrtf : ℝ → ℝ} (hs : IsSqrt sqrtf) {v : Vector2 ℝ}
    (h : Vector2Length sqrtf v ≤ 1) : v.x * v.x + v.y * v.y ≤ 1 := by
  obtain ⟨h0, h1⟩ :=
    hs (v.x * v.x + v.y * v.y) (add_nonneg (mul_self_nonneg _) (mul_self_nonneg _))
  unfold Vector2Length at h
  nlinarith

/-- Normalising a vector of length `r > 0` and taking the dot product with the
vector itself gives `r`. -/
theorem IsSqrt.normalize_dot_self {sqrtf : ℝ → ℝ} (hs : IsSqrt sqrtf) {v : Vector2 ℝ} {r : ℝ}
    (hr : 0 < r) (hv : v.x * v.x + v.y * v.y = r * r) :
    Vector2DotProduct (Vector2Normalize sqrtf v) v = r := by
  have hl : sqrtf (v.x * v.x + v.y * v.y) = r := by
    rw [hv]; exact hs.sqrt_mul_self hr.le
  simp only [Vector2Normalize, hl, gt_iff_lt, hr, if_true, Vector2DotProduct]
  field_simp
  linarith

/-- Moving from a point along a unit direction by `t` ends `|t|` away. -/
theorem IsSqrt.length_move {sqrtf : ℝ → ℝ} (hs : IsSqrt sqrtf) {o d : Vector2 ℝ}
    (hd : d.x * d.x + d.y * d.y = 1) (t : ℝ) :
    Vector2Length sqrtf (Vector2Subtract (Vector2Add o (Vector2Scale d t)) o) = |t| := by
  simp only [Vector2Length, Vector2Subtract, Vector2Add, Vector2Scale]
  rw [hs.eq_sqrt (add_nonneg (mul_self_nonneg _) (mul_self_nonneg _)),
    ← Real.sqrt_mul_self_eq_abs]
  congr 1
  linear_combination (t * t) * hd

/-- A vector of positive squared length is normalised by dividing by its
length. -/
theorem IsSqrt.normalize_eq {sqrtf : ℝ → ℝ} (hs : IsSqrt sqrtf) {v : Vector2 ℝ}
    (hv : 0 < v.x * v.x + v.y * v.y) :
    0 < Vector2Length sqrtf v ∧
    Vector2Length sqrtf v * Vector2Length sqrtf v = v.x * v.x + v.y * v.y ∧
    Vector2Normalize sqrtf v
      = ⟨v.x * (1 / Vector2Length sqrtf v), v.y * (1 / Vector2Length sqrtf v)⟩ := by
  obtain ⟨h0, h1⟩ := hs _ hv.le
  have hpos : 0 < sqrtf (v.x * v.x + v.y * v.y) := by
    rcases h0.lt_or_eq with h | h
    · exact h
    · rw [← h] at h1; linarith
  refine ⟨hpos, h1, ?_⟩
  simp only [Vector2Normalize, Vector2Length, gt_iff_lt, hpos, if_true]

/-! ## The segment test -/

section Segment

variable (sqrtf : ℝ → ℝ) (ray : Ray2D ℝ) (p1 p2 : Vector2 ℝ)

/-- The shared denominator of the source is `-RAYLENGTH` times the cross product
of the direction and the segment vector. -/
theorem seg_den_eq :
    (p2.y - p1.y) * (ray.position.x - (ray.position.x + ray.direction.x * 1000000))
      - (p2.x - p1.x) * (ray.position.y - (ray.position.y + ray.direction.y * 1000000))
    = -1000000 * cross ray.direction (Vector2Subtract p2 p1) := by
  simp only [cross, Vector2Subtract]
  ring

/-- The source parameter `uA` runs from the far end of the synthetic ray back
to the origin: `uA = 1 - t / RAYLENGTH`. -/
theorem seg_uA_eq (hc : cross ray.direction (Vector2Subtract p2 p1) ≠ 0) :
    ((p2.x - p1.x) * (ray.position.y + ray.direction.y * 1000000 - p1.y)
      - (p2.y - p1.y) * (ray.position.x + ray.direction.x * 1000000 - p1.x))
      / ((p2.y - p1.y) * (ray.position.x - (ray.position.x + ray.direction.x * 1000000))
      - (p2.x - p1.x) * (ray.position.y - (ray.position.y + ray.direction.y * 1000000)))
    = 1 - segT ray p1 p2 / 1000000 := by
  rw [seg_den_eq]
  simp only [segT]
  simp only [cross, Vector2Subtract] at hc ⊢
  field_simp
  ring

/-- The source parameter `uB` is the segment parameter. -/
theorem seg_uB_eq (hc : cross ray.direction (Vector2Subtract p2 p1) ≠ 0) :
    ((ray.position.x - (ray.position.x + ray.direction.x * 1000000))
        * (ray.position.y + ray.direction.y * 1000000 - p1.y)
      - (ray.position.y - (ray.position.y + ray.direction.y * 1000000))
        * (ray.position.x + ray.direction.x * 1000000 - p1.x))
      / ((p2.y - p1.y) * (ray.position.x - (ray.position.x + ray.direction.x * 1000000))
      - (p2.x - p1.x) * (ray.position.y - (ray.position.y + ray.direction.y * 1000000)))
    = segS ray p1 p2 := by
  rw [seg_den_eq]
  simp only [segS]
  simp only [cross, Vector2Subtract] at hc ⊢
  field_simp
  ring

/-- The two guards of the source, taken together, say that the supporting
lines cross at ray parameter `t ∈ [0, RAYLENGTH]` and segment parameter
`s ∈ [0, 1]`. -/
theorem seg_guard_iff :
    (((p2.y - p1.y) * (ray.position.x - (ray.position.x + ray.direction.x * 1000000))
      - (p2.x - p1.x) * (ray.position.y - (ray.position.y + ray.direction.y * 1000000)) ≠ 0) ∧
     (((p2.x - p1.x) * (ray.position.y + ray.direction.y * 1000000 - p1.y)
      - (p2.y - p1.y) * (ray.position.x + ray.direction.x * 1000000 - p1.x))
      / ((p2.y - p1.y) * (ray.position.x - (ray.position.x + ray.direction.x * 1000000))
      - (p2.x - p1.x) * (ray.position.y - (ray.position.y + ray.direction.y * 1000000))) ≥ 0 ∧
      ((p2.x - p1.x) * (ray.position.y + ray.direction.y * 1000000 - p1.y)
      - (p2.y - p1.y) * (ray.position.x + ray.direction.x * 1000000 - p1.x))
      / ((p2.y - p1.y) * (ray.position.x - (ray.position.x + ray.direction.x * 1000000))
      - (p2.x - p1.x) * (ray.position.y - (ray.position.y + ray.direction.y * 1000000))) ≤ 1 ∧
      ((ray.position.x - (ray.position.x + ray.direction.x * 1000000))
        * (ray.position.y + ray.direction.y * 1000000 - p1.y)
      - (ray.position.y - (ray.position.y + ray.direction.y * 1000000))
        * (ray.position.x + ray.direction.x * 1000000 - p1.x))
      / ((p2.y - p1.y) * (ray.position.x - (ray.position.x + ray.direction.x * 1000000))
      - (p2.x - p1.x) * (ray.position.y - (ray.position.y + ray.direction.y * 1000000))) ≥ 0 ∧
      ((ray.position.x - (ray.position.x + ray.direction.x * 1000000))
        * (ray.position.y + ray.direction.y * 1000000 - p1.y)
      - (ray.position.y - (ray.position.y + ray.direction.y * 1000000))
        * (ray.position.x + ray.direction.x * 1000000 - p1.x))
      / ((p2.y - p1.y) * (ray.position.x - (ray.position.x + ray.direction.x * 1000000))
      - (p2.x - p1.x) * (ray.position.y - (ray.position.y + ray.direction.y * 1000000))) ≤ 1)) ↔
      cross ray.direction (Vector2Subtract p2 p1) ≠ 0 ∧
      0 ≤ segT ray p1 p2 ∧ segT ray p1 p2 ≤ 1000000 ∧
      0 ≤ segS ray p1 p2 ∧ segS ray p1 p2 ≤ 1 := by
  by_cases hc : cross ray.direction (Vector2Subtract p2 p1) = 0
  · have hd := seg_den_eq ray p1 p2
    rw [hc, mul_zero] at hd
    constructor
    · rintro ⟨h, -⟩
      exact absurd hd h
    · rintro ⟨h, -⟩
      exact absurd hc h
  · rw [seg_uA_eq ray p1 p2 hc, seg_uB_eq ray p1 p2 hc, seg_den_eq ray p1 p2]
    have hd0 : -1000000 * cross ray.direction (Vector2Subtract p2 p1) ≠ 0 :=
      mul_ne_zero (by norm_num) hc
    constructor
    · rintro ⟨-, h1, h2, h3, h4⟩
      refine ⟨hc, ?_, ?_, h3, h4⟩
      · have := div_le_iff₀ (show (0:ℝ) < 1000000 by norm_num) |>.mp (by linarith : segT ray p1 p2 / 1000000 ≤ 1)
        linarith
      · linarith
    · rintro ⟨-, h1, h2, h3, h4⟩
      refine ⟨hd0, ?_, ?_, h3, h4⟩
      · have : segT ray p1 p2 / 1000000 ≤ 1 := by
          rw [div_le_iff₀ (by norm_num)]; linarith
        linarith
      · have : 0 ≤ segT ray p1 p2 / 1000000 := by positivity
        linarith

theorem seg_hit_iff :
    (GetRay2DCollisionLineSegment sqrtf ray p1 p2).hit = true ↔
      cross ray.direction (Vector2Subtract p2 p1) ≠ 0 ∧
      0 ≤ segT ray p1 p2 ∧ segT ray p1 p2 ≤ 1000000 ∧
      0 ≤ segS ray p1 p2 ∧ segS ray p1 p2 ≤ 1 := by
  rw [← seg_guard_iff]
  unfold GetRay2DCollisionLineSegment
  simp only [Vector2Add, Vector2Scale, RAYLENGTH, zeroCollision]
  split_ifs with h1 h2 h3 h4
  · simp only [true_iff]; exact ⟨h1.1, h2⟩
  · simp only [true_iff]; exact ⟨h1.1, h2⟩
  · simp only [true_iff]; exact ⟨h1.1, h2⟩
  · simp only [Bool.false_eq_true, false_iff]; exact fun h => h2 h.2
  · simp only [Bool.false_eq_true, false_iff]; exact fun h => h1 ⟨h.1, h.1⟩

/-- A result without a hit is the zero-initialised record. -/
theorem seg_eq_zero_of_not_hit
    (h : (GetRay2DCollisionLineSegment sqrtf ray p1 p2).hit = false) :
    GetRay2DCollisionLineSegment sqrtf ray p1 p2 = zeroCollision := by
  unfold GetRay2DCollisionLineSegment at h ⊢
  simp only [zeroCollision] at h ⊢
  split_ifs at h ⊢ <;> rfl

/-- On a hit, the reported point is the origin moved by `segT` times the
direction, and the reported distance is the length of `point - origin`. -/
theorem seg_point_of_hit
    (h : (GetRay2DCollisionLineSegment sqrtf ray p1 p2).hit = true) :
    (GetRay2DCollisionLineSegment sqrtf ray p1 p2).point
        = Vector2Add ray.position (Vector2Scale ray.direction (segT ray p1 p2)) ∧
    (GetRay2DCollisionLineSegment sqrtf ray p1 p2).distance
        = Vector2Length sqrtf (Vector2Subtract
            (GetRay2DCollisionLineSegment sqrtf ray p1 p2).point ray.position) := by
  obtain ⟨hc, -⟩ := (seg_hit_iff sqrtf ray p1 p2).mp h
  have hA := seg_uA_eq ray p1 p2 hc
  unfold GetRay2DCollisionLineSegment at h ⊢
  simp only [Vector2Add, Vector2Scale, RAYLENGTH, zeroCollision] at h ⊢
  split_ifs at h ⊢
  all_goals
    refine ⟨?_, rfl⟩
    simp only [hA]
    ext <;> simp only <;> ring

/-- Where the supporting lines cross: `origin + t * direction = p1 + s * (p2 - p1)`. -/
theorem seg_crossing (hc : cross ray.direction (Vector2Subtract p2 p1) ≠ 0) :
    Vector2Add ray.position (Vector2Scale ray.direction (segT ray p1 p2))
      = Vector2Add p1 (Vector2Scale (Vector2Subtract p2 p1) (segS ray p1 p2)) := by
  simp only [segT, segS, cross, Vector2Subtract, Vector2Add, Vector2Scale] at hc ⊢
  ext <;> simp only <;> field_simp <;> ring

/-- The crossing parameters are the only solution of
`origin + t * direction = p1 + s * (p2 - p1)`. -/
theorem seg_crossing_unique (hc : cross ray.direction (Vector2Subtract p2 p1) ≠ 0) (t s : ℝ)
    (h : Vector2Add ray.position (Vector2Scale ray.direction t)
      = Vector2Add p1 (Vector2Scale (Vector2Subtract p2 p1) s)) :
    t = segT ray p1 p2 ∧ s = segS ray p1 p2 := by
  simp only [segT, segS, cross, Vector2Subtract, Vector2Add, Vector2Scale] at hc ⊢
  simp only [Vector2Subtract, Vector2Add, Vector2Scale, Vector2.mk.injEq] at h
  obtain ⟨hx, hy⟩ := h
  constructor
  · rw [eq_div_iff hc]; linear_combination (p2.y - p1.y) * hx - (p2.x - p1.x) * hy
  · rw [eq_div_iff hc]; linear_combination ray.direction.y * hx - ray.direction.x * hy

/-- C1: reading floats as reals, `GetRay2DCollisionLineSegment` reports a hit
exactly when the direction and the segment vector have non-zero cross product
and the ray, cut at parameter `1000000`, meets the segment:
`origin + t * direction = p1 + s * (p2 - p1)` for some `t ∈ [0, 1000000]` and
`s ∈ [0, 1]`. On a hit the reported point is that common point, whichever
parameters describe it, and the reported distance is the Euclidean length of
`point - origin`. -/
theorem GetRay2DCollisionLineSegment_hit_iff_crossing
    (hs : IsSqrt sqrtf) :
    ((GetRay2DCollisionLineSegment sqrtf ray p1 p2).hit = true ↔
      cross ray.direction (Vector2Subtract p2 p1) ≠ 0 ∧
      ∃ t s : ℝ, 0 ≤ t ∧ t ≤ 1000000 ∧ 0 ≤ s ∧ s ≤ 1 ∧
        Vector2Add ray.position (Vector2Scale ray.direction t)
          = Vector2Add p1 (Vector2Scale (Vector2Subtract p2 p1) s)) ∧
    ((GetRay2DCollisionLineSegment sqrtf ray p1 p2).hit = true →
      (∀ t s : ℝ,
        Vector2Add ray.position (Vector2Scale ray.direction t)
          = Vector2Add p1 (Vector2Scale (Vector2Subtract p2 p1) s) →
        (GetRay2DCollisionLineSegment sqrtf ray p1 p2).point
            = Vector2Add ray.position (Vector2Scale ray.direction t) ∧
        (GetRay2DCollisionLineSegment sqrtf ray p1 p2).point
            = Vector2Add p1 (Vector2Scale (Vector2Subtract p2 p1) s)) ∧
      (GetRay2DCollisionLineSegment sqrtf ray p1 p2).distance
        = Real.sqrt
            (((GetRay2DCollisionLineSegment sqrtf ray p1 p2).point.x - ray.position.x) ^ 2
              + ((GetRay2DCollisionLineSegment sqrtf ray p1 p2).point.y - ray.position.y) ^ 2)) := by
  refine ⟨?_, fun h => ?_⟩
  · rw [seg_hit_iff]
    constructor
    · rintro ⟨hc, h1, h2, h3, h4⟩
      exact ⟨hc, segT ray p1 p2, segS ray p1 p2, h1, h2, h3, h4, seg_crossing ray p1 p2 hc⟩
    · rintro ⟨hc, t, s, h1, h2, h3, h4, h5⟩
      obtain ⟨rfl, rfl⟩ := seg_crossing_unique ray p1 p2 hc t s h5
      exact ⟨hc, h1, h2, h3, h4⟩
  · obtain ⟨hc, -⟩ := (seg_hit_iff sqrtf ray p1 p2).mp h
    obtain ⟨hp, hd⟩ := seg_point_of_hit sqrtf ray p1 p2 h
    refine ⟨fun t s hts => ?_, ?_⟩
    · obtain ⟨rfl, rfl⟩ := seg_crossing_unique ray p1 p2 hc t s hts
      exact ⟨hp, hp.trans (seg_crossing ray p1 p2 hc)⟩
    · rw [hd]
      simp only [Vector2Length, Vector2Subtract]
      rw [hs.eq_sqrt (add_nonneg (mul_self_nonneg _) (mul_self_nonneg _))]
      congr 1
      ring

/-- Witness for C1: the ray from `(0,0)` along `(1,0)` against the segment
`(1,-1)`-`(1,1)`. -/
theorem GetRay2DCollisionLineSegment_hit_iff_crossing_witness :
    IsSqrt Real.sqrt ∧
    (GetRay2DCollisionLineSegment Real.sqrt
        ⟨⟨0, 0⟩, ⟨1, 0⟩⟩ (⟨1, -1⟩ : Vector2 ℝ) ⟨1, 1⟩).hit = true :=
  ⟨isSqrt_real,
    ((GetRay2DCollisionLineSegment_hit_iff_crossing Real.sqrt
        ⟨⟨0, 0⟩, ⟨1, 0⟩⟩ ⟨1, -1⟩ ⟨1, 1⟩ isSqrt_real).1).2
      ⟨by norm_num [cross, Vector2Subtract], 1, 1 / 2, by norm_num, by norm_num, by norm_num,
        by norm_num, by ext <;> norm_num [Vector2Add, Vector2Scale, Vector2Subtract]⟩⟩

/-- Over an exact field, `cross(direction, p2 - p1) = 0` gives no hit; this
covers a zero-length segment, a zero direction vector, and a ray parallel to,
or lying on, the line of the segment. -/
theorem seg_no_hit_of_cross_eq_zero :
    (cross ray.direction (Vector2Subtract p2 p1) = 0 →
      (GetRay2DCollisionLineSegment sqrtf ray p1 p2).hit = false) ∧
    (p1 = p2 → (GetRay2DCollisionLineSegment sqrtf ray p1 p2).hit = false) ∧
    (ray.direction = ⟨0, 0⟩ → (GetRay2DCollisionLineSegment sqrtf ray p1 p2).hit = false) ∧
    (∀ k : ℝ, Vector2Subtract p2 p1 = Vector2Scale ray.direction k →
      (GetRay2DCollisionLineSegment sqrtf ray p1 p2).hit = false) := by
  have key : cross ray.direction (Vector2Subtract p2 p1) = 0 →
      (GetRay2DCollisionLineSegment sqrtf ray p1 p2).hit = false := by
    intro hc
    rw [← Bool.not_eq_true, seg_hit_iff]
    exact fun h => h.1 hc
  refine ⟨key, fun h => key ?_, fun h => key ?_, fun k h => key ?_⟩
  · subst h; simp [cross, Vector2Subtract]
  · rw [h]; simp [cross]
  · rw [h]; simp only [cross, Vector2Scale]; ring

/-- On a hit the reported distance is the ray parameter times the length of
the direction. -/
theorem seg_distance_of_hit (hs : IsSqrt sqrtf)
    (h : (GetRay2DCollisionLineSegment sqrtf ray p1 p2).hit = true) :
    (GetRay2DCollisionLineSegment sqrtf ray p1 p2).distance
      = segT ray p1 p2
        * Real.sqrt (ray.direction.x * ray.direction.x + ray.direction.y * ray.direction.y) := by
  obtain ⟨-, ht, -⟩ := (seg_hit_iff sqrtf ray p1 p2).mp h
  obtain ⟨hp, hd⟩ := seg_point_of_hit sqrtf ray p1 p2 h
  rw [hd, hp]
  simp only [Vector2Length, Vector2Subtract, Vector2Add, Vector2Scale]
  rw [hs.eq_sqrt (add_nonneg (mul_self_nonneg _) (mul_self_nonneg _))]
  have e : (ray.position.x + ray.direction.x * segT ray p1 p2 - ray.position.x)
        * (ray.position.x + ray.direction.x * segT ray p1 p2 - ray.position.x)
      + (ray.position.y + ray.direction.y * segT ray p1 p2 - ray.position.y)
        * (ray.position.y + ray.direction.y * segT ray p1 p2 - ray.position.y)
      = (segT ray p1 p2 * segT ray p1 p2)
        * (ray.direction.x * ray.direction.x + ray.direction.y * ray.direction.y) := by
    ring
  rw [e, Real.sqrt_mul (mul_self_nonneg _), Real.sqrt_mul_self ht]

/-- With a direction of length at most one, a hit is at most `RAYLENGTH` away. -/
theorem seg_distance_le (hs : IsSqrt sqrtf)
    (hD : ray.direction.x * ray.direction.x + ray.direction.y * ray.direction.y ≤ 1)
    (h : (GetRay2DCollisionLineSegment sqrtf ray p1 p2).hit = true) :
    (GetRay2DCollisionLineSegment sqrtf ray p1 p2).distance ≤ RAYLENGTH := by
  obtain ⟨-, ht, ht2, -⟩ := (seg_hit_iff sqrtf ray p1 p2).mp h
  rw [seg_distance_of_hit sqrtf ray p1 p2 hs h]
  have h1 : Real.sqrt (ray.direction.x * ray.direction.x + ray.direction.y * ray.direction.y)
      ≤ 1 := Real.sqrt_le_one.mpr hD
  have h0 := Real.sqrt_nonneg
    (ray.direction.x * ray.direction.x + ray.direction.y * ray.direction.y)
  unfold RAYLENGTH
  nlinarith

/-- C9: reading floats as reals, for a segment `p1 != p2` with midpoint
`M = (p1 + p2)/2` and a ray origin `O` off the line through `p1` and `p2` with
`|O - M| <= 1000000`, the ray from `O` with direction `normalize(M - O)` gives a
hit at `M` with distance `|O - M|`. "Off the line" is
`cross(O - p1, p2 - p1) != 0`, which already forces `p1 != p2`. -/
theorem GetRay2DCollisionLineSegment_midpoint (hs : IsSqrt sqrtf) (O : Vector2 ℝ)
    (hline : cross (Vector2Subtract O p1) (Vector2Subtract p2 p1) ≠ 0)
    (hlen : Vector2Length sqrtf
      (Vector2Subtract O ⟨(p1.x + p2.x) / 2, (p1.y + p2.y) / 2⟩) ≤ 1000000) :
    (GetRay2DCollisionLineSegment sqrtf
        ⟨O, Vector2Normalize sqrtf
          (Vector2Subtract ⟨(p1.x + p2.x) / 2, (p1.y + p2.y) / 2⟩ O)⟩ p1 p2).hit = true ∧
    (GetRay2DCollisionLineSegment sqrtf
        ⟨O, Vector2Normalize sqrtf
          (Vector2Subtract ⟨(p1.x + p2.x) / 2, (p1.y + p2.y) / 2⟩ O)⟩ p1 p2).point
      = ⟨(p1.x + p2.x) / 2, (p1.y + p2.y) / 2⟩ ∧
    (GetRay2DCollisionLineSegment sqrtf
        ⟨O, Vector2Normalize sqrtf
          (Vector2Subtract ⟨(p1.x + p2.x) / 2, (p1.y + p2.y) / 2⟩ O)⟩ p1 p2).distance
      = Vector2Length sqrtf
          (Vector2Subtract O ⟨(p1.x + p2.x) / 2, (p1.y + p2.y) / 2⟩) := by
  have hflip : Vector2Length sqrtf
        (Vector2Subtract O ⟨(p1.x + p2.x) / 2, (p1.y + p2.y) / 2⟩)
      = Vector2Length sqrtf
        (Vector2Subtract ⟨(p1.x + p2.x) / 2, (p1.y + p2.y) / 2⟩ O) := by
    simp only [Vector2Length, Vector2Subtract]
    congr 1
    ring
  rw [hflip] at hlen ⊢
  have hv : 0 < (Vector2Subtract ⟨(p1.x + p2.x) / 2, (p1.y + p2.y) / 2⟩ O).x
        * (Vector2Subtract ⟨(p1.x + p2.x) / 2, (p1.y + p2.y) / 2⟩ O).x
      + (Vector2Subtract ⟨(p1.x + p2.x) / 2, (p1.y + p2.y) / 2⟩ O).y
        * (Vector2Subtract ⟨(p1.x + p2.x) / 2, (p1.y + p2.y) / 2⟩ O).y := by
    by_contra hcon
    have h := le_antisymm (not_lt.mp hcon) (add_nonneg (mul_self_nonneg _) (mul_self_nonneg _))
    obtain ⟨hx, hy⟩ := mul_self_add_mul_self_eq_zero.mp h
    apply hline
    simp only [Vector2Subtract, cross] at hx hy ⊢
    linear_combination (-(p2.y - p1.y)) * hx + (p2.x - p1.x) * hy
  obtain ⟨hpos, hsq, hnorm⟩ := hs.normalize_eq hv
  rw [hnorm]
  generalize Vector2Length sqrtf
    (Vector2Subtract ⟨(p1.x + p2.x) / 2, (p1.y + p2.y) / 2⟩ O) = len at hpos hsq hlen ⊢
  have hc : cross (⟨O, ⟨(Vector2Subtract ⟨(p1.x + p2.x) / 2, (p1.y + p2.y) / 2⟩ O).x * (1 / len),
      (Vector2Subtract ⟨(p1.x + p2.x) / 2, (p1.y + p2.y) / 2⟩ O).y * (1 / len)⟩⟩ : Ray2D ℝ).direction
      (Vector2Subtract p2 p1) ≠ 0 := by
    intro h
    apply hline
    simp only [Vector2Subtract, cross] at h ⊢
    field_simp at h
    linear_combination (-(1:ℝ) / 2) * h
  have heq : Vector2Add (⟨O, ⟨(Vector2Subtract ⟨(p1.x + p2.x) / 2, (p1.y + p2.y) / 2⟩ O).x * (1 / len),
      (Vector2Subtract ⟨(p1.x + p2.x) / 2, (p1.y + p2.y) / 2⟩ O).y * (1 / len)⟩⟩ : Ray2D ℝ).position
      (Vector2Scale (⟨O, ⟨(Vector2Subtract ⟨(p1.x + p2.x) / 2, (p1.y + p2.y) / 2⟩ O).x * (1 / len),
      (Vector2Subtract ⟨(p1.x + p2.x) / 2, (p1.y + p2.y) / 2⟩ O).y * (1 / len)⟩⟩ : Ray2D ℝ).direction len)
      = Vector2Add p1 (Vector2Scale (Vector2Subtract p2 p1) (1 / 2)) := by
    simp only [Vector2Subtract, Vector2Add, Vector2Scale]
    ext <;> simp only <;> field_simp <;> ring
  obtain ⟨hT, hS⟩ := seg_crossing_unique _ p1 p2 hc len (1 / 2) heq
  have hhit := (seg_hit_iff sqrtf _ p1 p2).2
    ⟨hc, hT ▸ hpos.le, hT ▸ hlen, hS ▸ (by norm_num), hS ▸ (by norm_num)⟩
  obtain ⟨hp, hd⟩ := seg_point_of_hit sqrtf _ p1 p2 hhit
  have hpM : (GetRay2DCollisionLineSegment sqrtf
        ⟨O, ⟨(Vector2Subtract ⟨(p1.x + p2.x) / 2, (p1.y + p2.y) / 2⟩ O).x * (1 / len),
          (Vector2Subtract ⟨(p1.x + p2.x) / 2, (p1.y + p2.y) / 2⟩ O).y * (1 / len)⟩⟩ p1 p2).point
      = ⟨(p1.x + p2.x) / 2, (p1.y + p2.y) / 2⟩ := by
    rw [hp, ← hT, heq]
    simp only [Vector2Subtract, Vector2Add, Vector2Scale]
    ext <;> simp only <;> ring
  refine ⟨hhit, hpM, ?_⟩
  rw [hd, hpM]
  unfold Vector2Length
  rw [← hsq]
  exact hs.sqrt_mul_self hpos.le

/-- Witness for C9: origin `(0,0)` and the segment `(1,-1)`-`(1,1)`, whose
midpoint is `(1,0)`. -/
theorem GetRay2DCollisionLineSegment_midpoint_witness :
    IsSqrt Real.sqrt ∧
    cross (Vector2Subtract (⟨0, 0⟩ : Vector2 ℝ) ⟨1, -1⟩) (Vector2Subtract ⟨1, 1⟩ ⟨1, -1⟩) ≠ 0 ∧
    Vector2Length Real.sqrt
      (Vector2Subtract (⟨0, 0⟩ : Vector2 ℝ) ⟨(1 + 1) / 2, (-1 + 1) / 2⟩) ≤ 1000000 ∧
    (GetRay2DCollisionLineSegment Real.sqrt
        ⟨⟨0, 0⟩, Vector2Normalize Real.sqrt
          (Vector2Subtract ⟨(1 + 1) / 2, (-1 + 1) / 2⟩ ⟨0, 0⟩)⟩ ⟨1, -1⟩ ⟨1, 1⟩).point
      = ⟨(1 + 1) / 2, (-1 + 1) / 2⟩ :=
  have hline : cross (Vector2Subtract (⟨0, 0⟩ : Vector2 ℝ) ⟨1, -1⟩)
      (Vector2Subtract ⟨1, 1⟩ ⟨1, -1⟩) ≠ 0 := by
    norm_num [cross, Vector2Subtract]
  have hlen : Vector2Length Real.sqrt
      (Vector2Subtract (⟨0, 0⟩ : Vector2 ℝ) ⟨(1 + 1) / 2, (-1 + 1) / 2⟩) ≤ 1000000 := by
    norm_num [Vector2Length, Vector2Subtract]
  ⟨isSqrt_real, hline, hlen,
    (GetRay2DCollisionLineSegment_midpoint Real.sqrt ⟨1, -1⟩ ⟨1, 1⟩ isSqrt_real ⟨0, 0⟩
      hline hlen).2.1⟩

/-- In the demo scenario (origin `(400,225)`, direction normalised toward
`(450,50)`, segment `(400,100)`-`(350,350)`) the supporting lines cross behind
the origin, so the segment test reports no hit. -/
theorem seg_scenario_no_hit (hs : IsSqrt sqrtf) :
    (GetRay2DCollisionLineSegment sqrtf
        ⟨⟨400, 225⟩, Vector2Normalize sqrtf (Vector2Subtract ⟨450, 50⟩ ⟨400, 225⟩)⟩
        ⟨400, 100⟩ ⟨350, 350⟩).hit = false := by
  have hv : (0:ℝ) < (Vector2Subtract (⟨450, 50⟩ : Vector2 ℝ) ⟨400, 225⟩).x
        * (Vector2Subtract (⟨450, 50⟩ : Vector2 ℝ) ⟨400, 225⟩).x
      + (Vector2Subtract (⟨450, 50⟩ : Vector2 ℝ) ⟨400, 225⟩).y
        * (Vector2Subtract (⟨450, 50⟩ : Vector2 ℝ) ⟨400, 225⟩).y := by
    norm_num [Vector2Subtract]
  obtain ⟨hpos, -, hnorm⟩ := hs.normalize_eq hv
  rw [hnorm, ← Bool.not_eq_true, seg_hit_iff]
  generalize Vector2Length sqrtf (Vector2Subtract (⟨450, 50⟩ : Vector2 ℝ) ⟨400, 225⟩) = len
    at hpos
  rintro ⟨-, ht, -⟩
  have hneg : segT (⟨⟨400, 225⟩, ⟨(Vector2Subtract (⟨450, 50⟩ : Vector2 ℝ) ⟨400, 225⟩).x * (1 / len),
      (Vector2Subtract (⟨450, 50⟩ : Vector2 ℝ) ⟨400, 225⟩).y * (1 / len)⟩⟩ : Ray2D ℝ)
      ⟨400, 100⟩ ⟨350, 350⟩ < 0 := by
    simp only [segT, cross, Vector2Subtract]
    apply div_neg_of_neg_of_pos
    · norm_num
    · have : (0:ℝ) < 1 / len := by positivity
      nlinarith
  exact absurd ht (not_le.mpr hneg)

/-- C10 (as stated) fails: in the concrete scenario the segment test does not
report a hit. -/
theorem GetRay2DCollisionLineSegment_scenario_counterexample :
    ¬ ((GetRay2DCollisionLineSegment Real.sqrt
        ⟨⟨400, 225⟩, Vector2Normalize Real.sqrt (Vector2Subtract ⟨450, 50⟩ ⟨400, 225⟩)⟩
        ⟨400, 100⟩ ⟨350, 350⟩).hit = true) := by
  rw [seg_scenario_no_hit Real.sqrt isSqrt_real]
  simp

/-- C10, amended: for the ray with origin `(400,225)` and direction
`normalize((450,50) - (400,225))` and the segment `(400,100)`-`(350,350)`, the
segment test returns `hit = false` (the ray points away from the segment), and
the returned record is the zero-initialised one. -/
theorem GetRay2DCollisionLineSegment_scenario (hs : IsSqrt sqrtf) :
    (GetRay2DCollisionLineSegment sqrtf
        ⟨⟨400, 225⟩, Vector2Normalize sqrtf (Vector2Subtract ⟨450, 50⟩ ⟨400, 225⟩)⟩
        ⟨400, 100⟩ ⟨350, 350⟩).hit = false ∧
    GetRay2DCollisionLineSegment sqrtf
        ⟨⟨400, 225⟩, Vector2Normalize sqrtf (Vector2Subtract ⟨450, 50⟩ ⟨400, 225⟩)⟩
        ⟨400, 100⟩ ⟨350, 350⟩
      = ⟨false, 0, ⟨0, 0⟩, ⟨0, 0⟩⟩ :=
  ⟨seg_scenario_no_hit sqrtf hs,
    seg_eq_zero_of_not_hit sqrtf _ _ _ (seg_scenario_no_hit sqrtf hs)⟩

/-- Witness for the amended C10, with the real square root. -/
theorem GetRay2DCollisionLineSegment_scenario_witness :
    IsSqrt Real.sqrt ∧
    (GetRay2DCollisionLineSegment Real.sqrt
        ⟨⟨400, 225⟩, Vector2Normalize Real.sqrt (Vector2Subtract ⟨450, 50⟩ ⟨400, 225⟩)⟩
        ⟨400, 100⟩ ⟨350, 350⟩).hit = false :=
  ⟨isSqrt_real, (GetRay2DCollisionLineSegment_scenario Real.sqrt isSqrt_real).1⟩

end Segment

/-! ## The nearest-hit loop -/

section Reducer

variable {F : Type} [LinearOrderedField F]

/-- One loop iteration either keeps the current record (the candidate is not a
hit, or is strictly farther) or replaces it by a hit candidate that is not
farther. -/
theorem saveClosestHit_cases (collision edge : Ray2DCollision F) :
    (saveClosestHit collision edge = collision ∧
        (edge.hit = true → collision.distance < edge.distance)) ∨
    (saveClosestHit collision edge = edge ∧ edge.hit = true ∧
        edge.distance ≤ collision.distance) := by
  unfold saveClosestHit
  split_ifs with ha hb
  · exact Or.inr ⟨rfl, ha, hb⟩
  · exact Or.inl ⟨rfl, fun _ => lt_of_not_ge hb⟩
  · exact Or.inl ⟨rfl, fun h => absurd h ha⟩

/-- Loop invariant: the running record is the initial one or a hit candidate
already seen, and its distance is at most the initial distance and at most
the distance of every hit candidate already seen. -/
theorem foldl_saveClosestHit_spec (l : List (Ray2DCollision F)) (init : Ray2DCollision F) :
    (l.foldl saveClosestHit init = init ∨
      (l.foldl saveClosestHit init ∈ l ∧ (l.foldl saveClosestHit init).hit = true)) ∧
    (l.foldl saveClosestHit init).distance ≤ init.distance ∧
    ∀ e ∈ l, e.hit = true → (l.foldl saveClosestHit init).distance ≤ e.distance := by
  induction l generalizing init with
  | nil => simp
  | cons e l ih =>
    simp only [List.foldl_cons]
    obtain ⟨h1, h2, h3⟩ := ih (saveClosestHit init e)
    rcases saveClosestHit_cases init e with ⟨hs, hlt⟩ | ⟨hs, hhit, hle⟩
    · rw [hs] at h1 h2 h3 ⊢
      refine ⟨?_, h2, ?_⟩
      · rcases h1 with h1 | ⟨h1, h1h⟩
        · exact Or.inl h1
        · exact Or.inr ⟨List.mem_cons_of_mem _ h1, h1h⟩
      · intro c hc hch
        rcases List.mem_cons.mp hc with rfl | hc
        · exact h2.trans (hlt hch).le
        · exact h3 c hc hch
    · rw [hs] at h1 h2 h3 ⊢
      refine ⟨Or.inr ?_, h2.trans hle, ?_⟩
      · rcases h1 with h1 | ⟨h1, h1h⟩
        · rw [h1]; exact ⟨List.mem_cons_self _ _, hhit⟩
        · exact ⟨List.mem_cons_of_mem _ h1, h1h⟩
      · intro c hc hch
        rcases List.mem_cons.mp hc with rfl | hc
        · exact h2
        · exact h3 c hc hch

/-- When no hit candidate is farther than `M` and the running record is a hit or
at least `M` away, the loop ends on a hit exactly when it started on one or
some candidate is a hit. -/
theorem foldl_saveClosestHit_hit_iff (M : F) (l : List (Ray2DCollision F))
    (init : Ray2DCollision F)
    (hl : ∀ e ∈ l, e.hit = true → e.distance ≤ M)
    (hinit : init.hit = true ∨ M ≤ init.distance) :
    (l.foldl saveClosestHit init).hit = true ↔ init.hit = true ∨ ∃ e ∈ l, e.hit = true := by
  induction l generalizing init with
  | nil => simp
  | cons e l ih =>
    simp only [List.foldl_cons]
    have hl2 : ∀ c ∈ l, c.hit = true → c.distance ≤ M :=
      fun c hc => hl c (List.mem_cons_of_mem _ hc)
    rcases saveClosestHit_cases init e with ⟨hs, hlt⟩ | ⟨hs, hhit, hle⟩
    · rw [hs, ih init hl2 hinit]
      constructor
      · rintro (h | ⟨c, hc, hch⟩)
        · exact Or.inl h
        · exact Or.inr ⟨c, List.mem_cons_of_mem _ hc, hch⟩
      · rintro (h | ⟨c, hc, hch⟩)
        · exact Or.inl h
        · rcases List.mem_cons.mp hc with rfl | hc
          · rcases hinit with hi | hi
            · exact Or.inl hi
            · exact absurd (hl c (List.mem_cons_self _ _) hch) (not_le.mpr (lt_of_le_of_lt hi (hlt hch)))
          · exact Or.inr ⟨c, hc, hch⟩
    · rw [hs, ih e hl2 (Or.inl hhit)]
      constructor
      · intro _
        exact Or.inr ⟨e, List.mem_cons_self _ _, hhit⟩
      · intro _
        exact Or.inl hhit

/-- A hit returned by the loop is one of the candidates, and no hit candidate is
nearer. -/
theorem closestHit_of_hit (l : List (Ray2DCollision F)) (h : (closestHit l).hit = true) :
    closestHit l ∈ l ∧ ∀ e ∈ l, e.hit = true → (closestHit l).distance ≤ e.distance := by
  obtain ⟨h1, -, h3⟩ := foldl_saveClosestHit_spec l
    { (zeroCollision : Ray2DCollision F) with distance := RAYLENGTH }
  refine ⟨?_, h3⟩
  rcases h1 with h1 | h1
  · unfold closestHit at h
    rw [h1] at h
    simp [zeroCollision] at h
  · exact h1.1

/-- When no hit candidate is farther than `RAYLENGTH`, the loop returns a hit
exactly when some candidate is a hit. -/
theorem closestHit_hit_iff (l : List (Ray2DCollision F))
    (hl : ∀ e ∈ l, e.hit = true → e.distance ≤ RAYLENGTH) :
    (closestHit l).hit = true ↔ ∃ e ∈ l, e.hit = true := by
  unfold closestHit
  rw [foldl_saveClosestHit_hit_iff RAYLENGTH l _ hl (Or.inr le_rfl)]
  simp [zeroCollision]

/-- When every hit candidate is farther than `RAYLENGTH`, the loop returns no
hit. -/
theorem closestHit_not_hit (l : List (Ray2DCollision F))
    (hl : ∀ e ∈ l, e.hit = true → RAYLENGTH < e.distance) :
    (closestHit l).hit = false := by
  rw [← Bool.not_eq_true]
  intro h
  obtain ⟨hmem, -⟩ := closestHit_of_hit l h
  obtain ⟨-, h2, -⟩ := foldl_saveClosestHit_spec l
    { (zeroCollision : Ray2DCollision F) with distance := RAYLENGTH }
  exact absurd h2 (not_le.mpr (hl _ hmem h))

end Reducer

/-! ## Rectangle and triangle -/

section Shapes

variable (sqrtf : ℝ → ℝ) (ray : Ray2D ℝ)

/-- With a direction of length at most one, the rectangle test hits exactly
when one of its edge tests hits. -/
theorem rectangle_hit_iff (hs : IsSqrt sqrtf)
    (hD : ray.direction.x * ray.direction.x + ray.direction.y * ray.direction.y ≤ 1)
    (rect : Rectangle ℝ) :
    (GetRay2DCollisionRectangle sqrtf ray rect).hit = true ↔
      ∃ e ∈ rectangleEdges sqrtf ray rect, e.hit = true := by
  unfold GetRay2DCollisionRectangle
  apply closestHit_hit_iff
  intro e he hhit
  simp only [rectangleEdges, List.mem_cons, List.mem_singleton, List.not_mem_nil, or_false] at he
  rcases he with rfl | rfl | rfl | rfl <;> exact seg_distance_le sqrtf ray _ _ hs hD hhit

/-- With a direction of length at most one, the triangle test hits exactly when
one of its edge tests hits. -/
theorem triangle_hit_iff (hs : IsSqrt sqrtf)
    (hD : ray.direction.x * ray.direction.x + ray.direction.y * ray.direction.y ≤ 1)
    (p1 p2 p3 : Vector2 ℝ) :
    (GetRay2DCollisionTriangle sqrtf ray p1 p2 p3).hit = true ↔
      ∃ e ∈ triangleEdges sqrtf ray p1 p2 p3, e.hit = true := by
  unfold GetRay2DCollisionTriangle
  apply closestHit_hit_iff
  intro e he hhit
  simp only [triangleEdges, List.mem_cons, List.mem_singleton, List.not_mem_nil, or_false] at he
  rcases he with rfl | rfl | rfl <;> exact seg_distance_le sqrtf ray _ _ hs hD hhit

/-- C5: whenever `GetRay2DCollisionRectangle` reports a hit, its result is (as a
whole record: hit, distance, point and normal) the result of
`GetRay2DCollisionLineSegment` on one of the four edges
`(x,y)-(x+w,y)`, `(x+w,y)-(x+w,y+h)`, `(x+w,y+h)-(x,y+h)`, `(x,y+h)-(x,y)`, and
its distance is at most the distance of every one of those edge results that
is a hit. -/
theorem GetRay2DCollisionRectangle_eq_nearest_edge (rect : Rectangle ℝ)
    (h : (GetRay2DCollisionRectangle sqrtf ray rect).hit = true) :
    (GetRay2DCollisionRectangle sqrtf ray rect
        = GetRay2DCollisionLineSegment sqrtf ray
            ⟨rect.x, rect.y⟩ ⟨rect.x + rect.width, rect.y⟩ ∨
      GetRay2DCollisionRectangle sqrtf ray rect
        = GetRay2DCollisionLineSegment sqrtf ray
            ⟨rect.x + rect.width, rect.y⟩ ⟨rect.x + rect.width, rect.y + rect.height⟩ ∨
      GetRay2DCollisionRectangle sqrtf ray rect
        = GetRay2DCollisionLineSegment sqrtf ray
            ⟨rect.x + rect.width, rect.y + rect.height⟩ ⟨rect.x, rect.y + rect.height⟩ ∨
      GetRay2DCollisionRectangle sqrtf ray rect
        = GetRay2DCollisionLineSegment sqrtf ray
            ⟨rect.x, rect.y + rect.height⟩ ⟨rect.x, rect.y⟩) ∧
    ((GetRay2DCollisionLineSegment sqrtf ray
          ⟨rect.x, rect.y⟩ ⟨rect.x + rect.width, rect.y⟩).hit = true →
      (GetRay2DCollisionRectangle sqrtf ray rect).distance
        ≤ (GetRay2DCollisionLineSegment sqrtf ray
            ⟨rect.x, rect.y⟩ ⟨rect.x + rect.width, rect.y⟩).distance) ∧
    ((GetRay2DCollisionLineSegment sqrtf ray
          ⟨rect.x + rect.width, rect.y⟩ ⟨rect.x + rect.width, rect.y + rect.height⟩).hit = true →
      (GetRay2DCollisionRectangle sqrtf ray rect).distance
        ≤ (GetRay2DCollisionLineSegment sqrtf ray
            ⟨rect.x + rect.width, rect.y⟩
            ⟨rect.x + rect.width, rect.y + rect.height⟩).distance) ∧
    ((GetRay2DCollisionLineSegment sqrtf ray
          ⟨rect.x + rect.width, rect.y + rect.height⟩ ⟨rect.x, rect.y + rect.height⟩).hit = true →
      (GetRay2DCollisionRectangle sqrtf ray rect).distance
        ≤ (GetRay2DCollisionLineSegment sqrtf ray
            ⟨rect.x + rect.width, rect.y + rect.height⟩
            ⟨rect.x, rect.y + rect.height⟩).distance) ∧
    ((GetRay2DCollisionLineSegment sqrtf ray
          ⟨rect.x, rect.y + rect.height⟩ ⟨rect.x, rect.y⟩).hit = true →
      (GetRay2DCollisionRectangle sqrtf ray rect).distance
        ≤ (GetRay2DCollisionLineSegment sqrtf ray
            ⟨rect.x, rect.y + rect.height⟩ ⟨rect.x, rect.y⟩).distance) := by
  obtain ⟨hmem, hmin⟩ := closestHit_of_hit (rectangleEdges sqrtf ray rect) h
  have hmem2 := hmem
  simp only [rectangleEdges, List.mem_cons, List.mem_singleton, List.not_mem_nil,
    or_false] at hmem2
  refine ⟨hmem2, ?_, ?_, ?_, ?_⟩ <;> intro he <;> refine hmin _ ?_ he <;>
    simp [rectangleEdges]

/-- Witness for C5: the ray from `(0,0)` along `(1,0)` against the rectangle
`x = 1, y = -1, width = 1, height = 2`. -/
theorem GetRay2DCollisionRectangle_eq_nearest_edge_witness :
    (GetRay2DCollisionRectangle Real.sqrt ⟨⟨0, 0⟩, ⟨1, 0⟩⟩ ⟨1, -1, 1, 2⟩).hit = true ∧
    (GetRay2DCollisionRectangle Real.sqrt ⟨⟨0, 0⟩, ⟨1, 0⟩⟩ ⟨1, -1, 1, 2⟩
        = GetRay2DCollisionLineSegment Real.sqrt ⟨⟨0, 0⟩, ⟨1, 0⟩⟩
            ⟨1, -1⟩ ⟨1 + 1, -1⟩ ∨
      GetRay2DCollisionRectangle Real.sqrt ⟨⟨0, 0⟩, ⟨1, 0⟩⟩ ⟨1, -1, 1, 2⟩
        = GetRay2DCollisionLineSegment Real.sqrt ⟨⟨0, 0⟩, ⟨1, 0⟩⟩
            ⟨1 + 1, -1⟩ ⟨1 + 1, -1 + 2⟩ ∨
      GetRay2DCollisionRectangle Real.sqrt ⟨⟨0, 0⟩, ⟨1, 0⟩⟩ ⟨1, -1, 1, 2⟩
        = GetRay2DCollisionLineSegment Real.sqrt ⟨⟨0, 0⟩, ⟨1, 0⟩⟩
            ⟨1 + 1, -1 + 2⟩ ⟨1, -1 + 2⟩ ∨
      GetRay2DCollisionRectangle Real.sqrt ⟨⟨0, 0⟩, ⟨1, 0⟩⟩ ⟨1, -1, 1, 2⟩
        = GetRay2DCollisionLineSegment Real.sqrt ⟨⟨0, 0⟩, ⟨1, 0⟩⟩
            ⟨1, -1 + 2⟩ ⟨1, -1⟩) :=
  have h : (GetRay2DCollisionRectangle Real.sqrt
      ⟨⟨0, 0⟩, ⟨1, 0⟩⟩ ⟨1, -1, 1, 2⟩).hit = true :=
    (rectangle_hit_iff Real.sqrt ⟨⟨0, 0⟩, ⟨1, 0⟩⟩ isSqrt_real (by norm_num) ⟨1, -1, 1, 2⟩).2
      ⟨GetRay2DCollisionLineSegment Real.sqrt ⟨⟨0, 0⟩, ⟨1, 0⟩⟩ ⟨1, -1 + 2⟩ ⟨1, -1⟩,
        by simp [rectangleEdges],
        (seg_hit_iff Real.sqrt _ _ _).2 (by norm_num [segT, segS, cross, Vector2Subtract])⟩
  ⟨h, (GetRay2DCollisionRectangle_eq_nearest_edge Real.sqrt
    ⟨⟨0, 0⟩, ⟨1, 0⟩⟩ ⟨1, -1, 1, 2⟩ h).1⟩

/-- Reading floats as real numbers, the ray from `(0,0)` along `(2,0)` hits the
left and right edges of the rectangle `x = 1500000, y = -1, width = 1, height = 2`
at distances `1500000` and `1500001`, both beyond the sentinel `1000000`, so the
rectangle test reports no hit although an edge test does. -/
theorem rectangle_long_direction_real :
    ¬ ((GetRay2DCollisionRectangle Real.sqrt ⟨⟨0, 0⟩, ⟨2, 0⟩⟩ ⟨1500000, -1, 1, 2⟩).hit = true ↔
      ((GetRay2DCollisionLineSegment Real.sqrt ⟨⟨0, 0⟩, ⟨2, 0⟩⟩
          ⟨1500000, -1⟩ ⟨1500000 + 1, -1⟩).hit = true ∨
        (GetRay2DCollisionLineSegment Real.sqrt ⟨⟨0, 0⟩, ⟨2, 0⟩⟩
          ⟨1500000 + 1, -1⟩ ⟨1500000 + 1, -1 + 2⟩).hit = true ∨
        (GetRay2DCollisionLineSegment Real.sqrt ⟨⟨0, 0⟩, ⟨2, 0⟩⟩
          ⟨1500000 + 1, -1 + 2⟩ ⟨1500000, -1 + 2⟩).hit = true ∨
        (GetRay2DCollisionLineSegment Real.sqrt ⟨⟨0, 0⟩, ⟨2, 0⟩⟩
          ⟨1500000, -1 + 2⟩ ⟨1500000, -1⟩).hit = true)) := by
  have hsqrt : Real.sqrt ((2:ℝ) * 2 + 0 * 0) = 2 := by
    rw [show (2:ℝ) * 2 + 0 * 0 = 2 * 2 by norm_num]
    exact Real.sqrt_mul_self (by norm_num)
  have hleft : (GetRay2DCollisionLineSegment Real.sqrt ⟨⟨0, 0⟩, ⟨2, 0⟩⟩
      ⟨1500000, -1 + 2⟩ ⟨1500000, -1⟩).hit = true :=
    (seg_hit_iff Real.sqrt _ _ _).2 (by norm_num [segT, segS, cross, Vector2Subtract])
  have hrect : (GetRay2DCollisionRectangle Real.sqrt
      ⟨⟨0, 0⟩, ⟨2, 0⟩⟩ ⟨1500000, -1, 1, 2⟩).hit = false := by
    unfold GetRay2DCollisionRectangle
    apply closestHit_not_hit
    intro e he hhit
    simp only [rectangleEdges, List.mem_cons, List.mem_singleton, List.not_mem_nil,
      or_false] at he
    rcases he with rfl | rfl | rfl | rfl
    · exact absurd ((seg_hit_iff Real.sqrt _ _ _).1 hhit).1
        (by norm_num [cross, Vector2Subtract])
    · rw [seg_distance_of_hit Real.sqrt _ _ _ isSqrt_real hhit, hsqrt]
      norm_num [segT, cross, Vector2Subtract, RAYLENGTH]
    · exact absurd ((seg_hit_iff Real.sqrt _ _ _).1 hhit).1
        (by norm_num [cross, Vector2Subtract])
    · rw [seg_distance_of_hit Real.sqrt _ _ _ isSqrt_real hhit, hsqrt]
      norm_num [segT, cross, Vector2Subtract, RAYLENGTH]
  intro hiff
  have := hiff.2 (Or.inr (Or.inr (Or.inr hleft)))
  rw [hrect] at this
  exact absurd this (by simp)

/-- Over the reals, for a unit direction: if the segment test misses all three
edges the triangle test reports no hit, and if exactly one edge result is a
hit the triangle test returns that edge result unchanged. -/
theorem triangle_single_edge_real (hs : IsSqrt sqrtf)
    (hD : Vector2Length sqrtf ray.direction = 1) (p1 p2 p3 : Vector2 ℝ) :
    ((GetRay2DCollisionLineSegment sqrtf ray p1 p2).hit = false →
      (GetRay2DCollisionLineSegment sqrtf ray p2 p3).hit = false →
      (GetRay2DCollisionLineSegment sqrtf ray p3 p1).hit = false →
      (GetRay2DCollisionTriangle sqrtf ray p1 p2 p3).hit = false) ∧
    ((GetRay2DCollisionLineSegment sqrtf ray p1 p2).hit = true →
      (GetRay2DCollisionLineSegment sqrtf ray p2 p3).hit = false →
      (GetRay2DCollisionLineSegment sqrtf ray p3 p1).hit = false →
      GetRay2DCollisionTriangle sqrtf ray p1 p2 p3
        = GetRay2DCollisionLineSegment sqrtf ray p1 p2) ∧
    ((GetRay2DCollisionLineSegment sqrtf ray p1 p2).hit = false →
      (GetRay2DCollisionLineSegment sqrtf ray p2 p3).hit = true →
      (GetRay2DCollisionLineSegment sqrtf ray p3 p1).hit = false →
      GetRay2DCollisionTriangle sqrtf ray p1 p2 p3
        = GetRay2DCollisionLineSegment sqrtf ray p2 p3) ∧
    ((GetRay2DCollisionLineSegment sqrtf ray p1 p2).hit = false →
      (GetRay2DCollisionLineSegment sqrtf ray p2 p3).hit = false →
      (GetRay2DCollisionLineSegment sqrtf ray p3 p1).hit = true →
      GetRay2DCollisionTriangle sqrtf ray p1 p2 p3
        = GetRay2DCollisionLineSegment sqrtf ray p3 p1) := by
  have hiff := triangle_hit_iff sqrtf ray hs (hs.sq_of_length_eq_one hD).le p1 p2 p3
  have hmem : (GetRay2DCollisionTriangle sqrtf ray p1 p2 p3).hit = true →
      GetRay2DCollisionTriangle sqrtf ray p1 p2 p3
          = GetRay2DCollisionLineSegment sqrtf ray p1 p2 ∨
        GetRay2DCollisionTriangle sqrtf ray p1 p2 p3
          = GetRay2DCollisionLineSegment sqrtf ray p2 p3 ∨
        GetRay2DCollisionTriangle sqrtf ray p1 p2 p3
          = GetRay2DCollisionLineSegment sqrtf ray p3 p1 := by
    intro h
    have hm := (closestHit_of_hit (triangleEdges sqrtf ray p1 p2 p3) h).1
    simpa only [triangleEdges, List.mem_cons, List.mem_singleton, List.not_mem_nil,
      or_false] using hm
  simp only [triangleEdges, List.mem_cons, List.mem_singleton, List.not_mem_nil, or_false,
    exists_eq_or_imp, exists_eq_left] at hiff
  refine ⟨fun h1 h2 h3 => ?_, fun h1 h2 h3 => ?_, fun h1 h2 h3 => ?_, fun h1 h2 h3 => ?_⟩
  · rw [← Bool.not_eq_true, hiff, h1, h2, h3]
    simp
  · have ht := hiff.2 (Or.inl h1)
    rcases hmem ht with h | h | h
    · exact h
    · rw [h, h2] at ht; exact absurd ht (by simp)
    · rw [h, h3] at ht; exact absurd ht (by simp)
  · have ht := hiff.2 (Or.inr (Or.inl h2))
    rcases hmem ht with h | h | h
    · rw [h, h1] at ht; exact absurd ht (by simp)
    · exact h
    · rw [h, h3] at ht; exact absurd ht (by simp)
  · have ht := hiff.2 (Or.inr (Or.inr h3))
    rcases hmem ht with h | h | h
    · rw [h, h1] at ht; exact absurd ht (by simp)
    · rw [h, h2] at ht; exact absurd ht (by simp)
    · exact h

end Shapes

/-! ## The circle test -/

section Circle

variable (sqrtf : ℝ → ℝ) (ray : Ray2D ℝ) (center : Vector2 ℝ) (radius : ℝ)

/-- The hit flag of the circle test is the comparison `d <= radius`. -/
theorem circle_hit_eq :
    (GetRay2DCollisionCircle sqrtf ray center radius).hit
      = decide (Vector2Length sqrtf
          (Vector2Subtract (Vector2Subtract center ray.position)
            (Vector2Scale ray.direction
              (Vector2DotProduct (Vector2Subtract center ray.position) ray.direction)))
          ≤ radius) := by
  unfold GetRay2DCollisionCircle
  simp only
  split_ifs <;> rfl

/-- For a unit direction the remainder `u2 = u - u1` has length
`|cross(u, direction)|`. -/
theorem circle_d_eq (hs : IsSqrt sqrtf)
    (hD : ray.direction.x * ray.direction.x + ray.direction.y * ray.direction.y = 1) :
    Vector2Length sqrtf
        (Vector2Subtract (Vector2Subtract center ray.position)
          (Vector2Scale ray.direction
            (Vector2DotProduct (Vector2Subtract center ray.position) ray.direction)))
      = |cross (Vector2Subtract center ray.position) ray.direction| := by
  simp only [Vector2Length, Vector2Subtract, Vector2Scale, Vector2DotProduct, cross]
  rw [hs.eq_sqrt (add_nonneg (mul_self_nonneg _) (mul_self_nonneg _)),
    ← Real.sqrt_mul_self_eq_abs]
  congr 1
  linear_combination
    (((center.x - ray.position.x) * ray.direction.x
        + (center.y - ray.position.y) * ray.direction.y) ^ 2
      - ((center.x - ray.position.x) ^ 2 + (center.y - ray.position.y) ^ 2)) * hD

/-- The branch taken when the origin is outside the circle. -/
theorem circle_outside_eq
    (h : Vector2Length sqrtf (Vector2Subtract center ray.position) > radius) :
    (GetRay2DCollisionCircle sqrtf ray center radius).point
      = Vector2Add ray.position (Vector2Scale ray.direction
          (Vector2DotProduct (Vector2Subtract center ray.position) ray.direction
            - circleM sqrtf ray center radius)) ∧
    (GetRay2DCollisionCircle sqrtf ray center radius).distance
      = Vector2Length sqrtf (Vector2Subtract
          (GetRay2DCollisionCircle sqrtf ray center radius).point ray.position) ∧
    (GetRay2DCollisionCircle sqrtf ray center radius).normal
      = Vector2Normalize sqrtf (Vector2Subtract
          (GetRay2DCollisionCircle sqrtf ray center radius).point center) := by
  unfold GetRay2DCollisionCircle
  simp only [if_pos h, and_true]
  simp only [circleM, Vector2Add, Vector2Scale]
  ext <;> simp only <;> ring

/-- The branch taken when the origin is not outside the circle. -/
theorem circle_inside_eq
    (h : ¬ Vector2Length sqrtf (Vector2Subtract center ray.position) > radius) :
    (GetRay2DCollisionCircle sqrtf ray center radius).point
      = Vector2Add ray.position (Vector2Scale ray.direction
          (Vector2DotProduct (Vector2Subtract center ray.position) ray.direction
            + circleM sqrtf ray center radius)) ∧
    (GetRay2DCollisionCircle sqrtf ray center radius).distance
      = Vector2Length sqrtf (Vector2Subtract
          (GetRay2DCollisionCircle sqrtf ray center radius).point ray.position) ∧
    (GetRay2DCollisionCircle sqrtf ray center radius).normal
      = Vector2Negate (Vector2Normalize sqrtf (Vector2Subtract
          (GetRay2DCollisionCircle sqrtf ray center radius).point center)) := by
  unfold GetRay2DCollisionCircle
  simp only [if_neg h, and_true]
  simp only [circleM, Vector2Add, Vector2Scale]
  ext <;> simp only <;> ring

/-- For a unit direction the hit flag says `|cross(u, direction)| <= radius`. -/
theorem circle_hit_iff (hs : IsSqrt sqrtf)
    (hD : ray.direction.x * ray.direction.x + ray.direction.y * ray.direction.y = 1) :
    (GetRay2DCollisionCircle sqrtf ray center radius).hit = true ↔
      |cross (Vector2Subtract center ray.position) ray.direction| ≤ radius := by
  rw [circle_hit_eq, circle_d_eq sqrtf ray center hs hD, decide_eq_true_iff]

/-- For a unit direction and `|cross(u, direction)| <= radius`, the local `m` is
the non-negative root of `radius^2 - cross(u, direction)^2`. -/
theorem circleM_spec (hs : IsSqrt sqrtf)
    (hD : ray.direction.x * ray.direction.x + ray.direction.y * ray.direction.y = 1)
    (h : |cross (Vector2Subtract center ray.position) ray.direction| ≤ radius) :
    circleM sqrtf ray center radius
      = Real.sqrt (radius ^ 2 - cross (Vector2Subtract center ray.position) ray.direction ^ 2) ∧
    0 ≤ circleM sqrtf ray center radius ∧
    circleM sqrtf ray center radius * circleM sqrtf ray center radius
      = radius * radius
        - cross (Vector2Subtract center ray.position) ray.direction
          * cross (Vector2Subtract center ray.position) ray.direction := by
  have h0 : 0 ≤ radius * radius
      - |cross (Vector2Subtract center ray.position) ray.direction|
        * |cross (Vector2Subtract center ray.position) ray.direction| := by
    have := abs_nonneg (cross (Vector2Subtract center ray.position) ray.direction)
    nlinarith
  have hm : circleM sqrtf ray center radius = sqrtf (radius * radius
      - |cross (Vector2Subtract center ray.position) ray.direction|
        * |cross (Vector2Subtract center ray.position) ray.direction|) := by
    rw [circleM, circle_d_eq sqrtf ray center hs hD]
  obtain ⟨h1, h2⟩ := hs _ h0
  rw [hm]
  refine ⟨?_, h1, ?_⟩
  · rw [hs.eq_sqrt h0, abs_mul_abs_self]
    congr 1
    ring
  · rw [h2, abs_mul_abs_self]

/-- C2: reading floats as reals, for a unit-length direction the circle test
reports a hit exactly when the distance `d = |cross(center - origin, direction)|`
from the center to the supporting line of the ray is at most the radius; so
`d > radius` gives no hit, and in the tangent case `d = radius`, `radius > 0`,
the result is a hit at `origin + dot(center - origin, direction) * direction`. -/
theorem GetRay2DCollisionCircle_hit_iff_distance_le_radius (hs : IsSqrt sqrtf)
    (hD : Vector2Length sqrtf ray.direction = 1) :
    ((GetRay2DCollisionCircle sqrtf ray center radius).hit = true ↔
      |cross (Vector2Subtract center ray.position) ray.direction| ≤ radius) ∧
    (radius < |cross (Vector2Subtract center ray.position) ray.direction| →
      (GetRay2DCollisionCircle sqrtf ray center radius).hit = false) ∧
    (|cross (Vector2Subtract center ray.position) ray.direction| = radius → 0 < radius →
      (GetRay2DCollisionCircle sqrtf ray center radius).hit = true ∧
      (GetRay2DCollisionCircle sqrtf ray center radius).point
        = Vector2Add ray.position (Vector2Scale ray.direction
            (Vector2DotProduct (Vector2Subtract center ray.position) ray.direction))) := by
  have hD2 := hs.sq_of_length_eq_one hD
  have hiff := circle_hit_iff sqrtf ray center radius hs hD2
  refine ⟨hiff, fun h => ?_, fun h hr => ⟨hiff.2 h.le, ?_⟩⟩
  · rw [← Bool.not_eq_true, hiff]
    exact not_le.mpr h
  · obtain ⟨-, -, hmm⟩ := circleM_spec sqrtf ray center radius hs hD2 h.le
    have hm0 : circleM sqrtf ray center radius = 0 := by
      have : circleM sqrtf ray center radius * circleM sqrtf ray center radius = 0 := by
        rw [hmm, ← h, abs_mul_abs_self]; ring
      exact mul_self_eq_zero.mp this
    by_cases hout : Vector2Length sqrtf (Vector2Subtract center ray.position) > radius
    · rw [(circle_outside_eq sqrtf ray center radius hout).1, hm0, sub_zero]
    · rw [(circle_inside_eq sqrtf ray center radius hout).1, hm0, add_zero]

/-- Witness for C2: the ray from `(0,0)` along `(1,0)` touches the circle with
center `(3,1)` and radius `1` at `(3,0)`. -/
theorem GetRay2DCollisionCircle_hit_iff_distance_le_radius_witness :
    IsSqrt Real.sqrt ∧ Vector2Length Real.sqrt (⟨1, 0⟩ : Vector2 ℝ) = 1 ∧
    |cross (Vector2Subtract (⟨3, 1⟩ : Vector2 ℝ) ⟨0, 0⟩) ⟨1, 0⟩| = 1 ∧ (0:ℝ) < 1 ∧
    (GetRay2DCollisionCircle Real.sqrt ⟨⟨0, 0⟩, ⟨1, 0⟩⟩ ⟨3, 1⟩ 1).hit = true ∧
    (GetRay2DCollisionCircle Real.sqrt ⟨⟨0, 0⟩, ⟨1, 0⟩⟩ ⟨3, 1⟩ 1).point
      = Vector2Add ⟨0, 0⟩ (Vector2Scale ⟨1, 0⟩
          (Vector2DotProduct (Vector2Subtract ⟨3, 1⟩ ⟨0, 0⟩) ⟨1, 0⟩)) :=
  have hD : Vector2Length Real.sqrt (⟨1, 0⟩ : Vector2 ℝ) = 1 := by
    simp [Vector2Length]
  have hc : |cross (Vector2Subtract (⟨3, 1⟩ : Vector2 ℝ) ⟨0, 0⟩) ⟨1, 0⟩| = 1 := by
    norm_num [cross, Vector2Subtract]
  ⟨isSqrt_real, hD, hc, one_pos,
    (GetRay2DCollisionCircle_hit_iff_distance_le_radius Real.sqrt ⟨⟨0, 0⟩, ⟨1, 0⟩⟩ ⟨3, 1⟩ 1
      isSqrt_real hD).2.2 hc one_pos⟩

/-- For a unit direction both candidate points `origin + (k ± m) * direction`
are at squared distance `radius^2` from the center. -/
theorem circle_candidate_sq
    (hD : ray.direction.x * ray.direction.x + ray.direction.y * ray.direction.y = 1)
    (m : ℝ)
    (hm : m * m = radius * radius
      - cross (Vector2Subtract center ray.position) ray.direction
        * cross (Vector2Subtract center ray.position) ray.direction)
    (t : ℝ)
    (ht : t = Vector2DotProduct (Vector2Subtract center ray.position) ray.direction - m ∨
      t = Vector2DotProduct (Vector2Subtract center ray.position) ray.direction + m) :
    (Vector2Subtract (Vector2Add ray.position (Vector2Scale ray.direction t)) center).x
        * (Vector2Subtract (Vector2Add ray.position (Vector2Scale ray.direction t)) center).x
      + (Vector2Subtract (Vector2Add ray.position (Vector2Scale ray.direction t)) center).y
        * (Vector2Subtract (Vector2Add ray.position (Vector2Scale ray.direction t)) center).y
      = radius * radius := by
  simp only [cross, Vector2DotProduct, Vector2Subtract, Vector2Add, Vector2Scale] at hm ht ⊢
  rcases ht with rfl | rfl
  · linear_combination
      ((((center.x - ray.position.x) * ray.direction.x
          + (center.y - ray.position.y) * ray.direction.y) - m) ^ 2
        - ((center.x - ray.position.x) ^ 2 + (center.y - ray.position.y) ^ 2)) * hD + hm
  · linear_combination
      ((((center.x - ray.position.x) * ray.direction.x
          + (center.y - ray.position.y) * ray.direction.y) + m) ^ 2
        - ((center.x - ray.position.x) ^ 2 + (center.y - ray.position.y) ^ 2)) * hD + hm

/-- For a unit direction, `|u|^2 = dot(u, direction)^2 + cross(u, direction)^2`. -/
theorem circle_pythagoras
    (hD : ray.direction.x * ray.direction.x + ray.direction.y * ray.direction.y = 1) :
    (Vector2Subtract center ray.position).x * (Vector2Subtract center ray.position).x
      + (Vector2Subtract center ray.position).y * (Vector2Subtract center ray.position).y
      = Vector2DotProduct (Vector2Subtract center ray.position) ray.direction
          * Vector2DotProduct (Vector2Subtract center ray.position) ray.direction
        + cross (Vector2Subtract center ray.position) ray.direction
          * cross (Vector2Subtract center ray.position) ray.direction := by
  simp only [cross, Vector2DotProduct, Vector2Subtract]
  linear_combination
    (-((center.x - ray.position.x) ^ 2 + (center.y - ray.position.y) ^ 2)) * hD

/-- C3: reading floats as reals, for a circle of radius `> 0` and a ray with
unit-length direction whose origin is strictly outside the circle, which points
toward the circle (`k = dot(center - origin, direction) >= 0`) and for which
the circle test reports a hit: the returned point is at distance exactly
`radius` from the center; it is `origin + (k - m) * direction` with
`m = sqrt(radius^2 - d^2)`, `d = |cross(center - origin, direction)|`, the
nearer to the origin of the two intersection points
`origin + (k - m) * direction` and `origin + (k + m) * direction`; and the
returned normal points outward: `dot(normal, point - center) > 0`. -/
theorem GetRay2DCollisionCircle_outside_nearer_outward (hs : IsSqrt sqrtf)
    (hD : Vector2Length sqrtf ray.direction = 1) (hr : 0 < radius)
    (hout : Vector2Length sqrtf (Vector2Subtract center ray.position) > radius)
    (hk : 0 ≤ Vector2DotProduct (Vector2Subtract center ray.position) ray.direction)
    (hhit : (GetRay2DCollisionCircle sqrtf ray center radius).hit = true) :
    Vector2Length sqrtf
        (Vector2Subtract (GetRay2DCollisionCircle sqrtf ray center radius).point center)
      = radius ∧
    (GetRay2DCollisionCircle sqrtf ray center radius).point
      = Vector2Add ray.position (Vector2Scale ray.direction
          (Vector2DotProduct (Vector2Subtract center ray.position) ray.direction
            - Real.sqrt (radius ^ 2
                - |cross (Vector2Subtract center ray.position) ray.direction| ^ 2))) ∧
    Vector2Length sqrtf
        (Vector2Subtract
          (Vector2Add ray.position (Vector2Scale ray.direction
            (Vector2DotProduct (Vector2Subtract center ray.position) ray.direction
              + Real.sqrt (radius ^ 2
                  - |cross (Vector2Subtract center ray.position) ray.direction| ^ 2))))
          center)
      = radius ∧
    Vector2Length sqrtf
        (Vector2Subtract (GetRay2DCollisionCircle sqrtf ray center radius).point ray.position)
      ≤ Vector2Length sqrtf
        (Vector2Subtract
          (Vector2Add ray.position (Vector2Scale ray.direction
            (Vector2DotProduct (Vector2Subtract center ray.position) ray.direction
              + Real.sqrt (radius ^ 2
                  - |cross (Vector2Subtract center ray.position) ray.direction| ^ 2))))
          ray.position) ∧
    0 < Vector2DotProduct (GetRay2DCollisionCircle sqrtf ray center radius).normal
      (Vector2Subtract (GetRay2DCollisionCircle sqrtf ray center radius).point center) := by
  have hD2 := hs.sq_of_length_eq_one hD
  have hle := (circle_hit_iff sqrtf ray center radius hs hD2).1 hhit
  obtain ⟨hm, hm0, hmm⟩ := circleM_spec sqrtf ray center radius hs hD2 hle
  obtain ⟨hp, -, hn⟩ := circle_outside_eq sqrtf ray center radius hout
  rw [sq_abs, ← hm]
  have hsq1 := circle_candidate_sq ray center radius hD2 _ hmm _ (Or.inl rfl)
  have hsq2 := circle_candidate_sq ray center radius hD2 _ hmm _ (Or.inr rfl)
  rw [hn, hp]
  refine ⟨?_, rfl, ?_, ?_, ?_⟩
  · unfold Vector2Length
    rw [hsq1]
    exact hs.sqrt_mul_self hr.le
  · unfold Vector2Length
    rw [hsq2]
    exact hs.sqrt_mul_self hr.le
  · rw [hs.length_move hD2, hs.length_move hD2]
    exact abs_le_abs (by linarith) (by linarith)
  · rw [hs.normalize_dot_self hr hsq1]
    exact hr

/-- Witness for C3: the ray from `(0,0)` along `(1,0)` against the circle with
center `(3,0)` and radius `1`. -/
theorem GetRay2DCollisionCircle_outside_nearer_outward_witness :
    IsSqrt Real.sqrt ∧ Vector2Length Real.sqrt (⟨1, 0⟩ : Vector2 ℝ) = 1 ∧ (0:ℝ) < 1 ∧
    Vector2Length Real.sqrt (Vector2Subtract (⟨3, 0⟩ : Vector2 ℝ) ⟨0, 0⟩) > 1 ∧
    0 ≤ Vector2DotProduct (Vector2Subtract (⟨3, 0⟩ : Vector2 ℝ) ⟨0, 0⟩) ⟨1, 0⟩ ∧
    (GetRay2DCollisionCircle Real.sqrt ⟨⟨0, 0⟩, ⟨1, 0⟩⟩ ⟨3, 0⟩ 1).hit = true ∧
    Vector2Length Real.sqrt
        (Vector2Subtract (GetRay2DCollisionCircle Real.sqrt ⟨⟨0, 0⟩, ⟨1, 0⟩⟩ ⟨3, 0⟩ 1).point
          ⟨3, 0⟩) = 1 ∧
    0 < Vector2DotProduct (GetRay2DCollisionCircle Real.sqrt ⟨⟨0, 0⟩, ⟨1, 0⟩⟩ ⟨3, 0⟩ 1).normal
      (Vector2Subtract (GetRay2DCollisionCircle Real.sqrt ⟨⟨0, 0⟩, ⟨1, 0⟩⟩ ⟨3, 0⟩ 1).point
        ⟨3, 0⟩) :=
  have hD : Vector2Length Real.sqrt (⟨1, 0⟩ : Vector2 ℝ) = 1 := by
    simp [Vector2Length]
  have hout : Vector2Length Real.sqrt (Vector2Subtract (⟨3, 0⟩ : Vector2 ℝ) ⟨0, 0⟩) > 1 := by
    have h3 : Vector2Length Real.sqrt (Vector2Subtract (⟨3, 0⟩ : Vector2 ℝ) ⟨0, 0⟩) = 3 := by
      simp only [Vector2Length, Vector2Subtract]
      rw [show ((3:ℝ) - 0) * (3 - 0) + (0 - 0) * (0 - 0) = 3 * 3 by norm_num]
      exact Real.sqrt_mul_self (by norm_num)
    rw [h3]; norm_num
  have hk : 0 ≤ Vector2DotProduct (Vector2Subtract (⟨3, 0⟩ : Vector2 ℝ) ⟨0, 0⟩) ⟨1, 0⟩ := by
    norm_num [Vector2DotProduct, Vector2Subtract]
  have hhit : (GetRay2DCollisionCircle Real.sqrt ⟨⟨0, 0⟩, ⟨1, 0⟩⟩ ⟨3, 0⟩ 1).hit = true :=
    (circle_hit_iff Real.sqrt ⟨⟨0, 0⟩, ⟨1, 0⟩⟩ ⟨3, 0⟩ 1 isSqrt_real (by norm_num)).2
      (by norm_num [cross, Vector2Subtract])
  have hmain := GetRay2DCollisionCircle_outside_nearer_outward Real.sqrt
    ⟨⟨0, 0⟩, ⟨1, 0⟩⟩ ⟨3, 0⟩ 1 isSqrt_real hD one_pos hout hk hhit
  ⟨isSqrt_real, hD, one_pos, hout, hk, hhit, hmain.1, hmain.2.2.2.2⟩

/-- C4: reading floats as reals, for a circle with center `C` and radius
`R > 0` and a ray with unit-length direction whose origin is inside the circle
(`|C - origin| <= R`): the circle test reports a hit, the returned point is at
distance exactly `R` from `C` and on the ray ahead of the origin
(`point = origin + t * direction` with `t >= 0` and `distance = t`), and the
returned normal points inward: `dot(normal, point - C) < 0`. -/
theorem GetRay2DCollisionCircle_inside_exit_inward (hs : IsSqrt sqrtf)
    (hD : Vector2Length sqrtf ray.direction = 1) (hr : 0 < radius)
    (hin : Vector2Length sqrtf (Vector2Subtract center ray.position) ≤ radius) :
    (GetRay2DCollisionCircle sqrtf ray center radius).hit = true ∧
    Vector2Length sqrtf
        (Vector2Subtract (GetRay2DCollisionCircle sqrtf ray center radius).point center)
      = radius ∧
    (∃ t : ℝ, 0 ≤ t ∧
      (GetRay2DCollisionCircle sqrtf ray center radius).point
        = Vector2Add ray.position (Vector2Scale ray.direction t) ∧
      (GetRay2DCollisionCircle sqrtf ray center radius).distance = t) ∧
    Vector2DotProduct (GetRay2DCollisionCircle sqrtf ray center radius).normal
      (Vector2Subtract (GetRay2DCollisionCircle sqrtf ray center radius).point center) < 0 := by
  have hD2 := hs.sq_of_length_eq_one hD
  have hpy := circle_pythagoras ray center hD2
  obtain ⟨hl0, hll⟩ := hs
    ((Vector2Subtract center ray.position).x * (Vector2Subtract center ray.position).x
      + (Vector2Subtract center ray.position).y * (Vector2Subtract center ray.position).y)
    (add_nonneg (mul_self_nonneg _) (mul_self_nonneg _))
  have hin2 := hin
  unfold Vector2Length at hin2
  have hle : |cross (Vector2Subtract center ray.position) ray.direction| ≤ radius := by
    refine abs_le_of_sq_le_sq ?_ hr.le
    nlinarith [mul_self_nonneg
      (Vector2DotProduct (Vector2Subtract center ray.position) ray.direction)]
  have hhit := (circle_hit_iff sqrtf ray center radius hs hD2).2 hle
  obtain ⟨-, hm0, hmm⟩ := circleM_spec sqrtf ray center radius hs hD2 hle
  obtain ⟨hp, hd, hn⟩ := circle_inside_eq sqrtf ray center radius (not_lt.mpr hin)
  have hsq := circle_candidate_sq ray center radius hD2 _ hmm _ (Or.inr rfl)
  have ht : 0 ≤ Vector2DotProduct (Vector2Subtract center ray.position) ray.direction
      + circleM sqrtf ray center radius := by
    by_contra hneg
    rw [not_le] at hneg
    nlinarith
  rw [hn, hd, hp]
  refine ⟨hhit, ?_, ⟨_, ht, rfl, ?_⟩, ?_⟩
  · unfold Vector2Length
    rw [hsq]
    exact hs.sqrt_mul_self hr.le
  · rw [hs.length_move hD2, abs_of_nonneg ht]
  · have := hs.normalize_dot_self hr hsq
    simp only [Vector2DotProduct, Vector2Negate] at this ⊢
    linarith

/-- Witness for C4: the ray from `(0,0)` along `(1,0)` inside the circle with
center `(0,0)` and radius `1`. -/
theorem GetRay2DCollisionCircle_inside_exit_inward_witness :
    IsSqrt Real.sqrt ∧ Vector2Length Real.sqrt (⟨1, 0⟩ : Vector2 ℝ) = 1 ∧ (0:ℝ) < 1 ∧
    Vector2Length Real.sqrt (Vector2Subtract (⟨0, 0⟩ : Vector2 ℝ) ⟨0, 0⟩) ≤ 1 ∧
    (GetRay2DCollisionCircle Real.sqrt ⟨⟨0, 0⟩, ⟨1, 0⟩⟩ ⟨0, 0⟩ 1).hit = true ∧
    Vector2DotProduct (GetRay2DCollisionCircle Real.sqrt ⟨⟨0, 0⟩, ⟨1, 0⟩⟩ ⟨0, 0⟩ 1).normal
      (Vector2Subtract (GetRay2DCollisionCircle Real.sqrt ⟨⟨0, 0⟩, ⟨1, 0⟩⟩ ⟨0, 0⟩ 1).point
        ⟨0, 0⟩) < 0 :=
  have hD : Vector2Length Real.sqrt (⟨1, 0⟩ : Vector2 ℝ) = 1 := by
    simp [Vector2Length]
  have hin : Vector2Length Real.sqrt (Vector2Subtract (⟨0, 0⟩ : Vector2 ℝ) ⟨0, 0⟩) ≤ 1 := by
    simp [Vector2Length, Vector2Subtract]
  have hmain := GetRay2DCollisionCircle_inside_exit_inward Real.sqrt
    ⟨⟨0, 0⟩, ⟨1, 0⟩⟩ ⟨0, 0⟩ 1 isSqrt_real hD one_pos hin
  ⟨isSqrt_real, hD, one_pos, hin, hmain.1, hmain.2.2.2⟩

end Circle

/-! ## The normal of the segment test -/

section SegmentNormal

variable (sqrtf : ℝ → ℝ) (ray : Ray2D ℝ) (p1 p2 : Vector2 ℝ)

theorem Sign_eq_one_iff (value : ℝ) : Sign value = 1 ↔ 0 < value := by
  unfold Sign
  split_ifs with h1 h2
  · simp [h1]
  · constructor
    · intro h; norm_num at h
    · intro h; exact absurd h h1
  · constructor
    · intro h; norm_num at h
    · intro h; exact absurd h h1

theorem Sign_eq_neg_one_iff (value : ℝ) : Sign value = -1 ↔ value < 0 := by
  unfold Sign
  split_ifs with h1 h2
  · constructor
    · intro h; norm_num at h
    · intro h; exact absurd h (not_lt.mpr (le_of_lt h1))
  · simp [h2]
  · constructor
    · intro h; norm_num at h
    · intro h; exact absurd h h2

/-- On a hit the normal is chosen by the sign of `segSide`. -/
theorem seg_normal_of_hit
    (h : (GetRay2DCollisionLineSegment sqrtf ray p1 p2).hit = true) :
    (GetRay2DCollisionLineSegment sqrtf ray p1 p2).normal
      = if 0 < segSide ray p1 p2 then
          Vector2Negate (Vector2CrossProduct (Vector2Normalize sqrtf (Vector2Subtract p1 p2)))
        else if segSide ray p1 p2 < 0 then
          Vector2CrossProduct (Vector2Normalize sqrtf (Vector2Subtract p1 p2))
        else ⟨0, 0⟩ := by
  unfold GetRay2DCollisionLineSegment at h ⊢
  simp only [zeroCollision, Sign_eq_one_iff, Sign_eq_neg_one_iff, segSide] at h ⊢
  split_ifs at h ⊢ <;> rfl

/-- The value `segSide` is minus the cross product of `origin - p1` and
`p2 - p1`. -/
theorem segSide_eq :
    segSide ray p1 p2
      = -cross (Vector2Subtract ray.position p1) (Vector2Subtract p2 p1) := by
  simp only [segSide, cross, Vector2Subtract]
  ring

/-- A hit forces `p1 - p2` to have positive squared length. -/
theorem seg_pos_of_hit
    (h : (GetRay2DCollisionLineSegment sqrtf ray p1 p2).hit = true) :
    0 < (Vector2Subtract p1 p2).x * (Vector2Subtract p1 p2).x
      + (Vector2Subtract p1 p2).y * (Vector2Subtract p1 p2).y := by
  obtain ⟨hc, -⟩ := (seg_hit_iff sqrtf ray p1 p2).mp h
  by_contra hcon
  have h0 := le_antisymm (not_lt.mp hcon) (add_nonneg (mul_self_nonneg _) (mul_self_nonneg _))
  obtain ⟨hx, hy⟩ := mul_self_add_mul_self_eq_zero.mp h0
  apply hc
  simp only [Vector2Subtract, cross] at hx hy ⊢
  linear_combination (-ray.direction.x) * hy + ray.direction.y * hx

/-- For a hit with the origin off the line through `p1` and `p2`, the normal
has length one, is perpendicular to the segment and points to the side of the
origin. -/
theorem seg_normal_off_line (hs : IsSqrt sqrtf)
    (hhit : (GetRay2DCollisionLineSegment sqrtf ray p1 p2).hit = true)
    (hline : cross (Vector2Subtract ray.position p1) (Vector2Subtract p2 p1) ≠ 0) :
    Vector2Length sqrtf (GetRay2DCollisionLineSegment sqrtf ray p1 p2).normal = 1 ∧
    Vector2DotProduct (GetRay2DCollisionLineSegment sqrtf ray p1 p2).normal
      (Vector2Subtract p2 p1) = 0 ∧
    0 < Vector2DotProduct (GetRay2DCollisionLineSegment sqrtf ray p1 p2).normal
      (Vector2Subtract ray.position p1) := by
  obtain ⟨hpos, hsq, hnorm⟩ := hs.normalize_eq (seg_pos_of_hit sqrtf ray p1 p2 hhit)
  rw [seg_normal_of_hit sqrtf ray p1 p2 hhit, hnorm, segSide_eq]
  generalize Vector2Length sqrtf (Vector2Subtract p1 p2) = len at hpos hsq
  have hinv : 0 < 1 / len := by positivity
  have hlen : len ≠ 0 := hpos.ne.symm
  rcases lt_or_gt_of_ne hline with hlt | hgt
  · have h1 : 0 < -cross (Vector2Subtract ray.position p1) (Vector2Subtract p2 p1) := by
      linarith
    rw [if_pos h1]
    refine ⟨hs.length_eq_one ?_, ?_, ?_⟩
    · simp only [Vector2Negate, Vector2CrossProduct, Vector2Subtract] at hsq ⊢
      field_simp
      linear_combination -hsq
    · simp only [Vector2Negate, Vector2CrossProduct, Vector2DotProduct, Vector2Subtract]
      ring
    · simp only [Vector2Negate, Vector2CrossProduct, Vector2DotProduct, Vector2Subtract,
        cross] at h1 ⊢
      nlinarith [mul_pos h1 hinv]
  · have h1 : ¬ 0 < -cross (Vector2Subtract ray.position p1) (Vector2Subtract p2 p1) := by
      linarith
    have h2 : -cross (Vector2Subtract ray.position p1) (Vector2Subtract p2 p1) < 0 := by
      linarith
    rw [if_neg h1, if_pos h2]
    refine ⟨hs.length_eq_one ?_, ?_, ?_⟩
    · simp only [Vector2CrossProduct, Vector2Subtract] at hsq ⊢
      field_simp
      linear_combination -hsq
    · simp only [Vector2CrossProduct, Vector2DotProduct, Vector2Subtract]
      ring
    · simp only [Vector2CrossProduct, Vector2DotProduct, Vector2Subtract, cross] at hgt ⊢
      nlinarith [mul_pos hgt hinv]

/-- For a hit with the origin on the line through `p1` and `p2`, the normal is
left at zero. -/
theorem seg_normal_on_line
    (hhit : (GetRay2DCollisionLineSegment sqrtf ray p1 p2).hit = true)
    (hline : cross (Vector2Subtract ray.position p1) (Vector2Subtract p2 p1) = 0) :
    (GetRay2DCollisionLineSegment sqrtf ray p1 p2).normal = ⟨0, 0⟩ := by
  rw [seg_normal_of_hit sqrtf ray p1 p2 hhit, segSide_eq, hline, neg_zero,
    if_neg (lt_irrefl 0), if_neg (lt_irrefl 0)]

/-- C17: reading floats as reals, for a hit of the segment test with the ray
origin off the line through `p1` and `p2` (`cross(origin - p1, p2 - p1) != 0`),
the returned normal has length exactly 1, is perpendicular to the segment
(`dot(normal, p2 - p1) = 0`) and points to the side on which the origin lies
(`dot(normal, origin - p1) > 0`); for a hit with the origin on that line the
returned normal is the zero vector. -/
theorem GetRay2DCollisionLineSegment_normal (hs : IsSqrt sqrtf)
    (hhit : (GetRay2DCollisionLineSegment sqrtf ray p1 p2).hit = true) :
    (cross (Vector2Subtract ray.position p1) (Vector2Subtract p2 p1) ≠ 0 →
      Vector2Length sqrtf (GetRay2DCollisionLineSegment sqrtf ray p1 p2).normal = 1 ∧
      Vector2DotProduct (GetRay2DCollisionLineSegment sqrtf ray p1 p2).normal
        (Vector2Subtract p2 p1) = 0 ∧
      0 < Vector2DotProduct (GetRay2DCollisionLineSegment sqrtf ray p1 p2).normal
        (Vector2Subtract ray.position p1)) ∧
    (cross (Vector2Subtract ray.position p1) (Vector2Subtract p2 p1) = 0 →
      (GetRay2DCollisionLineSegment sqrtf ray p1 p2).normal = ⟨0, 0⟩) := by
  constructor
  · intro hline
    exact seg_normal_off_line sqrtf ray p1 p2 hs hhit hline
  · intro hline
    exact seg_normal_on_line sqrtf ray p1 p2 hhit hline

/-- Witness for C17: the ray from `(0,0)` along `(1,0)` against the segment
`(1,-1)`-`(1,1)`; the origin is off the line `x = 1`. -/
theorem GetRay2DCollisionLineSegment_normal_witness :
    IsSqrt Real.sqrt ∧
    (GetRay2DCollisionLineSegment Real.sqrt ⟨⟨0, 0⟩, ⟨1, 0⟩⟩ ⟨1, -1⟩ ⟨1, 1⟩).hit = true ∧
    cross (Vector2Subtract (⟨0, 0⟩ : Vector2 ℝ) ⟨1, -1⟩) (Vector2Subtract ⟨1, 1⟩ ⟨1, -1⟩) ≠ 0 ∧
    Vector2Length Real.sqrt
      (GetRay2DCollisionLineSegment Real.sqrt ⟨⟨0, 0⟩, ⟨1, 0⟩⟩ ⟨1, -1⟩ ⟨1, 1⟩).normal = 1 ∧
    0 < Vector2DotProduct
      (GetRay2DCollisionLineSegment Real.sqrt ⟨⟨0, 0⟩, ⟨1, 0⟩⟩ ⟨1, -1⟩ ⟨1, 1⟩).normal
      (Vector2Subtract ⟨0, 0⟩ ⟨1, -1⟩) :=
  have hhit : (GetRay2DCollisionLineSegment Real.sqrt
      ⟨⟨0, 0⟩, ⟨1, 0⟩⟩ ⟨1, -1⟩ ⟨1, 1⟩).hit = true :=
    (seg_hit_iff Real.sqrt _ _ _).2 (by norm_num [segT, segS, cross, Vector2Subtract])
  have hline : cross (Vector2Subtract (⟨0, 0⟩ : Vector2 ℝ) ⟨1, -1⟩)
      (Vector2Subtract ⟨1, 1⟩ ⟨1, -1⟩) ≠ 0 := by
    norm_num [cross, Vector2Subtract]
  have hmain := (GetRay2DCollisionLineSegment_normal Real.sqrt ⟨⟨0, 0⟩, ⟨1, 0⟩⟩ ⟨1, -1⟩ ⟨1, 1⟩
    isSqrt_real hhit).1 hline
  ⟨isSqrt_real, hhit, hline, hmain.1, hmain.2.2⟩

/-- Swapping the endpoints keeps the ray parameter of the crossing. -/
theorem segT_swap : segT ray p2 p1 = segT ray p1 p2 := by
  have hn : cross (Vector2Subtract p2 ray.position) (Vector2Subtract p1 p2)
      = -cross (Vector2Subtract p1 ray.position) (Vector2Subtract p2 p1) := by
    simp only [cross, Vector2Subtract]; ring
  have hd : cross ray.direction (Vector2Subtract p1 p2)
      = -cross ray.direction (Vector2Subtract p2 p1) := by
    simp only [cross, Vector2Subtract]; ring
  rw [segT, segT, hn, hd, neg_div_neg_eq]

/-- Swapping the endpoints turns the segment parameter `s` into `1 - s`. -/
theorem segS_swap (hc : cross ray.direction (Vector2Subtract p2 p1) ≠ 0) :
    segS ray p2 p1 = 1 - segS ray p1 p2 := by
  simp only [segS, cross, Vector2Subtract] at hc ⊢
  have hc2 : ray.direction.x * (p1.y - p2.y) - ray.direction.y * (p1.x - p2.x) ≠ 0 := by
    intro h; apply hc; linear_combination -h
  field_simp
  ring

/-- The hit flag does not depend on the order of the endpoints. -/
theorem seg_hit_swap :
    (GetRay2DCollisionLineSegment sqrtf ray p2 p1).hit
      = (GetRay2DCollisionLineSegment sqrtf ray p1 p2).hit := by
  rw [Bool.eq_iff_iff, seg_hit_iff, seg_hit_iff, segT_swap]
  have hd : cross ray.direction (Vector2Subtract p1 p2)
      = -cross ray.direction (Vector2Subtract p2 p1) := by
    simp only [cross, Vector2Subtract]; ring
  constructor
  · rintro ⟨hc, h1, h2, h3, h4⟩
    have hc2 : cross ray.direction (Vector2Subtract p2 p1) ≠ 0 := by
      intro h; apply hc; rw [hd, h, neg_zero]
    rw [segS_swap ray p1 p2 hc2] at h3 h4
    exact ⟨hc2, h1, h2, by linarith, by linarith⟩
  · rintro ⟨hc, h1, h2, h3, h4⟩
    have hc2 : cross ray.direction (Vector2Subtract p1 p2) ≠ 0 := by
      rw [hd]; exact neg_ne_zero.mpr hc
    rw [segS_swap ray p1 p2 hc]
    exact ⟨hc2, h1, h2, by linarith, by linarith⟩

/-- Normalising the reversed vector gives the negated unit vector. -/
theorem normalize_swap :
    Vector2Normalize sqrtf (Vector2Subtract p2 p1)
      = Vector2Negate (Vector2Normalize sqrtf (Vector2Subtract p1 p2)) := by
  have e : (Vector2Subtract p2 p1).x * (Vector2Subtract p2 p1).x
        + (Vector2Subtract p2 p1).y * (Vector2Subtract p2 p1).y
      = (Vector2Subtract p1 p2).x * (Vector2Subtract p1 p2).x
        + (Vector2Subtract p1 p2).y * (Vector2Subtract p1 p2).y := by
    simp only [Vector2Subtract]; ring
  unfold Vector2Normalize
  simp only [e]
  split_ifs
  · simp only [Vector2Negate, Vector2Subtract]
    ext <;> simp only <;> ring
  · simp only [Vector2Negate, neg_zero]

/-- C18: reading floats as reals, the segment test does not depend on the order
of the endpoints: `GetRay2DCollisionLineSegment(ray, p1, p2)` and
`GetRay2DCollisionLineSegment(ray, p2, p1)` are the same record (equal hit,
distance, point and normal). -/
theorem GetRay2DCollisionLineSegment_swap :
    GetRay2DCollisionLineSegment sqrtf ray p1 p2
      = GetRay2DCollisionLineSegment sqrtf ray p2 p1 := by
  have hswap := seg_hit_swap sqrtf ray p1 p2
  cases hh : (GetRay2DCollisionLineSegment sqrtf ray p1 p2).hit with
  | false =>
    rw [hh] at hswap
    rw [seg_eq_zero_of_not_hit sqrtf ray p1 p2 hh, seg_eq_zero_of_not_hit sqrtf ray p2 p1 hswap]
  | true =>
    rw [hh] at hswap
    obtain ⟨hp1, hd1⟩ := seg_point_of_hit sqrtf ray p1 p2 hh
    obtain ⟨hp2, hd2⟩ := seg_point_of_hit sqrtf ray p2 p1 hswap
    have hpt : (GetRay2DCollisionLineSegment sqrtf ray p1 p2).point
        = (GetRay2DCollisionLineSegment sqrtf ray p2 p1).point := by
      rw [hp1, hp2, segT_swap]
    have hside : segSide ray p2 p1 = -segSide ray p1 p2 := by
      simp only [segSide]; ring
    apply Ray2DCollision.ext
    · rw [hh, hswap]
    · rw [hd1, hd2, hpt]
    · exact hpt
    · rw [seg_normal_of_hit sqrtf ray p1 p2 hh, seg_normal_of_hit sqrtf ray p2 p1 hswap,
        hside, normalize_swap sqrtf p2 p1]
      rcases lt_trichotomy (segSide ray p1 p2) 0 with hlt | heq | hgt
      · rw [if_neg (not_lt.mpr hlt.le), if_pos hlt, if_pos (by linarith)]
        simp only [Vector2Negate, Vector2CrossProduct]
      · rw [heq, neg_zero]
        simp only [lt_irrefl, if_false]
      · rw [if_pos hgt, if_neg (by linarith), if_pos (by linarith)]
        simp only [Vector2Negate, Vector2CrossProduct, neg_neg]

end SegmentNormal

/-! ## The circle test: square root argument and rays facing away -/

section CircleGuards

variable (sqrtf : ℝ → ℝ) (ray : Ray2D ℝ) (center : Vector2 ℝ) (radius : ℝ)

/-- C19: reading floats as reals, whenever the circle test reports a hit the
quantity under the square root, `radius*radius - d*d`, is non-negative, so the
local `m = sqrtf(radius*radius - d*d)` is a non-negative real with
`m*m = radius*radius - d*d`; and a negative radius never produces a hit. This
holds for every direction, of unit length or not. -/
theorem GetRay2DCollisionCircle_sqrt_argument_nonneg (hs : IsSqrt sqrtf) :
    ((GetRay2DCollisionCircle sqrtf ray center radius).hit = true →
      0 ≤ radius * radius
        - Vector2Length sqrtf
            (Vector2Subtract (Vector2Subtract center ray.position)
              (Vector2Scale ray.direction
                (Vector2DotProduct (Vector2Subtract center ray.position) ray.direction)))
          * Vector2Length sqrtf
            (Vector2Subtract (Vector2Subtract center ray.position)
              (Vector2Scale ray.direction
                (Vector2DotProduct (Vector2Subtract center ray.position) ray.direction))) ∧
      0 ≤ circleM sqrtf ray center radius ∧
      circleM sqrtf ray center radius * circleM sqrtf ray center radius
        = radius * radius
          - Vector2Length sqrtf
              (Vector2Subtract (Vector2Subtract center ray.position)
                (Vector2Scale ray.direction
                  (Vector2DotProduct (Vector2Subtract center ray.position) ray.direction)))
            * Vector2Length sqrtf
              (Vector2Subtract (Vector2Subtract center ray.position)
                (Vector2Scale ray.direction
                  (Vector2DotProduct (Vector2Subtract center ray.position) ray.direction)))) ∧
    (radius < 0 → (GetRay2DCollisionCircle sqrtf ray center radius).hit = false) := by
  have hd0 : 0 ≤ Vector2Length sqrtf
      (Vector2Subtract (Vector2Subtract center ray.position)
        (Vector2Scale ray.direction
          (Vector2DotProduct (Vector2Subtract center ray.position) ray.direction))) :=
    (hs _ (add_nonneg (mul_self_nonneg _) (mul_self_nonneg _))).1
  rw [circle_hit_eq]
  unfold circleM
  generalize Vector2Length sqrtf
      (Vector2Subtract (Vector2Subtract center ray.position)
        (Vector2Scale ray.direction
          (Vector2DotProduct (Vector2Subtract center ray.position) ray.direction))) = d
    at hd0 ⊢
  constructor
  · intro h
    have hle : d ≤ radius := of_decide_eq_true h
    have harg : 0 ≤ radius * radius - d * d := by nlinarith
    exact ⟨harg, hs _ harg⟩
  · intro hr
    exact decide_eq_false (by linarith)

/-- Witness for C19: the ray from `(0,0)` along `(1,0)` through the circle with
center `(3,0)` and radius `1`. -/
theorem GetRay2DCollisionCircle_sqrt_argument_nonneg_witness :
    IsSqrt Real.sqrt ∧
    (GetRay2DCollisionCircle Real.sqrt ⟨⟨0, 0⟩, ⟨1, 0⟩⟩ ⟨3, 0⟩ 1).hit = true ∧
    0 ≤ circleM Real.sqrt ⟨⟨0, 0⟩, ⟨1, 0⟩⟩ ⟨3, 0⟩ 1 :=
  have hhit : (GetRay2DCollisionCircle Real.sqrt ⟨⟨0, 0⟩, ⟨1, 0⟩⟩ ⟨3, 0⟩ 1).hit = true :=
    (circle_hit_iff Real.sqrt ⟨⟨0, 0⟩, ⟨1, 0⟩⟩ ⟨3, 0⟩ 1 isSqrt_real (by norm_num)).2
      (by norm_num [cross, Vector2Subtract])
  ⟨isSqrt_real, hhit,
    ((GetRay2DCollisionCircle_sqrt_argument_nonneg Real.sqrt ⟨⟨0, 0⟩, ⟨1, 0⟩⟩ ⟨3, 0⟩ 1
      isSqrt_real).1 hhit).2.1⟩

/-- C11 fails on the code: the ray from `(0,0)` along the unit direction `(1,0)`
is strictly outside the circle with center `(-3,0)` and radius `1` and points
away from it (`dot(center - origin, direction) = -3 < 0`), yet the circle test
reports a hit, at the point `(-4,0)` behind the origin with distance `4`. -/
theorem GetRay2DCollisionCircle_facing_away_reports_hit :
    Vector2Length Real.sqrt (⟨1, 0⟩ : Vector2 ℝ) = 1 ∧
    Vector2Length Real.sqrt (Vector2Subtract (⟨-3, 0⟩ : Vector2 ℝ) ⟨0, 0⟩) > 1 ∧
    Vector2DotProduct (Vector2Subtract (⟨-3, 0⟩ : Vector2 ℝ) ⟨0, 0⟩) ⟨1, 0⟩ < 0 ∧
    (GetRay2DCollisionCircle Real.sqrt ⟨⟨0, 0⟩, ⟨1, 0⟩⟩ ⟨-3, 0⟩ 1).hit = true ∧
    (GetRay2DCollisionCircle Real.sqrt ⟨⟨0, 0⟩, ⟨1, 0⟩⟩ ⟨-3, 0⟩ 1).point = ⟨-4, 0⟩ ∧
    (GetRay2DCollisionCircle Real.sqrt ⟨⟨0, 0⟩, ⟨1, 0⟩⟩ ⟨-3, 0⟩ 1).distance = 4 := by
  have hD : Vector2Length Real.sqrt (⟨1, 0⟩ : Vector2 ℝ) = 1 := by
    simp [Vector2Length]
  have hout : Vector2Length Real.sqrt (Vector2Subtract (⟨-3, 0⟩ : Vector2 ℝ) ⟨0, 0⟩) > 1 := by
    have h3 : Vector2Length Real.sqrt (Vector2Subtract (⟨-3, 0⟩ : Vector2 ℝ) ⟨0, 0⟩) = 3 := by
      simp only [Vector2Length, Vector2Subtract]
      rw [show ((-3:ℝ) - 0) * (-3 - 0) + (0 - 0) * (0 - 0) = 3 * 3 by norm_num]
      exact Real.sqrt_mul_self (by norm_num)
    rw [h3]; norm_num
  have hle : |cross (Vector2Subtract (⟨-3, 0⟩ : Vector2 ℝ) ⟨0, 0⟩) ⟨1, 0⟩| ≤ 1 := by
    norm_num [cross, Vector2Subtract]
  have hhit := (circle_hit_iff Real.sqrt ⟨⟨0, 0⟩, ⟨1, 0⟩⟩ ⟨-3, 0⟩ 1 isSqrt_real
    (by norm_num)).2 hle
  obtain ⟨hm, -, -⟩ := circleM_spec Real.sqrt ⟨⟨0, 0⟩, ⟨1, 0⟩⟩ ⟨-3, 0⟩ 1 isSqrt_real
    (by norm_num) hle
  have hm1 : circleM Real.sqrt ⟨⟨0, 0⟩, ⟨1, 0⟩⟩ ⟨-3, 0⟩ 1 = 1 := by
    rw [hm]; norm_num [cross, Vector2Subtract]
  obtain ⟨hp, hd, -⟩ := circle_outside_eq Real.sqrt ⟨⟨0, 0⟩, ⟨1, 0⟩⟩ ⟨-3, 0⟩ 1 hout
  have hpt : (GetRay2DCollisionCircle Real.sqrt ⟨⟨0, 0⟩, ⟨1, 0⟩⟩ ⟨-3, 0⟩ 1).point
      = ⟨-4, 0⟩ := by
    rw [hp, hm1]
    ext <;> norm_num [Vector2Add, Vector2Scale, Vector2DotProduct, Vector2Subtract]
  refine ⟨hD, hout, by norm_num [Vector2DotProduct, Vector2Subtract], hhit, hpt, ?_⟩
  rw [hd, hpt]
  simp only [Vector2Length, Vector2Subtract]
  rw [show ((-4:ℝ) - 0) * (-4 - 0) + (0 - 0) * (0 - 0) = 4 * 4 by norm_num]
  exact Real.sqrt_mul_self (by norm_num)

end CircleGuards

/-! ## The nearest-hit loop: ties and the no-hit record -/

section ReducerTies

variable {F : Type} [LinearOrderedField F]

/-- Without a hit the loop returns the record it started from. -/
theorem closestHit_eq_start_of_not_hit (l : List (Ray2DCollision F))
    (h : (closestHit l).hit = false) :
    closestHit l = ⟨false, RAYLENGTH, ⟨0, 0⟩, ⟨0, 0⟩⟩ := by
  obtain ⟨h1, -, -⟩ := foldl_saveClosestHit_spec l
    { (zeroCollision : Ray2DCollision F) with distance := RAYLENGTH }
  rcases h1 with h1 | ⟨-, h1⟩
  · exact h1
  · unfold closestHit at h
    rw [h] at h1
    exact absurd h1 (by simp)

/-- Position of the loop result: either the loop keeps the start record and
every hit candidate is strictly farther than it, or the result is a hit
candidate, not farther than the start record, such that no hit candidate before
it is nearer and every hit candidate after it is strictly farther. -/
theorem foldl_saveClosestHit_last (l : List (Ray2DCollision F)) (init : Ray2DCollision F) :
    (l.foldl saveClosestHit init = init ∧
      ∀ e ∈ l, e.hit = true → init.distance < e.distance) ∨
    (∃ pre post : List (Ray2DCollision F),
      l = pre ++ l.foldl saveClosestHit init :: post ∧
      (l.foldl saveClosestHit init).hit = true ∧
      (l.foldl saveClosestHit init).distance ≤ init.distance ∧
      (∀ e ∈ pre, e.hit = true → (l.foldl saveClosestHit init).distance ≤ e.distance) ∧
      (∀ e ∈ post, e.hit = true → (l.foldl saveClosestHit init).distance < e.distance)) := by
  induction l generalizing init with
  | nil => left; simp
  | cons c l ih =>
    simp only [List.foldl_cons]
    rcases saveClosestHit_cases init c with ⟨hs, hlt⟩ | ⟨hs, hhit, hle⟩
    · rw [hs]
      rcases ih init with ⟨h1, h2⟩ | ⟨pre, post, h1, h2, h3, h4, h5⟩
      · left
        refine ⟨h1, fun e he hh => ?_⟩
        rcases List.mem_cons.mp he with rfl | he
        · exact hlt hh
        · exact h2 e he hh
      · right
        refine ⟨c :: pre, post, ?_, h2, h3, fun e he hh => ?_, h5⟩
        · rw [List.cons_append, ← h1]
        · rcases List.mem_cons.mp he with rfl | he
          · exact h3.trans (hlt hh).le
          · exact h4 e he hh
    · rw [hs]
      rcases ih c with ⟨h1, h2⟩ | ⟨pre, post, h1, h2, h3, h4, h5⟩
      · right
        refine ⟨[], l, ?_, ?_, ?_, ?_, ?_⟩
        · rw [h1, List.nil_append]
        · rw [h1]; exact hhit
        · rw [h1]; exact hle
        · intro e he; exact absurd he (List.not_mem_nil e)
        · rw [h1]; exact h2
      · right
        refine ⟨c :: pre, post, ?_, h2, h3.trans hle, fun e he hh => ?_, h5⟩
        · rw [List.cons_append, ← h1]
        · rcases List.mem_cons.mp he with rfl | he
          · exact h3
          · exact h4 e he hh

/-- When some hit candidate is at most `RAYLENGTH` away, the loop returns the last
of the nearest hit candidates. -/
theorem closestHit_last (l : List (Ray2DCollision F))
    (h : ∃ e ∈ l, e.hit = true ∧ e.distance ≤ RAYLENGTH) :
    ∃ pre post : List (Ray2DCollision F),
      l = pre ++ closestHit l :: post ∧
      (closestHit l).hit = true ∧
      (∀ e ∈ pre, e.hit = true → (closestHit l).distance ≤ e.distance) ∧
      (∀ e ∈ post, e.hit = true → (closestHit l).distance < e.distance) := by
  unfold closestHit
  rcases foldl_saveClosestHit_last l
      { (zeroCollision : Ray2DCollision F) with distance := RAYLENGTH }
    with ⟨-, h2⟩ | ⟨pre, post, h1, h2, -, h4, h5⟩
  · obtain ⟨e, he, hh, hd⟩ := h
    exact absurd hd (not_le.mpr (h2 e he hh))
  · exact ⟨pre, post, h1, h2, h4, h5⟩

/-- C13 (as stated, for any sequence) fails: a single hit candidate farther away
than the start distance `1000000` is not returned; the loop returns the no-hit
start record. -/
theorem closestHit_last_counterexample :
    (closestHit [(⟨true, 2000000, ⟨0, 0⟩, ⟨0, 0⟩⟩ : Ray2DCollision ℝ)]).hit = false ∧
    closestHit [(⟨true, 2000000, ⟨0, 0⟩, ⟨0, 0⟩⟩ : Ray2DCollision ℝ)]
      ≠ ⟨true, 2000000, ⟨0, 0⟩, ⟨0, 0⟩⟩ := by
  have h : (closestHit [(⟨true, 2000000, ⟨0, 0⟩, ⟨0, 0⟩⟩ : Ray2DCollision ℝ)]).hit = false := by
    apply closestHit_not_hit
    intro e he _
    rw [List.mem_singleton] at he
    subst he
    norm_num [RAYLENGTH]
  refine ⟨h, fun heq => ?_⟩
  rw [heq] at h
  exact absurd h (by simp)

/-- C13, amended: the loop that starts from a no-hit record with distance
`1000000` and replaces it by each hit candidate `c` with
`current.distance >= c.distance` returns `B` on `[A, B]` when `A` and `B` are hits
of equal distance at most `1000000`; and for any sequence in which some hit
candidate has distance at most `1000000`, the result is the last candidate in
scan order among the hit candidates of minimal distance: it is a hit, no hit
candidate before it is nearer and every hit candidate after it is strictly
farther. -/
theorem closestHit_returns_last_nearest :
    (∀ A B : Ray2DCollision F, A.hit = true → B.hit = true → A.distance = B.distance →
      A.distance ≤ 1000000 → closestHit [A, B] = B) ∧
    (∀ l : List (Ray2DCollision F),
      (∃ e ∈ l, e.hit = true ∧ e.distance ≤ 1000000) →
      ∃ pre post : List (Ray2DCollision F),
        l = pre ++ closestHit l :: post ∧
        (closestHit l).hit = true ∧
        (∀ e ∈ pre, e.hit = true → (closestHit l).distance ≤ e.distance) ∧
        (∀ e ∈ post, e.hit = true → (closestHit l).distance < e.distance)) := by
  refine ⟨fun A B hA hB hAB hd => ?_, fun l h => closestHit_last l h⟩
  have hA1 : saveClosestHit ⟨false, RAYLENGTH, ⟨0, 0⟩, ⟨0, 0⟩⟩ A = A := by
    simp only [saveClosestHit, hA, if_true, RAYLENGTH, ge_iff_le, hd]
  have hB1 : saveClosestHit A B = B := by
    simp only [saveClosestHit, hB, if_true, ge_iff_le, hAB, le_refl]
  simp only [closestHit, List.foldl_cons, List.foldl_nil, zeroCollision, hA1, hB1]

/-- Witness for the amended C13: two hits at distance `5`. -/
theorem closestHit_returns_last_nearest_witness :
    closestHit [(⟨true, 5, ⟨1, 0⟩, ⟨0, 1⟩⟩ : Ray2DCollision ℝ), ⟨true, 5, ⟨0, 1⟩, ⟨1, 0⟩⟩]
      = ⟨true, 5, ⟨0, 1⟩, ⟨1, 0⟩⟩ :=
  (@closestHit_returns_last_nearest ℝ _).1 ⟨true, 5, ⟨1, 0⟩, ⟨0, 1⟩⟩ ⟨true, 5, ⟨0, 1⟩, ⟨1, 0⟩⟩
    rfl rfl rfl (by norm_num)

end ReducerTies

/-! ## Results without a hit -/

section NoHit

variable (sqrtf : ℝ → ℝ) (ray : Ray2D ℝ)

/-- C14 (as stated) fails for the rectangle test: the ray from `(0,0)` along
`(1,0)` misses the rectangle `x = 1, y = 1, width = 1, height = 1`, and the
returned record has `hit = false` with distance `1000000`, not `0`. -/
theorem no_hit_record_counterexample :
    (GetRay2DCollisionRectangle Real.sqrt ⟨⟨0, 0⟩, ⟨1, 0⟩⟩ ⟨1, 1, 1, 1⟩).hit = false ∧
    (GetRay2DCollisionRectangle Real.sqrt ⟨⟨0, 0⟩, ⟨1, 0⟩⟩ ⟨1, 1, 1, 1⟩).distance = 1000000 ∧
    (GetRay2DCollisionRectangle Real.sqrt ⟨⟨0, 0⟩, ⟨1, 0⟩⟩ ⟨1, 1, 1, 1⟩).distance ≠ 0 := by
  have h : (GetRay2DCollisionRectangle Real.sqrt
      ⟨⟨0, 0⟩, ⟨1, 0⟩⟩ ⟨1, 1, 1, 1⟩).hit = false := by
    unfold GetRay2DCollisionRectangle
    apply closestHit_not_hit
    intro e he hhit
    exfalso
    simp only [rectangleEdges, List.mem_cons, List.mem_singleton, List.not_mem_nil,
      or_false] at he
    rcases he with rfl | rfl | rfl | rfl <;>
      · have := (seg_hit_iff Real.sqrt _ _ _).1 hhit
        norm_num [segT, segS, cross, Vector2Subtract] at this
  have hd : (GetRay2DCollisionRectangle Real.sqrt
      ⟨⟨0, 0⟩, ⟨1, 0⟩⟩ ⟨1, 1, 1, 1⟩).distance = 1000000 := by
    unfold GetRay2DCollisionRectangle at h ⊢
    rw [closestHit_eq_start_of_not_hit _ h]
    rfl
  refine ⟨h, hd, ?_⟩
  rw [hd]
  norm_num

/-- C14, amended: a result of the segment test with `hit = false` is
zero-initialised (distance `0`, point `(0,0)`, normal `(0,0)`); a result of the
rectangle test or of the triangle test with `hit = false` has point `(0,0)`,
normal `(0,0)` and distance `1000000`, the value the loop starts from. -/
theorem no_hit_record (rect : Rectangle ℝ) (p1 p2 p3 : Vector2 ℝ) :
    ((GetRay2DCollisionLineSegment sqrtf ray p1 p2).hit = false →
      GetRay2DCollisionLineSegment sqrtf ray p1 p2 = ⟨false, 0, ⟨0, 0⟩, ⟨0, 0⟩⟩) ∧
    ((GetRay2DCollisionRectangle sqrtf ray rect).hit = false →
      GetRay2DCollisionRectangle sqrtf ray rect = ⟨false, 1000000, ⟨0, 0⟩, ⟨0, 0⟩⟩) ∧
    ((GetRay2DCollisionTriangle sqrtf ray p1 p2 p3).hit = false →
      GetRay2DCollisionTriangle sqrtf ray p1 p2 p3 = ⟨false, 1000000, ⟨0, 0⟩, ⟨0, 0⟩⟩) :=
  ⟨fun h => seg_eq_zero_of_not_hit sqrtf ray p1 p2 h,
    fun h => closestHit_eq_start_of_not_hit (rectangleEdges sqrtf ray rect) h,
    fun h => closestHit_eq_start_of_not_hit (triangleEdges sqrtf ray p1 p2 p3) h⟩

/-- Witness for the amended C14: the ray from `(0,0)` along `(1,0)` misses the
segment `(1,1)`-`(2,1)`, which is parallel to it. -/
theorem no_hit_record_witness :
    (GetRay2DCollisionLineSegment Real.sqrt ⟨⟨0, 0⟩, ⟨1, 0⟩⟩ ⟨1, 1⟩ ⟨2, 1⟩).hit = false ∧
    GetRay2DCollisionLineSegment Real.sqrt ⟨⟨0, 0⟩, ⟨1, 0⟩⟩ ⟨1, 1⟩ ⟨2, 1⟩
      = ⟨false, 0, ⟨0, 0⟩, ⟨0, 0⟩⟩ :=
  have h : (GetRay2DCollisionLineSegment Real.sqrt
      ⟨⟨0, 0⟩, ⟨1, 0⟩⟩ ⟨1, 1⟩ ⟨2, 1⟩).hit = false := by
    rw [← Bool.not_eq_true, seg_hit_iff]
    norm_num [segT, segS, cross, Vector2Subtract]
  ⟨h, (no_hit_record Real.sqrt ⟨⟨0, 0⟩, ⟨1, 0⟩⟩ ⟨1, 1, 1, 1⟩ ⟨1, 1⟩ ⟨2, 1⟩ ⟨2, 2⟩).1 h⟩

end NoHit

/-! ## Rectangle: ties between edges -/

section RectangleTies

variable (sqrtf : ℝ → ℝ) (ray : Ray2D ℝ)

/-- A crossing at ray parameter `t ∈ [0, 1000000]` and segment parameter
`s ∈ [0, 1]` with non-parallel lines is reported as a hit, at ray parameter `t`. -/
theorem seg_hit_of_crossing (p1 p2 : Vector2 ℝ)
    (hc : cross ray.direction (Vector2Subtract p2 p1) ≠ 0) (t s : ℝ)
    (ht0 : 0 ≤ t) (ht1 : t ≤ 1000000) (hs0 : 0 ≤ s) (hs1 : s ≤ 1)
    (h : Vector2Add ray.position (Vector2Scale ray.direction t)
      = Vector2Add p1 (Vector2Scale (Vector2Subtract p2 p1) s)) :
    (GetRay2DCollisionLineSegment sqrtf ray p1 p2).hit = true ∧ segT ray p1 p2 = t := by
  obtain ⟨rfl, rfl⟩ := seg_crossing_unique ray p1 p2 hc t s h
  exact ⟨(seg_hit_iff sqrtf ray p1 p2).2 ⟨hc, ht0, ht1, hs0, hs1⟩, rfl⟩

/-- Normalising a vector with zero `y` gives a vector with zero `y`. -/
theorem normalize_y_eq_zero (v : Vector2 ℝ) (hv : v.y = 0) :
    (Vector2Normalize sqrtf v).y = 0 := by
  unfold Vector2Normalize
  simp only
  split_ifs
  · simp only [hv, zero_mul]
  · rfl

/-- C16 (as stated) fails on its own example: for the ray from `(-1,-1)` along
`normalize((1,1))` against the rectangle `x = 0, y = 0, width = 1, height = 1`,
the top and left edge results are hits at the same distance and no edge result
is a nearer hit, but the rectangle test returns the left edge result (the last
of the two in the order top, right, bottom, left), which differs from the top
edge result in its normal. -/
theorem GetRay2DCollisionRectangle_tie_counterexample :
    (GetRay2DCollisionLineSegment Real.sqrt
        ⟨⟨-1, -1⟩, Vector2Normalize Real.sqrt ⟨1, 1⟩⟩ ⟨0, 0⟩ ⟨0 + 1, 0⟩).hit = true ∧
    (GetRay2DCollisionLineSegment Real.sqrt
        ⟨⟨-1, -1⟩, Vector2Normalize Real.sqrt ⟨1, 1⟩⟩ ⟨0, 0 + 1⟩ ⟨0, 0⟩).hit = true ∧
    (GetRay2DCollisionLineSegment Real.sqrt
        ⟨⟨-1, -1⟩, Vector2Normalize Real.sqrt ⟨1, 1⟩⟩ ⟨0, 0⟩ ⟨0 + 1, 0⟩).distance
      = (GetRay2DCollisionLineSegment Real.sqrt
        ⟨⟨-1, -1⟩, Vector2Normalize Real.sqrt ⟨1, 1⟩⟩ ⟨0, 0 + 1⟩ ⟨0, 0⟩).distance ∧
    (∀ e ∈ rectangleEdges Real.sqrt ⟨⟨-1, -1⟩, Vector2Normalize Real.sqrt ⟨1, 1⟩⟩ ⟨0, 0, 1, 1⟩,
      e.hit = true →
      (GetRay2DCollisionLineSegment Real.sqrt
        ⟨⟨-1, -1⟩, Vector2Normalize Real.sqrt ⟨1, 1⟩⟩ ⟨0, 0⟩ ⟨0 + 1, 0⟩).distance
        ≤ e.distance) ∧
    GetRay2DCollisionRectangle Real.sqrt
        ⟨⟨-1, -1⟩, Vector2Normalize Real.sqrt ⟨1, 1⟩⟩ ⟨0, 0, 1, 1⟩
      = GetRay2DCollisionLineSegment Real.sqrt
        ⟨⟨-1, -1⟩, Vector2Normalize Real.sqrt ⟨1, 1⟩⟩ ⟨0, 0 + 1⟩ ⟨0, 0⟩ ∧
    GetRay2DCollisionRectangle Real.sqrt
        ⟨⟨-1, -1⟩, Vector2Normalize Real.sqrt ⟨1, 1⟩⟩ ⟨0, 0, 1, 1⟩
      ≠ GetRay2DCollisionLineSegment Real.sqrt
        ⟨⟨-1, -1⟩, Vector2Normalize Real.sqrt ⟨1, 1⟩⟩ ⟨0, 0⟩ ⟨0 + 1, 0⟩ := by
  have hv : (0:ℝ) < (⟨1, 1⟩ : Vector2 ℝ).x * (⟨1, 1⟩ : Vector2 ℝ).x
      + (⟨1, 1⟩ : Vector2 ℝ).y * (⟨1, 1⟩ : Vector2 ℝ).y := by norm_num
  obtain ⟨hpos, hsq, hnorm⟩ := isSqrt_real.normalize_eq hv
  rw [hnorm]
  simp only at hsq
  generalize Vector2Length Real.sqrt (⟨1, 1⟩ : Vector2 ℝ) = len at hpos hsq
  have hlen : len ≠ 0 := hpos.ne.symm
  have hlen2 : len ≤ 2 := by nlinarith
  -- the direction has squared length one
  have hD : (⟨⟨-1, -1⟩, ⟨1 * (1 / len), 1 * (1 / len)⟩⟩ : Ray2D ℝ).direction.x
        * (⟨⟨-1, -1⟩, ⟨1 * (1 / len), 1 * (1 / len)⟩⟩ : Ray2D ℝ).direction.x
      + (⟨⟨-1, -1⟩, ⟨1 * (1 / len), 1 * (1 / len)⟩⟩ : Ray2D ℝ).direction.y
        * (⟨⟨-1, -1⟩, ⟨1 * (1 / len), 1 * (1 / len)⟩⟩ : Ray2D ℝ).direction.y = 1 := by
    simp only
    field_simp
    linarith
  have hq : Real.sqrt
      ((⟨⟨-1, -1⟩, ⟨1 * (1 / len), 1 * (1 / len)⟩⟩ : Ray2D ℝ).direction.x
        * (⟨⟨-1, -1⟩, ⟨1 * (1 / len), 1 * (1 / len)⟩⟩ : Ray2D ℝ).direction.x
      + (⟨⟨-1, -1⟩, ⟨1 * (1 / len), 1 * (1 / len)⟩⟩ : Ray2D ℝ).direction.y
        * (⟨⟨-1, -1⟩, ⟨1 * (1 / len), 1 * (1 / len)⟩⟩ : Ray2D ℝ).direction.y) = 1 := by
    rw [hD, Real.sqrt_one]
  -- the four edge tests
  obtain ⟨h0, t0⟩ := seg_hit_of_crossing Real.sqrt
    ⟨⟨-1, -1⟩, ⟨1 * (1 / len), 1 * (1 / len)⟩⟩ ⟨0, 0⟩ ⟨0 + 1, 0⟩
    (by simp only [cross, Vector2Subtract]; field_simp) len 0 hpos.le (by linarith)
    le_rfl zero_le_one
    (by
      simp only [Vector2Add, Vector2Scale, Vector2Subtract]
      ext <;> simp only <;> field_simp)
  obtain ⟨h1, t1⟩ := seg_hit_of_crossing Real.sqrt
    ⟨⟨-1, -1⟩, ⟨1 * (1 / len), 1 * (1 / len)⟩⟩ ⟨0 + 1, 0⟩ ⟨0 + 1, 0 + 1⟩
    (by simp only [cross, Vector2Subtract]; field_simp) (2 * len) 1 (by linarith) (by linarith)
    zero_le_one le_rfl
    (by
      simp only [Vector2Add, Vector2Scale, Vector2Subtract]
      ext <;> simp only <;> field_simp <;> ring)
  obtain ⟨h2, t2⟩ := seg_hit_of_crossing Real.sqrt
    ⟨⟨-1, -1⟩, ⟨1 * (1 / len), 1 * (1 / len)⟩⟩ ⟨0 + 1, 0 + 1⟩ ⟨0, 0 + 1⟩
    (by simp only [cross, Vector2Subtract]; field_simp) (2 * len) 0 (by linarith) (by linarith)
    le_rfl zero_le_one
    (by
      simp only [Vector2Add, Vector2Scale, Vector2Subtract]
      ext <;> simp only <;> field_simp <;> ring)
  obtain ⟨h3, t3⟩ := seg_hit_of_crossing Real.sqrt
    ⟨⟨-1, -1⟩, ⟨1 * (1 / len), 1 * (1 / len)⟩⟩ ⟨0, 0 + 1⟩ ⟨0, 0⟩
    (by simp only [cross, Vector2Subtract]; field_simp) len 1 hpos.le (by linarith)
    zero_le_one le_rfl
    (by
      simp only [Vector2Add, Vector2Scale, Vector2Subtract]
      ext <;> simp only <;> field_simp)
  have d0 := seg_distance_of_hit Real.sqrt _ _ _ isSqrt_real h0
  have d1 := seg_distance_of_hit Real.sqrt _ _ _ isSqrt_real h1
  have d2 := seg_distance_of_hit Real.sqrt _ _ _ isSqrt_real h2
  have d3 := seg_distance_of_hit Real.sqrt _ _ _ isSqrt_real h3
  rw [hq, t0, mul_one] at d0
  rw [hq, t1, mul_one] at d1
  rw [hq, t2, mul_one] at d2
  rw [hq, t3, mul_one] at d3
  -- the loop
  have s0 : saveClosestHit (⟨false, RAYLENGTH, ⟨0, 0⟩, ⟨0, 0⟩⟩ : Ray2DCollision ℝ)
      (GetRay2DCollisionLineSegment Real.sqrt
        ⟨⟨-1, -1⟩, ⟨1 * (1 / len), 1 * (1 / len)⟩⟩ ⟨0, 0⟩ ⟨0 + 1, 0⟩)
      = GetRay2DCollisionLineSegment Real.sqrt
        ⟨⟨-1, -1⟩, ⟨1 * (1 / len), 1 * (1 / len)⟩⟩ ⟨0, 0⟩ ⟨0 + 1, 0⟩ := by
    have : len ≤ RAYLENGTH := by unfold RAYLENGTH; linarith
    simp only [saveClosestHit, h0, if_true, ge_iff_le, d0, this]
  have s1 : saveClosestHit
      (GetRay2DCollisionLineSegment Real.sqrt
        ⟨⟨-1, -1⟩, ⟨1 * (1 / len), 1 * (1 / len)⟩⟩ ⟨0, 0⟩ ⟨0 + 1, 0⟩)
      (GetRay2DCollisionLineSegment Real.sqrt
        ⟨⟨-1, -1⟩, ⟨1 * (1 / len), 1 * (1 / len)⟩⟩ ⟨0 + 1, 0⟩ ⟨0 + 1, 0 + 1⟩)
      = GetRay2DCollisionLineSegment Real.sqrt
        ⟨⟨-1, -1⟩, ⟨1 * (1 / len), 1 * (1 / len)⟩⟩ ⟨0, 0⟩ ⟨0 + 1, 0⟩ := by
    have : ¬ 2 * len ≤ len := by linarith
    simp only [saveClosestHit, h1, if_true, ge_iff_le, d0, d1, this, if_false]
  have s2 : saveClosestHit
      (GetRay2DCollisionLineSegment Real.sqrt
        ⟨⟨-1, -1⟩, ⟨1 * (1 / len), 1 * (1 / len)⟩⟩ ⟨0, 0⟩ ⟨0 + 1, 0⟩)
      (GetRay2DCollisionLineSegment Real.sqrt
        ⟨⟨-1, -1⟩, ⟨1 * (1 / len), 1 * (1 / len)⟩⟩ ⟨0 + 1, 0 + 1⟩ ⟨0, 0 + 1⟩)
      = GetRay2DCollisionLineSegment Real.sqrt
        ⟨⟨-1, -1⟩, ⟨1 * (1 / len), 1 * (1 / len)⟩⟩ ⟨0, 0⟩ ⟨0 + 1, 0⟩ := by
    have : ¬ 2 * len ≤ len := by linarith
    simp only [saveClosestHit, h2, if_true, ge_iff_le, d0, d2, this, if_false]
  have s3 : saveClosestHit
      (GetRay2DCollisionLineSegment Real.sqrt
        ⟨⟨-1, -1⟩, ⟨1 * (1 / len), 1 * (1 / len)⟩⟩ ⟨0, 0⟩ ⟨0 + 1, 0⟩)
      (GetRay2DCollisionLineSegment Real.sqrt
        ⟨⟨-1, -1⟩, ⟨1 * (1 / len), 1 * (1 / len)⟩⟩ ⟨0, 0 + 1⟩ ⟨0, 0⟩)
      = GetRay2DCollisionLineSegment Real.sqrt
        ⟨⟨-1, -1⟩, ⟨1 * (1 / len), 1 * (1 / len)⟩⟩ ⟨0, 0 + 1⟩ ⟨0, 0⟩ := by
    simp only [saveClosestHit, h3, if_true, ge_iff_le, d0, d3, le_refl]
  have hR : GetRay2DCollisionRectangle Real.sqrt
        ⟨⟨-1, -1⟩, ⟨1 * (1 / len), 1 * (1 / len)⟩⟩ ⟨0, 0, 1, 1⟩
      = GetRay2DCollisionLineSegment Real.sqrt
        ⟨⟨-1, -1⟩, ⟨1 * (1 / len), 1 * (1 / len)⟩⟩ ⟨0, 0 + 1⟩ ⟨0, 0⟩ := by
    simp only [GetRay2DCollisionRectangle, closestHit, rectangleEdges, List.foldl_cons,
      List.foldl_nil, zeroCollision, s0, s1, s2, s3]
  -- the normals of the top and of the left edge result differ
  have n0 := seg_normal_of_hit Real.sqrt _ _ _ h0
  have n3 := seg_normal_of_hit Real.sqrt _ _ _ h3
  have side0 : segSide (⟨⟨-1, -1⟩, ⟨1 * (1 / len), 1 * (1 / len)⟩⟩ : Ray2D ℝ)
      ⟨0, 0⟩ ⟨0 + 1, 0⟩ < 0 := by norm_num [segSide]
  have side3 : segSide (⟨⟨-1, -1⟩, ⟨1 * (1 / len), 1 * (1 / len)⟩⟩ : Ray2D ℝ)
      ⟨0, 0 + 1⟩ ⟨0, 0⟩ < 0 := by norm_num [segSide]
  rw [if_neg (not_lt.mpr side0.le), if_pos side0] at n0
  rw [if_neg (not_lt.mpr side3.le), if_pos side3] at n3
  have hx0 : (GetRay2DCollisionLineSegment Real.sqrt
      ⟨⟨-1, -1⟩, ⟨1 * (1 / len), 1 * (1 / len)⟩⟩ ⟨0, 0⟩ ⟨0 + 1, 0⟩).normal.x = 0 := by
    rw [n0]
    simp only [Vector2CrossProduct]
    rw [normalize_y_eq_zero Real.sqrt _ (by simp [Vector2Subtract]), neg_zero]
  have hx3 : (GetRay2DCollisionLineSegment Real.sqrt
      ⟨⟨-1, -1⟩, ⟨1 * (1 / len), 1 * (1 / len)⟩⟩ ⟨0, 0 + 1⟩ ⟨0, 0⟩).normal.x < 0 := by
    obtain ⟨hp3, -, hn3⟩ := isSqrt_real.normalize_eq (seg_pos_of_hit Real.sqrt _ _ _ h3)
    rw [n3, hn3]
    simp only [Vector2CrossProduct, Vector2Subtract]
    have : 0 < 1 / Vector2Length Real.sqrt (Vector2Subtract (⟨0, 0 + 1⟩ : Vector2 ℝ) ⟨0, 0⟩) := by
      positivity
    simp only [Vector2Subtract] at this
    linarith
  refine ⟨h0, h3, by rw [d0, d3], ?_, hR, ?_⟩
  · intro e he hhit
    simp only [rectangleEdges, List.mem_cons, List.mem_singleton, List.not_mem_nil,
      or_false] at he
    rcases he with rfl | rfl | rfl | rfl
    · exact le_rfl
    · rw [d0, d1]; linarith
    · rw [d0, d2]; linarith
    · rw [d0, d3]
  · rw [hR]
    intro heq
    rw [heq, hx0] at hx3
    exact lt_irrefl 0 hx3

/-- C16, amended: for every ray and rectangle where some edge result is a hit
at distance at most `1000000` (in particular where several edge results are
hits with the same minimal distance), the rectangle test returns the result of
the last edge, in the fixed order top, right, bottom, left, among the hit edges
of minimal distance: no hit edge before it is nearer and every hit edge after it
is strictly farther. -/
theorem GetRay2DCollisionRectangle_tie_last (rect : Rectangle ℝ)
    (h : ∃ e ∈
        [GetRay2DCollisionLineSegment sqrtf ray
            ⟨rect.x, rect.y⟩ ⟨rect.x + rect.width, rect.y⟩,
          GetRay2DCollisionLineSegment sqrtf ray
            ⟨rect.x + rect.width, rect.y⟩ ⟨rect.x + rect.width, rect.y + rect.height⟩,
          GetRay2DCollisionLineSegment sqrtf ray
            ⟨rect.x + rect.width, rect.y + rect.height⟩ ⟨rect.x, rect.y + rect.height⟩,
          GetRay2DCollisionLineSegment sqrtf ray
            ⟨rect.x, rect.y + rect.height⟩ ⟨rect.x, rect.y⟩],
      e.hit = true ∧ e.distance ≤ 1000000) :
    ∃ pre post : List (Ray2DCollision ℝ),
      [GetRay2DCollisionLineSegment sqrtf ray
          ⟨rect.x, rect.y⟩ ⟨rect.x + rect.width, rect.y⟩,
        GetRay2DCollisionLineSegment sqrtf ray
          ⟨rect.x + rect.width, rect.y⟩ ⟨rect.x + rect.width, rect.y + rect.height⟩,
        GetRay2DCollisionLineSegment sqrtf ray
          ⟨rect.x + rect.width, rect.y + rect.height⟩ ⟨rect.x, rect.y + rect.height⟩,
        GetRay2DCollisionLineSegment sqrtf ray
          ⟨rect.x, rect.y + rect.height⟩ ⟨rect.x, rect.y⟩]
        = pre ++ GetRay2DCollisionRectangle sqrtf ray rect :: post ∧
      (GetRay2DCollisionRectangle sqrtf ray rect).hit = true ∧
      (∀ e ∈ pre, e.hit = true →
        (GetRay2DCollisionRectangle sqrtf ray rect).distance ≤ e.distance) ∧
      (∀ e ∈ post, e.hit = true →
        (GetRay2DCollisionRectangle sqrtf ray rect).distance < e.distance) :=
  closestHit_last (rectangleEdges sqrtf ray rect) h

/-- Witness for the amended C16: the ray from `(0,0)` along `(1,0)` against the
rectangle `x = 1, y = -1, width = 1, height = 2` hits the left edge at
distance at most `1000000`. -/
theorem GetRay2DCollisionRectangle_tie_last_witness :
    (GetRay2DCollisionRectangle Real.sqrt ⟨⟨0, 0⟩, ⟨1, 0⟩⟩ ⟨1, -1, 1, 2⟩).hit = true :=
  have hhit : (GetRay2DCollisionLineSegment Real.sqrt ⟨⟨0, 0⟩, ⟨1, 0⟩⟩
      ⟨1, -1 + 2⟩ ⟨1, -1⟩).hit = true :=
    (seg_hit_iff Real.sqrt _ _ _).2 (by norm_num [segT, segS, cross, Vector2Subtract])
  have hd : (GetRay2DCollisionLineSegment Real.sqrt ⟨⟨0, 0⟩, ⟨1, 0⟩⟩
      ⟨1, -1 + 2⟩ ⟨1, -1⟩).distance ≤ 1000000 :=
    seg_distance_le Real.sqrt _ _ _ isSqrt_real (by norm_num) hhit
  (GetRay2DCollisionRectangle_tie_last Real.sqrt ⟨⟨0, 0⟩, ⟨1, 0⟩⟩ ⟨1, -1, 1, 2⟩
    ⟨_, by simp, hhit, hd⟩).choose_spec.choose_spec.2.1

end RectangleTies

/-! ## Rectangle: orientation of the normal -/

section RectangleNormal

variable (sqrtf : ℝ → ℝ) (ray : Ray2D ℝ)

/-- A vector `n` perpendicular to `a` with `n · u > 0` has `n · v > 0` for every
`v` on the same side of the line along `a` as `u`, and `n · v < 0` for every `v`
on the other side; stated for `s * a - v`. -/
theorem normal_side_arith (nx ny ux uy vx vy ax ay s : ℝ)
    (hperp : nx * ax + ny * ay = 0) (hP : 0 < nx * ux + ny * uy) :
    (0 < (vx * ay - vy * ax) * (ux * ay - uy * ax) →
      nx * (s * ax - vx) + ny * (s * ay - vy) < 0) ∧
    ((vx * ay - vy * ax) * (ux * ay - uy * ax) < 0 →
      0 < nx * (s * ax - vx) + ny * (s * ay - vy)) := by
  have hid : (nx * ux + ny * uy) * (vx * ay - vy * ax)
      = (nx * vx + ny * vy) * (ux * ay - uy * ax) := by
    linear_combination (-(ux * vy - uy * vx)) * hperp
  have hgoal : nx * (s * ax - vx) + ny * (s * ay - vy) = -(nx * vx + ny * vy) := by
    linear_combination s * hperp
  have hmul : (nx * ux + ny * uy) * ((vx * ay - vy * ax) * (ux * ay - uy * ax))
      = (nx * vx + ny * vy) * ((ux * ay - uy * ax) * (ux * ay - uy * ax)) := by
    linear_combination (ux * ay - uy * ax) * hid
  rw [hgoal]
  constructor
  · intro h
    have hY : ux * ay - uy * ax ≠ 0 := by
      intro h0; rw [h0, mul_zero] at h; exact lt_irrefl 0 h
    have h1 := mul_pos hP h
    rw [hmul] at h1
    have h2 := (mul_pos_iff_of_pos_right (mul_self_pos.mpr hY)).mp h1
    linarith
  · intro h
    have hY : ux * ay - uy * ax ≠ 0 := by
      intro h0; rw [h0, mul_zero] at h; exact lt_irrefl 0 h
    have h1 := mul_neg_of_pos_of_neg hP h
    rw [hmul] at h1
    have h2 : nx * vx + ny * vy < 0 := by
      by_contra hcon
      exact absurd h1 (not_lt.mpr (mul_nonneg (not_lt.mp hcon) (mul_self_nonneg _)))
    linarith

/-- For a hit with the origin off the line of the segment, the normal points
from the hit point toward the origin; seen from a point `c` on the same side of
that line as the origin it points toward `c`, seen from a point on the other
side it points away from `c`. -/
theorem seg_normal_center (hs : IsSqrt sqrtf) (p1 p2 : Vector2 ℝ)
    (hhit : (GetRay2DCollisionLineSegment sqrtf ray p1 p2).hit = true)
    (hline : cross (Vector2Subtract ray.position p1) (Vector2Subtract p2 p1) ≠ 0)
    (c : Vector2 ℝ) :
    0 < Vector2DotProduct (GetRay2DCollisionLineSegment sqrtf ray p1 p2).normal
      (Vector2Subtract ray.position (GetRay2DCollisionLineSegment sqrtf ray p1 p2).point) ∧
    (0 < cross (Vector2Subtract c p1) (Vector2Subtract p2 p1)
        * cross (Vector2Subtract ray.position p1) (Vector2Subtract p2 p1) →
      Vector2DotProduct (GetRay2DCollisionLineSegment sqrtf ray p1 p2).normal
        (Vector2Subtract (GetRay2DCollisionLineSegment sqrtf ray p1 p2).point c) < 0) ∧
    (cross (Vector2Subtract c p1) (Vector2Subtract p2 p1)
        * cross (Vector2Subtract ray.position p1) (Vector2Subtract p2 p1) < 0 →
      0 < Vector2DotProduct (GetRay2DCollisionLineSegment sqrtf ray p1 p2).normal
        (Vector2Subtract (GetRay2DCollisionLineSegment sqrtf ray p1 p2).point c)) := by
  obtain ⟨-, n2, n3⟩ := seg_normal_off_line sqrtf ray p1 p2 hs hhit hline
  obtain ⟨hc, -⟩ := (seg_hit_iff sqrtf ray p1 p2).mp hhit
  have hp := (seg_point_of_hit sqrtf ray p1 p2 hhit).1
  rw [seg_crossing ray p1 p2 hc] at hp
  rw [hp]
  generalize (GetRay2DCollisionLineSegment sqrtf ray p1 p2).normal = n at n2 n3 ⊢
  generalize segS ray p1 p2 = s
  simp only [Vector2DotProduct, Vector2Subtract, Vector2Add, Vector2Scale, cross] at n2 n3 ⊢
  obtain ⟨k1, k2⟩ := normal_side_arith n.x n.y (ray.position.x - p1.x) (ray.position.y - p1.y)
    (c.x - p1.x) (c.y - p1.y) (p2.x - p1.x) (p2.y - p1.y) s n2 n3
  refine ⟨?_, fun h => ?_, fun h => ?_⟩
  · have e : n.x * (ray.position.x - (p1.x + (p2.x - p1.x) * s))
          + n.y * (ray.position.y - (p1.y + (p2.y - p1.y) * s))
        = (n.x * (ray.position.x - p1.x) + n.y * (ray.position.y - p1.y))
          - s * (n.x * (p2.x - p1.x) + n.y * (p2.y - p1.y)) := by ring
    rw [e, n2, mul_zero, sub_zero]
    exact n3
  · have := k1 h
    linarith
  · have := k2 h
    linarith

/-- A non-zero normal of a hit means that the origin is off the line of the
segment. -/
theorem seg_off_line_of_normal_ne_zero (p1 p2 : Vector2 ℝ)
    (hhit : (GetRay2DCollisionLineSegment sqrtf ray p1 p2).hit = true)
    (hn : (GetRay2DCollisionLineSegment sqrtf ray p1 p2).normal ≠ ⟨0, 0⟩) :
    cross (Vector2Subtract ray.position p1) (Vector2Subtract p2 p1) ≠ 0 :=
  fun h => hn (seg_normal_on_line sqrtf ray p1 p2 hhit h)

/-- C15, amended: for every rectangle with `width > 0` and `height > 0` and
every ray for which the rectangle test reports a hit with a non-zero normal,
the normal is a unit vector that points from the hit point toward the ray
origin: `dot(normal, origin - point) > 0`. So for an origin strictly inside the
rectangle it points inward, `dot(normal, point - rectCenter) < 0`; it points
outward, `dot(normal, point - rectCenter) > 0`, when the result is the result of
an edge whose line has the origin strictly on its outer side. -/
theorem GetRay2DCollisionRectangle_normal_toward_origin (hs : IsSqrt sqrtf)
    (rect : Rectangle ℝ) (hw : 0 < rect.width) (hh : 0 < rect.height)
    (hhit : (GetRay2DCollisionRectangle sqrtf ray rect).hit = true)
    (hn : (GetRay2DCollisionRectangle sqrtf ray rect).normal ≠ ⟨0, 0⟩) :
    Vector2Length sqrtf (GetRay2DCollisionRectangle sqrtf ray rect).normal = 1 ∧
    0 < Vector2DotProduct (GetRay2DCollisionRectangle sqrtf ray rect).normal
      (Vector2Subtract ray.position (GetRay2DCollisionRectangle sqrtf ray rect).point) ∧
    (rect.x < ray.position.x → ray.position.x < rect.x + rect.width →
      rect.y < ray.position.y → ray.position.y < rect.y + rect.height →
      Vector2DotProduct (GetRay2DCollisionRectangle sqrtf ray rect).normal
        (Vector2Subtract (GetRay2DCollisionRectangle sqrtf ray rect).point
          ⟨rect.x + rect.width / 2, rect.y + rect.height / 2⟩) < 0) ∧
    (GetRay2DCollisionRectangle sqrtf ray rect
        = GetRay2DCollisionLineSegment sqrtf ray ⟨rect.x, rect.y⟩ ⟨rect.x + rect.width, rect.y⟩ →
      ray.position.y < rect.y →
      0 < Vector2DotProduct (GetRay2DCollisionRectangle sqrtf ray rect).normal
        (Vector2Subtract (GetRay2DCollisionRectangle sqrtf ray rect).point
          ⟨rect.x + rect.width / 2, rect.y + rect.height / 2⟩)) ∧
    (GetRay2DCollisionRectangle sqrtf ray rect
        = GetRay2DCollisionLineSegment sqrtf ray ⟨rect.x + rect.width, rect.y⟩
          ⟨rect.x + rect.width, rect.y + rect.height⟩ →
      rect.x + rect.width < ray.position.x →
      0 < Vector2DotProduct (GetRay2DCollisionRectangle sqrtf ray rect).normal
        (Vector2Subtract (GetRay2DCollisionRectangle sqrtf ray rect).point
          ⟨rect.x + rect.width / 2, rect.y + rect.height / 2⟩)) ∧
    (GetRay2DCollisionRectangle sqrtf ray rect
        = GetRay2DCollisionLineSegment sqrtf ray ⟨rect.x + rect.width, rect.y + rect.height⟩
          ⟨rect.x, rect.y + rect.height⟩ →
      rect.y + rect.height < ray.position.y →
      0 < Vector2DotProduct (GetRay2DCollisionRectangle sqrtf ray rect).normal
        (Vector2Subtract (GetRay2DCollisionRectangle sqrtf ray rect).point
          ⟨rect.x + rect.width / 2, rect.y + rect.height / 2⟩)) ∧
    (GetRay2DCollisionRectangle sqrtf ray rect
        = GetRay2DCollisionLineSegment sqrtf ray ⟨rect.x, rect.y + rect.height⟩ ⟨rect.x, rect.y⟩ →
      ray.position.x < rect.x →
      0 < Vector2DotProduct (GetRay2DCollisionRectangle sqrtf ray rect).normal
        (Vector2Subtract (GetRay2DCollisionRectangle sqrtf ray rect).point
          ⟨rect.x + rect.width / 2, rect.y + rect.height / 2⟩)) := by
  have hmem : GetRay2DCollisionRectangle sqrtf ray rect
        = GetRay2DCollisionLineSegment sqrtf ray
            ⟨rect.x, rect.y⟩ ⟨rect.x + rect.width, rect.y⟩ ∨
      GetRay2DCollisionRectangle sqrtf ray rect
        = GetRay2DCollisionLineSegment sqrtf ray
            ⟨rect.x + rect.width, rect.y⟩ ⟨rect.x + rect.width, rect.y + rect.height⟩ ∨
      GetRay2DCollisionRectangle sqrtf ray rect
        = GetRay2DCollisionLineSegment sqrtf ray
            ⟨rect.x + rect.width, rect.y + rect.height⟩ ⟨rect.x, rect.y + rect.height⟩ ∨
      GetRay2DCollisionRectangle sqrtf ray rect
        = GetRay2DCollisionLineSegment sqrtf ray
            ⟨rect.x, rect.y + rect.height⟩ ⟨rect.x, rect.y⟩ := by
    have hm := (closestHit_of_hit (rectangleEdges sqrtf ray rect) hhit).1
    simpa only [rectangleEdges, List.mem_cons, List.mem_singleton, List.not_mem_nil,
      or_false] using hm
  have key : ∀ p1 p2 : Vector2 ℝ,
      GetRay2DCollisionRectangle sqrtf ray rect = GetRay2DCollisionLineSegment sqrtf ray p1 p2 →
      cross (Vector2Subtract ray.position p1) (Vector2Subtract p2 p1) ≠ 0 ∧
      Vector2Length sqrtf (GetRay2DCollisionRectangle sqrtf ray rect).normal = 1 ∧
      ∀ c : Vector2 ℝ,
        0 < Vector2DotProduct (GetRay2DCollisionRectangle sqrtf ray rect).normal
          (Vector2Subtract ray.position (GetRay2DCollisionRectangle sqrtf ray rect).point) ∧
        (0 < cross (Vector2Subtract c p1) (Vector2Subtract p2 p1)
            * cross (Vector2Subtract ray.position p1) (Vector2Subtract p2 p1) →
          Vector2DotProduct (GetRay2DCollisionRectangle sqrtf ray rect).normal
            (Vector2Subtract (GetRay2DCollisionRectangle sqrtf ray rect).point c) < 0) ∧
        (cross (Vector2Subtract c p1) (Vector2Subtract p2 p1)
            * cross (Vector2Subtract ray.position p1) (Vector2Subtract p2 p1) < 0 →
          0 < Vector2DotProduct (GetRay2DCollisionRectangle sqrtf ray rect).normal
            (Vector2Subtract (GetRay2DCollisionRectangle sqrtf ray rect).point c)) := by
    intro p1 p2 heq
    rw [heq] at hhit hn ⊢
    have hline := seg_off_line_of_normal_ne_zero sqrtf ray p1 p2 hhit hn
    exact ⟨hline, (seg_normal_off_line sqrtf ray p1 p2 hs hhit hline).1,
      fun c => seg_normal_center sqrtf ray hs p1 p2 hhit hline c⟩
  refine ⟨?_, ?_, ?_, ?_, ?_, ?_, ?_⟩
  · rcases hmem with h | h | h | h <;> exact (key _ _ h).2.1
  · rcases hmem with h | h | h | h <;> exact ((key _ _ h).2.2 ray.position).1
  · intro hx1 hx2 hy1 hy2
    rcases hmem with h | h | h | h
    · refine ((key _ _ h).2.2 _).2.1 ?_
      simp only [cross, Vector2Subtract]
      nlinarith [mul_pos (mul_pos hw hw) (mul_pos hh (sub_pos.mpr hy1))]
    · refine ((key _ _ h).2.2 _).2.1 ?_
      simp only [cross, Vector2Subtract]
      nlinarith [mul_pos (mul_pos hh hh) (mul_pos hw (sub_pos.mpr hx2))]
    · refine ((key _ _ h).2.2 _).2.1 ?_
      simp only [cross, Vector2Subtract]
      nlinarith [mul_pos (mul_pos hw hw) (mul_pos hh (sub_pos.mpr hy2))]
    · refine ((key _ _ h).2.2 _).2.1 ?_
      simp only [cross, Vector2Subtract]
      nlinarith [mul_pos (mul_pos hh hh) (mul_pos hw (sub_pos.mpr hx1))]
  · intro h hO
    refine ((key _ _ h).2.2 _).2.2 ?_
    simp only [cross, Vector2Subtract]
    nlinarith [mul_pos (mul_pos hw hw) (mul_pos hh (sub_pos.mpr hO))]
  · intro h hO
    refine ((key _ _ h).2.2 _).2.2 ?_
    simp only [cross, Vector2Subtract]
    nlinarith [mul_pos (mul_pos hh hh) (mul_pos hw (sub_pos.mpr hO))]
  · intro h hO
    refine ((key _ _ h).2.2 _).2.2 ?_
    simp only [cross, Vector2Subtract]
    nlinarith [mul_pos (mul_pos hw hw) (mul_pos hh (sub_pos.mpr hO))]
  · intro h hO
    refine ((key _ _ h).2.2 _).2.2 ?_
    simp only [cross, Vector2Subtract]
    nlinarith [mul_pos (mul_pos hh hh) (mul_pos hw (sub_pos.mpr hO))]

/-- The ray from the center `(0,0)` of the rectangle
`x = -1, y = -1, width = 2, height = 2` along `(1,0)`: the rectangle test
reports a hit with a non-zero normal that points inward. -/
theorem rectangle_center_example :
    (GetRay2DCollisionRectangle Real.sqrt ⟨⟨0, 0⟩, ⟨1, 0⟩⟩ ⟨-1, -1, 2, 2⟩).hit = true ∧
    (GetRay2DCollisionRectangle Real.sqrt ⟨⟨0, 0⟩, ⟨1, 0⟩⟩ ⟨-1, -1, 2, 2⟩).normal ≠ ⟨0, 0⟩ ∧
    Vector2DotProduct (GetRay2DCollisionRectangle Real.sqrt ⟨⟨0, 0⟩, ⟨1, 0⟩⟩ ⟨-1, -1, 2, 2⟩).normal
      (Vector2Subtract (GetRay2DCollisionRectangle Real.sqrt ⟨⟨0, 0⟩, ⟨1, 0⟩⟩ ⟨-1, -1, 2, 2⟩).point
        ⟨-1 + 2 / 2, -1 + 2 / 2⟩) < 0 := by
  have h0 : (GetRay2DCollisionLineSegment Real.sqrt ⟨⟨0, 0⟩, ⟨1, 0⟩⟩
      ⟨-1, -1⟩ ⟨-1 + 2, -1⟩).hit = false := by
    rw [← Bool.not_eq_true, seg_hit_iff]
    norm_num [segT, segS, cross, Vector2Subtract]
  have h1 : (GetRay2DCollisionLineSegment Real.sqrt ⟨⟨0, 0⟩, ⟨1, 0⟩⟩
      ⟨-1 + 2, -1⟩ ⟨-1 + 2, -1 + 2⟩).hit = true :=
    (seg_hit_iff Real.sqrt _ _ _).2 (by norm_num [segT, segS, cross, Vector2Subtract])
  have h2 : (GetRay2DCollisionLineSegment Real.sqrt ⟨⟨0, 0⟩, ⟨1, 0⟩⟩
      ⟨-1 + 2, -1 + 2⟩ ⟨-1, -1 + 2⟩).hit = false := by
    rw [← Bool.not_eq_true, seg_hit_iff]
    norm_num [segT, segS, cross, Vector2Subtract]
  have h3 : (GetRay2DCollisionLineSegment Real.sqrt ⟨⟨0, 0⟩, ⟨1, 0⟩⟩
      ⟨-1, -1 + 2⟩ ⟨-1, -1⟩).hit = false := by
    rw [← Bool.not_eq_true, seg_hit_iff]
    norm_num [segT, segS, cross, Vector2Subtract]
  have hhit : (GetRay2DCollisionRectangle Real.sqrt ⟨⟨0, 0⟩, ⟨1, 0⟩⟩ ⟨-1, -1, 2, 2⟩).hit = true :=
    (rectangle_hit_iff Real.sqrt ⟨⟨0, 0⟩, ⟨1, 0⟩⟩ isSqrt_real (by norm_num) ⟨-1, -1, 2, 2⟩).2
      ⟨_, by simp [rectangleEdges], h1⟩
  have hmem : GetRay2DCollisionRectangle Real.sqrt ⟨⟨0, 0⟩, ⟨1, 0⟩⟩ ⟨-1, -1, 2, 2⟩
        = GetRay2DCollisionLineSegment Real.sqrt ⟨⟨0, 0⟩, ⟨1, 0⟩⟩ ⟨-1, -1⟩ ⟨-1 + 2, -1⟩ ∨
      GetRay2DCollisionRectangle Real.sqrt ⟨⟨0, 0⟩, ⟨1, 0⟩⟩ ⟨-1, -1, 2, 2⟩
        = GetRay2DCollisionLineSegment Real.sqrt ⟨⟨0, 0⟩, ⟨1, 0⟩⟩
            ⟨-1 + 2, -1⟩ ⟨-1 + 2, -1 + 2⟩ ∨
      GetRay2DCollisionRectangle Real.sqrt ⟨⟨0, 0⟩, ⟨1, 0⟩⟩ ⟨-1, -1, 2, 2⟩
        = GetRay2DCollisionLineSegment Real.sqrt ⟨⟨0, 0⟩, ⟨1, 0⟩⟩
            ⟨-1 + 2, -1 + 2⟩ ⟨-1, -1 + 2⟩ ∨
      GetRay2DCollisionRectangle Real.sqrt ⟨⟨0, 0⟩, ⟨1, 0⟩⟩ ⟨-1, -1, 2, 2⟩
        = GetRay2DCollisionLineSegment Real.sqrt ⟨⟨0, 0⟩, ⟨1, 0⟩⟩ ⟨-1, -1 + 2⟩ ⟨-1, -1⟩ := by
    have hm := (closestHit_of_hit
      (rectangleEdges Real.sqrt ⟨⟨0, 0⟩, ⟨1, 0⟩⟩ ⟨-1, -1, 2, 2⟩) hhit).1
    simpa only [rectangleEdges, List.mem_cons, List.mem_singleton, List.not_mem_nil,
      or_false] using hm
  have hR : GetRay2DCollisionRectangle Real.sqrt ⟨⟨0, 0⟩, ⟨1, 0⟩⟩ ⟨-1, -1, 2, 2⟩
      = GetRay2DCollisionLineSegment Real.sqrt ⟨⟨0, 0⟩, ⟨1, 0⟩⟩
          ⟨-1 + 2, -1⟩ ⟨-1 + 2, -1 + 2⟩ := by
    rcases hmem with h | h | h | h
    · have hh := hhit; rw [h, h0] at hh; exact absurd hh (by simp)
    · exact h
    · have hh := hhit; rw [h, h2] at hh; exact absurd hh (by simp)
    · have hh := hhit; rw [h, h3] at hh; exact absurd hh (by simp)
  have hline : cross (Vector2Subtract (⟨⟨0, 0⟩, ⟨1, 0⟩⟩ : Ray2D ℝ).position ⟨-1 + 2, -1⟩)
      (Vector2Subtract (⟨-1 + 2, -1 + 2⟩ : Vector2 ℝ) ⟨-1 + 2, -1⟩) ≠ 0 := by
    norm_num [cross, Vector2Subtract]
  obtain ⟨n1, -, -⟩ := seg_normal_off_line Real.sqrt _ _ _ isSqrt_real h1 hline
  obtain ⟨-, k1, -⟩ := seg_normal_center Real.sqrt _ isSqrt_real _ _ h1 hline
    ⟨-1 + 2 / 2, -1 + 2 / 2⟩
  rw [hR]
  refine ⟨h1, fun hzero => ?_, k1 (by norm_num [cross, Vector2Subtract])⟩
  rw [hzero] at n1
  simp [Vector2Length] at n1

/-- C15 (as stated, for every origin) fails: the ray from the center `(0,0)` of
the rectangle `x = -1, y = -1, width = 2, height = 2` along the unit direction
`(1,0)` gets a hit with a non-zero normal for which
`dot(normal, point - rectCenter) > 0` does not hold: the normal points inward. -/
theorem GetRay2DCollisionRectangle_normal_outward_counterexample :
    (0:ℝ) < 2 ∧ Vector2Length Real.sqrt (⟨1, 0⟩ : Vector2 ℝ) = 1 ∧
    (GetRay2DCollisionRectangle Real.sqrt ⟨⟨0, 0⟩, ⟨1, 0⟩⟩ ⟨-1, -1, 2, 2⟩).hit = true ∧
    (GetRay2DCollisionRectangle Real.sqrt ⟨⟨0, 0⟩, ⟨1, 0⟩⟩ ⟨-1, -1, 2, 2⟩).normal ≠ ⟨0, 0⟩ ∧
    ¬ 0 < Vector2DotProduct (GetRay2DCollisionRectangle Real.sqrt ⟨⟨0, 0⟩, ⟨1, 0⟩⟩ ⟨-1, -1, 2, 2⟩).normal
      (Vector2Subtract (GetRay2DCollisionRectangle Real.sqrt ⟨⟨0, 0⟩, ⟨1, 0⟩⟩ ⟨-1, -1, 2, 2⟩).point
        ⟨-1 + 2 / 2, -1 + 2 / 2⟩) := by
  obtain ⟨h1, h2, h3⟩ := rectangle_center_example
  exact ⟨by norm_num, by simp [Vector2Length], h1, h2, not_lt.mpr h3.le⟩

/-- Witness for the amended C15: the same ray from the center of the rectangle
`x = -1, y = -1, width = 2, height = 2`; its origin is strictly inside. -/
theorem GetRay2DCollisionRectangle_normal_toward_origin_witness :
    IsSqrt Real.sqrt ∧ (0:ℝ) < 2 ∧
    (GetRay2DCollisionRectangle Real.sqrt ⟨⟨0, 0⟩, ⟨1, 0⟩⟩ ⟨-1, -1, 2, 2⟩).hit = true ∧
    (GetRay2DCollisionRectangle Real.sqrt ⟨⟨0, 0⟩, ⟨1, 0⟩⟩ ⟨-1, -1, 2, 2⟩).normal ≠ ⟨0, 0⟩ ∧
    Vector2Length Real.sqrt (GetRay2DCollisionRectangle Real.sqrt ⟨⟨0, 0⟩, ⟨1, 0⟩⟩ ⟨-1, -1, 2, 2⟩).normal = 1 ∧
    0 < Vector2DotProduct (GetRay2DCollisionRectangle Real.sqrt ⟨⟨0, 0⟩, ⟨1, 0⟩⟩ ⟨-1, -1, 2, 2⟩).normal
      (Vector2Subtract ⟨0, 0⟩ (GetRay2DCollisionRectangle Real.sqrt ⟨⟨0, 0⟩, ⟨1, 0⟩⟩ ⟨-1, -1, 2, 2⟩).point) :=
  have hmain := GetRay2DCollisionRectangle_normal_toward_origin Real.sqrt ⟨⟨0, 0⟩, ⟨1, 0⟩⟩
    isSqrt_real ⟨-1, -1, 2, 2⟩ (by norm_num) (by norm_num)
    rectangle_center_example.1 rectangle_center_example.2.1
  ⟨isSqrt_real, by norm_num, rectangle_center_example.1, rectangle_center_example.2.1,
    hmain.1, hmain.2.1⟩

end RectangleNormal

/-! ## Rectangle: rays from the center -/

section RectangleCenter

variable (sqrtf : ℝ → ℝ)

/-- A unit direction `(a, b)` with `a > 0` that leaves the `w` by `h` box around
the start point through the side at distance `w/2` along the first axis: the
exit parameter `t` is at most `1000000`. -/
theorem exit_axis (a b w h : ℝ) (hab : a * a + b * b = 1) (ha : 0 < a)
    (hw : 0 < w) (hh : 0 < h) (hw2 : w ≤ 1000000) (hh2 : h ≤ 1000000)
    (hc1 : -(a * h) ≤ b * w) (hc2 : b * w ≤ a * h) :
    ∃ t : ℝ, 0 ≤ t ∧ t ≤ 1000000 ∧ t * a = w / 2 ∧ -(h / 2) ≤ t * b ∧ t * b ≤ h / 2 := by
  have hta : w / (2 * a) * a = w / 2 := by field_simp; ring
  have ht0 : 0 ≤ w / (2 * a) := by positivity
  have htb : w / (2 * a) * b = b * w / (2 * a) := by ring
  have h1 : -(h / 2) ≤ w / (2 * a) * b := by
    rw [htb, le_div_iff₀ (by positivity)]
    nlinarith
  have h2 : w / (2 * a) * b ≤ h / 2 := by
    rw [htb, div_le_iff₀ (by positivity)]
    nlinarith
  refine ⟨w / (2 * a), ht0, ?_, hta, h1, h2⟩
  generalize w / (2 * a) = t at hta ht0 h1 h2
  by_contra hcon
  rw [not_le] at hcon
  have e : t * t = (t * a) * (t * a) + (t * b) * (t * b) := by
    linear_combination (-(t * t)) * hab
  have hb2 : (t * b) * (t * b) ≤ (h / 2) * (h / 2) := by nlinarith
  rw [hta] at e
  nlinarith

/-- A unit direction leaves the `w` by `h` box around the start point through
one of its four sides, at a parameter `t` of at most `1000000`. -/
theorem center_exit (a b w h : ℝ) (hab : a * a + b * b = 1)
    (hw : 0 < w) (hh : 0 < h) (hw2 : w ≤ 1000000) (hh2 : h ≤ 1000000) :
    ∃ t : ℝ, 0 ≤ t ∧ t ≤ 1000000 ∧
      ((t * a = w / 2 ∧ -(h / 2) ≤ t * b ∧ t * b ≤ h / 2) ∨
        (t * a = -(w / 2) ∧ -(h / 2) ≤ t * b ∧ t * b ≤ h / 2) ∨
        (t * b = h / 2 ∧ -(w / 2) ≤ t * a ∧ t * a ≤ w / 2) ∨
        (t * b = -(h / 2) ∧ -(w / 2) ≤ t * a ∧ t * a ≤ w / 2)) := by
  have hb1 := le_abs_self b
  have hb2 := neg_abs_le b
  have ha1 := le_abs_self a
  have ha2 := neg_abs_le a
  rcases le_total (|b| * w) (|a| * h) with hc | hc
  · rcases lt_trichotomy a 0 with hneg | hzero | hpos
    · rw [abs_of_neg hneg] at hc
      obtain ⟨t, h1, h2, h3, h4, h5⟩ := exit_axis (-a) (-b) w h (by linarith) (by linarith)
        hw hh hw2 hh2 (by nlinarith) (by nlinarith)
      exact ⟨t, h1, h2, Or.inr (Or.inl ⟨by linarith, by linarith, by linarith⟩)⟩
    · exfalso
      subst hzero
      have hbb : b * b = 1 := by linarith
      have hb0 : |b| * w ≤ 0 := by simpa using hc
      have : |b| ≤ 0 := by nlinarith [abs_nonneg b]
      have hb : b = 0 := abs_eq_zero.mp (le_antisymm this (abs_nonneg b))
      rw [hb] at hbb
      norm_num at hbb
    · rw [abs_of_pos hpos] at hc
      obtain ⟨t, h1, h2, h3, h4, h5⟩ := exit_axis a b w h hab hpos
        hw hh hw2 hh2 (by nlinarith) (by nlinarith)
      exact ⟨t, h1, h2, Or.inl ⟨h3, h4, h5⟩⟩
  · rcases lt_trichotomy b 0 with hneg | hzero | hpos
    · rw [abs_of_neg hneg] at hc
      obtain ⟨t, h1, h2, h3, h4, h5⟩ := exit_axis (-b) (-a) h w (by linarith) (by linarith)
        hh hw hh2 hw2 (by nlinarith) (by nlinarith)
      exact ⟨t, h1, h2, Or.inr (Or.inr (Or.inr ⟨by linarith, by linarith, by linarith⟩))⟩
    · exfalso
      subst hzero
      have haa : a * a = 1 := by linarith
      have ha0 : |a| * h ≤ 0 := by simpa using hc
      have : |a| ≤ 0 := by nlinarith [abs_nonneg a]
      have ha : a = 0 := abs_eq_zero.mp (le_antisymm this (abs_nonneg a))
      rw [ha] at haa
      norm_num at haa
    · rw [abs_of_pos hpos] at hc
      obtain ⟨t, h1, h2, h3, h4, h5⟩ := exit_axis b a h w (by linarith) hpos
        hh hw hh2 hw2 (by nlinarith) (by nlinarith)
      exact ⟨t, h1, h2, Or.inr (Or.inr (Or.inl ⟨h3, h4, h5⟩))⟩

/-- On a hit the reported point is `p1 + s * (p2 - p1)` for some `s ∈ [0, 1]`. -/
theorem seg_point_on_segment (ray : Ray2D ℝ) (p1 p2 : Vector2 ℝ)
    (hhit : (GetRay2DCollisionLineSegment sqrtf ray p1 p2).hit = true) :
    ∃ s : ℝ, 0 ≤ s ∧ s ≤ 1 ∧
      (GetRay2DCollisionLineSegment sqrtf ray p1 p2).point
        = Vector2Add p1 (Vector2Scale (Vector2Subtract p2 p1) s) := by
  obtain ⟨hc, -, -, hs0, hs1⟩ := (seg_hit_iff sqrtf ray p1 p2).mp hhit
  refine ⟨segS ray p1 p2, hs0, hs1, ?_⟩
  rw [(seg_point_of_hit sqrtf ray p1 p2 hhit).1, seg_crossing ray p1 p2 hc]

/-- A hit of the rectangle test lies on the boundary of the rectangle. -/
theorem rectangle_point_on_boundary (ray : Ray2D ℝ) (rect : Rectangle ℝ)
    (hw : 0 ≤ rect.width) (hh : 0 ≤ rect.height)
    (hhit : (GetRay2DCollisionRectangle sqrtf ray rect).hit = true) :
    (((GetRay2DCollisionRectangle sqrtf ray rect).point.x = rect.x ∨
        (GetRay2DCollisionRectangle sqrtf ray rect).point.x = rect.x + rect.width) ∧
      rect.y ≤ (GetRay2DCollisionRectangle sqrtf ray rect).point.y ∧
      (GetRay2DCollisionRectangle sqrtf ray rect).point.y ≤ rect.y + rect.height) ∨
    (((GetRay2DCollisionRectangle sqrtf ray rect).point.y = rect.y ∨
        (GetRay2DCollisionRectangle sqrtf ray rect).point.y = rect.y + rect.height) ∧
      rect.x ≤ (GetRay2DCollisionRectangle sqrtf ray rect).point.x ∧
      (GetRay2DCollisionRectangle sqrtf ray rect).point.x ≤ rect.x + rect.width) := by
  have hmem : GetRay2DCollisionRectangle sqrtf ray rect
        = GetRay2DCollisionLineSegment sqrtf ray
            ⟨rect.x, rect.y⟩ ⟨rect.x + rect.width, rect.y⟩ ∨
      GetRay2DCollisionRectangle sqrtf ray rect
        = GetRay2DCollisionLineSegment sqrtf ray
            ⟨rect.x + rect.width, rect.y⟩ ⟨rect.x + rect.width, rect.y + rect.height⟩ ∨
      GetRay2DCollisionRectangle sqrtf ray rect
        = GetRay2DCollisionLineSegment sqrtf ray
            ⟨rect.x + rect.width, rect.y + rect.height⟩ ⟨rect.x, rect.y + rect.height⟩ ∨
      GetRay2DCollisionRectangle sqrtf ray rect
        = GetRay2DCollisionLineSegment sqrtf ray
            ⟨rect.x, rect.y + rect.height⟩ ⟨rect.x, rect.y⟩ := by
    have hm := (closestHit_of_hit (rectangleEdges sqrtf ray rect) hhit).1
    simpa only [rectangleEdges, List.mem_cons, List.mem_singleton, List.not_mem_nil,
      or_false] using hm
  rcases hmem with h | h | h | h
  · rw [h] at hhit ⊢
    obtain ⟨s, hs0, hs1, hp⟩ := seg_point_on_segment sqrtf ray _ _ hhit
    rw [hp]
    simp only [Vector2Add, Vector2Scale, Vector2Subtract]
    right
    refine ⟨Or.inl (by ring), ?_, ?_⟩ <;> nlinarith
  · rw [h] at hhit ⊢
    obtain ⟨s, hs0, hs1, hp⟩ := seg_point_on_segment sqrtf ray _ _ hhit
    rw [hp]
    simp only [Vector2Add, Vector2Scale, Vector2Subtract]
    left
    refine ⟨Or.inr (by ring), ?_, ?_⟩ <;> nlinarith
  · rw [h] at hhit ⊢
    obtain ⟨s, hs0, hs1, hp⟩ := seg_point_on_segment sqrtf ray _ _ hhit
    rw [hp]
    simp only [Vector2Add, Vector2Scale, Vector2Subtract]
    right
    refine ⟨Or.inr (by ring), ?_, ?_⟩ <;> nlinarith
  · rw [h] at hhit ⊢
    obtain ⟨s, hs0, hs1, hp⟩ := seg_point_on_segment sqrtf ray _ _ hhit
    rw [hp]
    simp only [Vector2Add, Vector2Scale, Vector2Subtract]
    left
    refine ⟨Or.inl (by ring), ?_, ?_⟩ <;> nlinarith

/-- From the center of a rectangle with `0 < width, height <= 1000000`, a ray with
unit direction hits one of the four edges. -/
theorem rectangle_center_edge_hit (rect : Rectangle ℝ)
    (direction : Vector2 ℝ) (hD : direction.x * direction.x + direction.y * direction.y = 1)
    (hw : 0 < rect.width) (hw2 : rect.width ≤ 1000000)
    (hh : 0 < rect.height) (hh2 : rect.height ≤ 1000000) :
    ∃ e ∈ rectangleEdges sqrtf
        ⟨⟨rect.x + rect.width / 2, rect.y + rect.height / 2⟩, direction⟩ rect,
      e.hit = true := by
  obtain ⟨t, ht0, ht1, hcase⟩ := center_exit direction.x direction.y rect.width rect.height
    hD hw hh hw2 hh2
  have hwne : rect.width ≠ 0 := hw.ne.symm
  have hhne : rect.height ≠ 0 := hh.ne.symm
  rcases hcase with ⟨h1, h2, h3⟩ | ⟨h1, h2, h3⟩ | ⟨h1, h2, h3⟩ | ⟨h1, h2, h3⟩
  · -- right edge
    have hdx : direction.x ≠ 0 := by
      rintro h0; rw [h0, mul_zero] at h1; linarith
    refine ⟨_, by simp [rectangleEdges],
      (seg_hit_of_crossing sqrtf ⟨⟨rect.x + rect.width / 2, rect.y + rect.height / 2⟩, direction⟩
        ⟨rect.x + rect.width, rect.y⟩ ⟨rect.x + rect.width, rect.y + rect.height⟩
        ?_ t ((rect.height / 2 + t * direction.y) / rect.height) ht0 ht1 ?_ ?_ ?_).1⟩
    · simp only [cross, Vector2Subtract]
      intro h0
      have : direction.x * rect.height = 0 := by linear_combination h0
      exact hdx ((mul_eq_zero.mp this).resolve_right hhne)
    · apply div_nonneg _ hh.le; linarith
    · rw [div_le_one hh]; linarith
    · simp only [Vector2Add, Vector2Scale, Vector2Subtract]
      ext
      · simp only; linear_combination h1
      · simp only; field_simp; ring
  · -- left edge
    have hdx : direction.x ≠ 0 := by
      rintro h0; rw [h0, mul_zero] at h1; linarith
    refine ⟨_, by simp [rectangleEdges],
      (seg_hit_of_crossing sqrtf ⟨⟨rect.x + rect.width / 2, rect.y + rect.height / 2⟩, direction⟩
        ⟨rect.x, rect.y + rect.height⟩ ⟨rect.x, rect.y⟩
        ?_ t ((rect.height / 2 - t * direction.y) / rect.height) ht0 ht1 ?_ ?_ ?_).1⟩
    · simp only [cross, Vector2Subtract]
      intro h0
      have : direction.x * rect.height = 0 := by linear_combination -h0
      exact hdx ((mul_eq_zero.mp this).resolve_right hhne)
    · apply div_nonneg _ hh.le; linarith
    · rw [div_le_one hh]; linarith
    · simp only [Vector2Add, Vector2Scale, Vector2Subtract]
      ext
      · simp only; linear_combination h1
      · simp only; field_simp; ring
  · -- bottom edge
    have hdy : direction.y ≠ 0 := by
      rintro h0; rw [h0, mul_zero] at h1; linarith
    refine ⟨_, by simp [rectangleEdges],
      (seg_hit_of_crossing sqrtf ⟨⟨rect.x + rect.width / 2, rect.y + rect.height / 2⟩, direction⟩
        ⟨rect.x + rect.width, rect.y + rect.height⟩ ⟨rect.x, rect.y + rect.height⟩
        ?_ t ((rect.width / 2 - t * direction.x) / rect.width) ht0 ht1 ?_ ?_ ?_).1⟩
    · simp only [cross, Vector2Subtract]
      intro h0
      have : direction.y * rect.width = 0 := by linear_combination h0
      exact hdy ((mul_eq_zero.mp this).resolve_right hwne)
    · apply div_nonneg _ hw.le; linarith
    · rw [div_le_one hw]; linarith
    · simp only [Vector2Add, Vector2Scale, Vector2Subtract]
      ext
      · simp only; field_simp; ring
      · simp only; linear_combination h1
  · -- top edge
    have hdy : direction.y ≠ 0 := by
      rintro h0; rw [h0, mul_zero] at h1; linarith
    refine ⟨_, by simp [rectangleEdges],
      (seg_hit_of_crossing sqrtf ⟨⟨rect.x + rect.width / 2, rect.y + rect.height / 2⟩, direction⟩
        ⟨rect.x, rect.y⟩ ⟨rect.x + rect.width, rect.y⟩
        ?_ t ((rect.width / 2 + t * direction.x) / rect.width) ht0 ht1 ?_ ?_ ?_).1⟩
    · simp only [cross, Vector2Subtract]
      intro h0
      have : direction.y * rect.width = 0 := by linear_combination -h0
      exact hdy ((mul_eq_zero.mp this).resolve_right hwne)
    · apply div_nonneg _ hw.le; linarith
    · rw [div_le_one hw]; linarith
    · simp only [Vector2Add, Vector2Scale, Vector2Subtract]
      ext
      · simp only; field_simp; ring
      · simp only; linear_combination h1

/-- C12: reading floats as reals, for every rectangle with
`0 < width <= 1000000` and `0 < height <= 1000000` and every ray whose origin is
the center `(x + width/2, y + height/2)` of the rectangle, with any unit-length
direction, the rectangle test reports a hit and the returned point lies on the
boundary of the rectangle: `point.x = x` or `point.x = x + width` with
`y <= point.y <= y + height`, or `point.y = y` or `point.y = y + height` with
`x <= point.x <= x + width`. -/
theorem GetRay2DCollisionRectangle_from_center (hs : IsSqrt sqrtf) (rect : Rectangle ℝ)
    (direction : Vector2 ℝ) (hD : Vector2Length sqrtf direction = 1)
    (hw : 0 < rect.width) (hw2 : rect.width ≤ 1000000)
    (hh : 0 < rect.height) (hh2 : rect.height ≤ 1000000) :
    (GetRay2DCollisionRectangle sqrtf
        ⟨⟨rect.x + rect.width / 2, rect.y + rect.height / 2⟩, direction⟩ rect).hit = true ∧
    ((((GetRay2DCollisionRectangle sqrtf
        ⟨⟨rect.x + rect.width / 2, rect.y + rect.height / 2⟩, direction⟩ rect).point.x = rect.x ∨
        (GetRay2DCollisionRectangle sqrtf
        ⟨⟨rect.x + rect.width / 2, rect.y + rect.height / 2⟩, direction⟩ rect).point.x = rect.x + rect.width) ∧
      rect.y ≤ (GetRay2DCollisionRectangle sqrtf
        ⟨⟨rect.x + rect.width / 2, rect.y + rect.height / 2⟩, direction⟩ rect).point.y ∧
      (GetRay2DCollisionRectangle sqrtf
        ⟨⟨rect.x + rect.width / 2, rect.y + rect.height / 2⟩, direction⟩ rect).point.y ≤ rect.y + rect.height) ∨
    (((GetRay2DCollisionRectangle sqrtf
        ⟨⟨rect.x + rect.width / 2, rect.y + rect.height / 2⟩, direction⟩ rect).point.y = rect.y ∨
        (GetRay2DCollisionRectangle sqrtf
        ⟨⟨rect.x + rect.width / 2, rect.y + rect.height / 2⟩, direction⟩ rect).point.y = rect.y + rect.height) ∧
      rect.x ≤ (GetRay2DCollisionRectangle sqrtf
        ⟨⟨rect.x + rect.width / 2, rect.y + rect.height / 2⟩, direction⟩ rect).point.x ∧
      (GetRay2DCollisionRectangle sqrtf
        ⟨⟨rect.x + rect.width / 2, rect.y + rect.height / 2⟩, direction⟩ rect).point.x ≤ rect.x + rect.width)) := by
  have hD2 := hs.sq_of_length_eq_one hD
  have hhit := (rectangle_hit_iff sqrtf ⟨⟨rect.x + rect.width / 2, rect.y + rect.height / 2⟩, direction⟩
    hs hD2.le rect).2 (rectangle_center_edge_hit sqrtf rect direction hD2 hw hw2 hh hh2)
  exact ⟨hhit, rectangle_point_on_boundary sqrtf _ rect hw.le hh.le hhit⟩

/-- Witness for C12: the rectangle `x = -1, y = -1, width = 2, height = 2` and the
direction `(1,0)`. -/
theorem GetRay2DCollisionRectangle_from_center_witness :
    IsSqrt Real.sqrt ∧ Vector2Length Real.sqrt (⟨1, 0⟩ : Vector2 ℝ) = 1 ∧
    (0:ℝ) < 2 ∧ (2:ℝ) ≤ 1000000 ∧
    (GetRay2DCollisionRectangle Real.sqrt
        ⟨⟨-1 + 2 / 2, -1 + 2 / 2⟩, ⟨1, 0⟩⟩ ⟨-1, -1, 2, 2⟩).hit = true :=
  have hD : Vector2Length Real.sqrt (⟨1, 0⟩ : Vector2 ℝ) = 1 := by
    simp [Vector2Length]
  ⟨isSqrt_real, hD, by norm_num, by norm_num,
    (GetRay2DCollisionRectangle_from_center Real.sqrt isSqrt_real ⟨-1, -1, 2, 2⟩ ⟨1, 0⟩ hD
      (by norm_num) (by norm_num) (by norm_num) (by norm_num)).1⟩

end RectangleCenter

/-! ## The binary32 reading: rounding, and what survives it -/

section Binary32

/-- Known binary32 values: numbers with a 24-bit significand are kept, `0.1`,
`0.6` and `1/3` round to `0x3DCCCCCD`, `0x3F19999A` and `0x3EAAAAAB`, ties go to
the even significand, and rounding commutes with the sign. -/
theorem roundF32_examples :
    roundF32 0 = 0 ∧ roundF32 1 = 1 ∧ roundF32 1000000 = 1000000 ∧
    roundF32 (16000003 / 16) = 16000003 / 16 ∧
    roundF32 (1 / 10) = 13421773 / 134217728 ∧
    roundF32 (6 / 10) = 10066330 / 16777216 ∧
    roundF32 (1 / 3) = 11184811 / 33554432 ∧
    roundF32 16777217 = 16777216 ∧ roundF32 16777219 = 16777220 ∧
    roundF32 (2000000 + 3 / 16) = 2000000 + 1 / 4 ∧
    roundF32 (-(1 / 10)) = -(13421773 / 134217728) := by
  decide!

/-- Known values of the binary32 square root: `sqrtf(2) = 0x3FB504F3`. -/
theorem sqrtF32_examples :
    sqrtF32 0 = 0 ∧ sqrtF32 1 = 1 ∧ sqrtF32 25 = 5 ∧
    sqrtF32 2 = 11863283 / 8388608 ∧
    sqrtF32 1000000126976 = 16000001 / 16 := by
  decide!

theorem roundF32_zero : roundF32 0 = 0 := by
  simp [roundF32]

theorem fsub_self (a : ℚ) : fsub a a = 0 := by
  simp [fsub, roundF32_zero]

theorem fmul_zero_left (a : ℚ) : fmul 0 a = 0 := by
  simp [fmul, roundF32_zero]

theorem fmul_zero_right (a : ℚ) : fmul a 0 = 0 := by
  simp [fmul, roundF32_zero]

/-- In binary32 a zero-length segment gives no hit: the denominator is `0`. -/
theorem segF32_no_hit_of_eq (ray : Ray2D ℚ) (p : Vector2 ℚ) :
    (GetRay2DCollisionLineSegmentF32 ray p p).hit = false := by
  unfold GetRay2DCollisionLineSegmentF32
  simp [fsub_self, fmul_zero_left, zeroCollision]

/-- In binary32 a zero direction from a representable origin gives no hit: the
far end of the ray is the origin and the denominator is `0`. -/
theorem segF32_no_hit_of_zero_direction (position p1 p2 : Vector2 ℚ)
    (hx : roundF32 position.x = position.x) (hy : roundF32 position.y = position.y) :
    (GetRay2DCollisionLineSegmentF32 ⟨position, ⟨0, 0⟩⟩ p1 p2).hit = false := by
  unfold GetRay2DCollisionLineSegmentF32
  simp [Vector2AddF32, Vector2ScaleF32, fadd, fmul_zero_left, hx, hy, fsub_self,
    fmul_zero_right, zeroCollision]

end Binary32

/-! ## The nearest-hit loop and the start distance -/

section ReducerBound

variable {F : Type} [LinearOrderedField F]

/-- The loop returns a hit exactly when some candidate is a hit at most
`RAYLENGTH` away. -/
theorem closestHit_hit_iff_bounded (l : List (Ray2DCollision F)) :
    (closestHit l).hit = true ↔ ∃ e ∈ l, e.hit = true ∧ e.distance ≤ RAYLENGTH := by
  constructor
  · intro h
    obtain ⟨hmem, -⟩ := closestHit_of_hit l h
    obtain ⟨-, h2, -⟩ := foldl_saveClosestHit_spec l
      { (zeroCollision : Ray2DCollision F) with distance := RAYLENGTH }
    exact ⟨closestHit l, hmem, h, h2⟩
  · intro h
    obtain ⟨-, -, -, h2, -⟩ := closestHit_last l h
    exact h2

/-- The loop over three candidates: without a hit candidate it returns no hit;
a single hit candidate at most `RAYLENGTH` away is returned unchanged. -/
theorem closestHit_three (a b c : Ray2DCollision F) :
    (a.hit = false → b.hit = false → c.hit = false → (closestHit [a, b, c]).hit = false) ∧
    (a.hit = true → a.distance ≤ 1000000 → b.hit = false → c.hit = false →
      closestHit [a, b, c] = a) ∧
    (a.hit = false → b.hit = true → b.distance ≤ 1000000 → c.hit = false →
      closestHit [a, b, c] = b) ∧
    (a.hit = false → b.hit = false → c.hit = true → c.distance ≤ 1000000 →
      closestHit [a, b, c] = c) := by
  refine ⟨fun ha hb hc => ?_, fun ha hd hb hc => ?_, fun ha hb hd hc => ?_,
    fun ha hb hc hd => ?_⟩
  · simp [closestHit, saveClosestHit, zeroCollision, ha, hb, hc]
  · simp [closestHit, saveClosestHit, zeroCollision, RAYLENGTH, ha, hb, hc, hd]
  · simp [closestHit, saveClosestHit, zeroCollision, RAYLENGTH, ha, hb, hc, hd]
  · simp [closestHit, saveClosestHit, zeroCollision, RAYLENGTH, ha, hb, hc, hd]

end ReducerBound

/-! ## Claims that depend on the reading of `float` -/

section Readings

/-- C8 (as stated, for the program on `float`) fails in binary32: the direction
`Vector2Normalize((3,4))` is `(0.6f, 0.8f)`; for the ray from `(0,0)` along it and
the segment from `(0,0)` to that same vector the cross product of the direction
and `p2 - p1` is `0`, exactly and as computed in binary32 (a ray running straight
along the segment). The products `0.8f * 600000` and `0.6f * 800000` round to
`480000` and `480000.03125`, so the denominator is `0.03125`, not `0`, and the
segment test reports a hit. -/
theorem GetRay2DCollisionLineSegmentF32_coincident_counterexample :
    (Vector2NormalizeF32 ⟨3, 4⟩).x = 10066330 / 16777216 ∧
    (Vector2NormalizeF32 ⟨3, 4⟩).y = 13421773 / 16777216 ∧
    cross (⟨10066330 / 16777216, 13421773 / 16777216⟩ : Vector2 ℚ)
      (Vector2Subtract ⟨10066330 / 16777216, 13421773 / 16777216⟩ ⟨0, 0⟩) = 0 ∧
    fsub (fmul (10066330 / 16777216) (fsub (13421773 / 16777216) 0))
      (fmul (13421773 / 16777216) (fsub (10066330 / 16777216) 0)) = 0 ∧
    fsub (fmul (fsub (13421773 / 16777216) 0) (fsub 0 600000))
      (fmul (fsub (10066330 / 16777216) 0) (fsub 0 800000)) = 1 / 32 ∧
    (GetRay2DCollisionLineSegmentF32 ⟨⟨0, 0⟩, ⟨10066330 / 16777216, 13421773 / 16777216⟩⟩
      ⟨0, 0⟩ ⟨10066330 / 16777216, 13421773 / 16777216⟩).hit = true := by
  decide!

/-- C8, amended: reading floats as real numbers, whenever
`cross(direction, p2 - p1) = 0` the segment test reports no hit; this covers a
zero-length segment, a zero direction vector, a ray parallel to the segment and
a ray lying on the line of the segment. In binary32 arithmetic the zero-length
segment and the zero direction vector (from an origin that is a binary32
number) still give no hit, because the computed denominator is exactly `0`. -/
theorem GetRay2DCollisionLineSegment_no_hit_of_cross_eq_zero
    (sqrtf : ℝ → ℝ) (ray : Ray2D ℝ) (p1 p2 : Vector2 ℝ)
    (rayF : Ray2D ℚ) (q1 q2 : Vector2 ℚ) :
    (cross ray.direction (Vector2Subtract p2 p1) = 0 →
      (GetRay2DCollisionLineSegment sqrtf ray p1 p2).hit = false) ∧
    (p1 = p2 → (GetRay2DCollisionLineSegment sqrtf ray p1 p2).hit = false) ∧
    (ray.direction = ⟨0, 0⟩ → (GetRay2DCollisionLineSegment sqrtf ray p1 p2).hit = false) ∧
    (∀ k : ℝ, Vector2Subtract p2 p1 = Vector2Scale ray.direction k →
      (GetRay2DCollisionLineSegment sqrtf ray p1 p2).hit = false) ∧
    (q1 = q2 → (GetRay2DCollisionLineSegmentF32 rayF q1 q2).hit = false) ∧
    (rayF.direction = ⟨0, 0⟩ → roundF32 rayF.position.x = rayF.position.x →
      roundF32 rayF.position.y = rayF.position.y →
      (GetRay2DCollisionLineSegmentF32 rayF q1 q2).hit = false) := by
  obtain ⟨h1, h2, h3, h4⟩ := seg_no_hit_of_cross_eq_zero sqrtf ray p1 p2
  refine ⟨h1, h2, h3, h4, fun h => ?_, fun hd hx hy => ?_⟩
  · subst h
    exact segF32_no_hit_of_eq rayF q1
  · obtain ⟨position, direction⟩ := rayF
    simp only at hd hx hy
    subst hd
    exact segF32_no_hit_of_zero_direction position q1 q2 hx hy

/-- Witness for the amended C8: over the reals, a ray from `(0,0)` along `(1,0)`
running straight along the segment `(1,0)`-`(2,0)`; in binary32, the zero-length
segment at `(1,1)`, and the zero direction from `(1.5,-5)` against a segment
through that origin. -/
theorem GetRay2DCollisionLineSegment_no_hit_of_cross_eq_zero_witness :
    cross (⟨1, 0⟩ : Vector2 ℝ) (Vector2Subtract ⟨2, 0⟩ ⟨1, 0⟩) = 0 ∧
    (GetRay2DCollisionLineSegment Real.sqrt
        ⟨⟨0, 0⟩, ⟨1, 0⟩⟩ (⟨1, 0⟩ : Vector2 ℝ) ⟨2, 0⟩).hit = false ∧
    (GetRay2DCollisionLineSegmentF32 ⟨⟨0, 0⟩, ⟨1, 0⟩⟩ ⟨1, 1⟩ ⟨1, 1⟩).hit = false ∧
    roundF32 (3 / 2) = 3 / 2 ∧ roundF32 (-5) = -5 ∧
    (GetRay2DCollisionLineSegmentF32 ⟨⟨3 / 2, -5⟩, ⟨0, 0⟩⟩ ⟨1, -6⟩ ⟨2, -4⟩).hit = false :=
  have h := GetRay2DCollisionLineSegment_no_hit_of_cross_eq_zero Real.sqrt
    ⟨⟨0, 0⟩, ⟨1, 0⟩⟩ ⟨1, 0⟩ ⟨2, 0⟩ ⟨⟨0, 0⟩, ⟨1, 0⟩⟩ ⟨1, 1⟩ ⟨1, 1⟩
  have hx : roundF32 (3 / 2) = 3 / 2 := by decide!
  have hy : roundF32 (-5) = -5 := by decide!
  ⟨by norm_num [cross, Vector2Subtract], h.1 (by norm_num [cross, Vector2Subtract]),
    h.2.2.2.2.1 rfl, hx, hy,
    (GetRay2DCollisionLineSegment_no_hit_of_cross_eq_zero Real.sqrt
      ⟨⟨0, 0⟩, ⟨1, 0⟩⟩ ⟨1, 0⟩ ⟨2, 0⟩ ⟨⟨3 / 2, -5⟩, ⟨0, 0⟩⟩ ⟨1, -6⟩ ⟨2, -4⟩).2.2.2.2.2
      rfl hx hy⟩

/-- C7 (as stated, for the program on `float`) fails in binary32: the ray from
`(1000000.1875, 0)` along the unit direction `(1,0)` has its far end rounded to
`x = 2000000.25`, so it reaches the edge `p1-p2` of the triangle
`(2000000.25,-1), (2000000.25,1), (2000001.25,3)` and hits it at distance
`1000000.0625`; the other two edges are missed. The single hit is farther than
the start distance `1000000`, so the triangle test returns the no-hit record
instead of that edge result. -/
theorem GetRay2DCollisionTriangleF32_single_edge_counterexample :
    Vector2LengthF32 ⟨1, 0⟩ = 1 ∧
    (GetRay2DCollisionLineSegmentF32 ⟨⟨16000003 / 16, 0⟩, ⟨1, 0⟩⟩ ⟨8000001 / 4, -1⟩ ⟨8000001 / 4, 1⟩).hit = true ∧
    (GetRay2DCollisionLineSegmentF32 ⟨⟨16000003 / 16, 0⟩, ⟨1, 0⟩⟩ ⟨8000001 / 4, -1⟩ ⟨8000001 / 4, 1⟩).distance
      = 16000001 / 16 ∧
    (GetRay2DCollisionLineSegmentF32 ⟨⟨16000003 / 16, 0⟩, ⟨1, 0⟩⟩ ⟨8000001 / 4, 1⟩ ⟨8000005 / 4, 3⟩).hit = false ∧
    (GetRay2DCollisionLineSegmentF32 ⟨⟨16000003 / 16, 0⟩, ⟨1, 0⟩⟩ ⟨8000005 / 4, 3⟩ ⟨8000001 / 4, -1⟩).hit = false ∧
    (GetRay2DCollisionTriangleF32 ⟨⟨16000003 / 16, 0⟩, ⟨1, 0⟩⟩
      ⟨8000001 / 4, -1⟩ ⟨8000001 / 4, 1⟩ ⟨8000005 / 4, 3⟩).hit = false := by
  decide!

/-- C7, amended: for every ray and every triangle `p1, p2, p3`, if the segment
test misses all three edges `p1-p2`, `p2-p3`, `p3-p1` the triangle test reports
no hit, and if exactly one edge result is a hit and its distance is at most
`1000000`, the triangle test returns that edge result unchanged (the same
record); this holds over an exact field and in binary32. Reading floats as real
numbers, for a unit-length direction every edge hit is within that distance, so
then a single hit edge is always returned unchanged. -/
theorem GetRay2DCollisionTriangle_single_edge
    (sqrtf : ℝ → ℝ) (ray : Ray2D ℝ) (p1 p2 p3 : Vector2 ℝ)
    (rayF : Ray2D ℚ) (q1 q2 q3 : Vector2 ℚ) :
    ((GetRay2DCollisionLineSegment sqrtf ray p1 p2).hit = false →
      (GetRay2DCollisionLineSegment sqrtf ray p2 p3).hit = false →
      (GetRay2DCollisionLineSegment sqrtf ray p3 p1).hit = false →
      (GetRay2DCollisionTriangle sqrtf ray p1 p2 p3).hit = false) ∧
    ((GetRay2DCollisionLineSegment sqrtf ray p1 p2).hit = true →
      (GetRay2DCollisionLineSegment sqrtf ray p1 p2).distance ≤ 1000000 →
      (GetRay2DCollisionLineSegment sqrtf ray p2 p3).hit = false →
      (GetRay2DCollisionLineSegment sqrtf ray p3 p1).hit = false →
      GetRay2DCollisionTriangle sqrtf ray p1 p2 p3
        = GetRay2DCollisionLineSegment sqrtf ray p1 p2) ∧
    ((GetRay2DCollisionLineSegment sqrtf ray p1 p2).hit = false →
      (GetRay2DCollisionLineSegment sqrtf ray p2 p3).hit = true →
      (GetRay2DCollisionLineSegment sqrtf ray p2 p3).distance ≤ 1000000 →
      (GetRay2DCollisionLineSegment sqrtf ray p3 p1).hit = false →
      GetRay2DCollisionTriangle sqrtf ray p1 p2 p3
        = GetRay2DCollisionLineSegment sqrtf ray p2 p3) ∧
    ((GetRay2DCollisionLineSegment sqrtf ray p1 p2).hit = false →
      (GetRay2DCollisionLineSegment sqrtf ray p2 p3).hit = false →
      (GetRay2DCollisionLineSegment sqrtf ray p3 p1).hit = true →
      (GetRay2DCollisionLineSegment sqrtf ray p3 p1).distance ≤ 1000000 →
      GetRay2DCollisionTriangle sqrtf ray p1 p2 p3
        = GetRay2DCollisionLineSegment sqrtf ray p3 p1) ∧
    ((GetRay2DCollisionLineSegmentF32 rayF q1 q2).hit = false →
      (GetRay2DCollisionLineSegmentF32 rayF q2 q3).hit = false →
      (GetRay2DCollisionLineSegmentF32 rayF q3 q1).hit = false →
      (GetRay2DCollisionTriangleF32 rayF q1 q2 q3).hit = false) ∧
    ((GetRay2DCollisionLineSegmentF32 rayF q1 q2).hit = true →
      (GetRay2DCollisionLineSegmentF32 rayF q1 q2).distance ≤ 1000000 →
      (GetRay2DCollisionLineSegmentF32 rayF q2 q3).hit = false →
      (GetRay2DCollisionLineSegmentF32 rayF q3 q1).hit = false →
      GetRay2DCollisionTriangleF32 rayF q1 q2 q3
        = GetRay2DCollisionLineSegmentF32 rayF q1 q2) ∧
    ((GetRay2DCollisionLineSegmentF32 rayF q1 q2).hit = false →
      (GetRay2DCollisionLineSegmentF32 rayF q2 q3).hit = true →
      (GetRay2DCollisionLineSegmentF32 rayF q2 q3).distance ≤ 1000000 →
      (GetRay2DCollisionLineSegmentF32 rayF q3 q1).hit = false →
      GetRay2DCollisionTriangleF32 rayF q1 q2 q3
        = GetRay2DCollisionLineSegmentF32 rayF q2 q3) ∧
    ((GetRay2DCollisionLineSegmentF32 rayF q1 q2).hit = false →
      (GetRay2DCollisionLineSegmentF32 rayF q2 q3).hit = false →
      (GetRay2DCollisionLineSegmentF32 rayF q3 q1).hit = true →
      (GetRay2DCollisionLineSegmentF32 rayF q3 q1).distance ≤ 1000000 →
      GetRay2DCollisionTriangleF32 rayF q1 q2 q3
        = GetRay2DCollisionLineSegmentF32 rayF q3 q1) ∧
    (IsSqrt sqrtf → Vector2Length sqrtf ray.direction = 1 →
      ((GetRay2DCollisionLineSegment sqrtf ray p1 p2).hit = true →
        (GetRay2DCollisionLineSegment sqrtf ray p2 p3).hit = false →
        (GetRay2DCollisionLineSegment sqrtf ray p3 p1).hit = false →
        GetRay2DCollisionTriangle sqrtf ray p1 p2 p3
          = GetRay2DCollisionLineSegment sqrtf ray p1 p2) ∧
      ((GetRay2DCollisionLineSegment sqrtf ray p1 p2).hit = false →
        (GetRay2DCollisionLineSegment sqrtf ray p2 p3).hit = true →
        (GetRay2DCollisionLineSegment sqrtf ray p3 p1).hit = false →
        GetRay2DCollisionTriangle sqrtf ray p1 p2 p3
          = GetRay2DCollisionLineSegment sqrtf ray p2 p3) ∧
      ((GetRay2DCollisionLineSegment sqrtf ray p1 p2).hit = false →
        (GetRay2DCollisionLineSegment sqrtf ray p2 p3).hit = false →
        (GetRay2DCollisionLineSegment sqrtf ray p3 p1).hit = true →
        GetRay2DCollisionTriangle sqrtf ray p1 p2 p3
          = GetRay2DCollisionLineSegment sqrtf ray p3 p1)) := by
  obtain ⟨a1, a2, a3, a4⟩ := closestHit_three
    (GetRay2DCollisionLineSegment sqrtf ray p1 p2)
    (GetRay2DCollisionLineSegment sqrtf ray p2 p3)
    (GetRay2DCollisionLineSegment sqrtf ray p3 p1)
  obtain ⟨b1, b2, b3, b4⟩ := closestHit_three
    (GetRay2DCollisionLineSegmentF32 rayF q1 q2)
    (GetRay2DCollisionLineSegmentF32 rayF q2 q3)
    (GetRay2DCollisionLineSegmentF32 rayF q3 q1)
  refine ⟨a1, a2, a3, a4, b1, b2, b3, b4, fun hs hD => ?_⟩
  exact (triangle_single_edge_real sqrtf ray hs hD p1 p2 p3).2

/-- Witness for the amended C7: the ray from `(0,0)` along `(1,0)`, starting
inside the triangle `(1,-1), (1,1), (-1,0)`, crosses the edge `p1-p2` only, over
the reals and in binary32 (there at distance `1`). -/
theorem GetRay2DCollisionTriangle_single_edge_witness :
    IsSqrt Real.sqrt ∧ Vector2Length Real.sqrt (⟨1, 0⟩ : Vector2 ℝ) = 1 ∧
    (GetRay2DCollisionLineSegment Real.sqrt ⟨⟨0, 0⟩, ⟨1, 0⟩⟩ ⟨1, -1⟩ ⟨1, 1⟩).hit = true ∧
    (GetRay2DCollisionLineSegment Real.sqrt ⟨⟨0, 0⟩, ⟨1, 0⟩⟩ ⟨1, 1⟩ ⟨-1, 0⟩).hit = false ∧
    (GetRay2DCollisionLineSegment Real.sqrt ⟨⟨0, 0⟩, ⟨1, 0⟩⟩ ⟨-1, 0⟩ ⟨1, -1⟩).hit = false ∧
    GetRay2DCollisionTriangle Real.sqrt ⟨⟨0, 0⟩, ⟨1, 0⟩⟩ ⟨1, -1⟩ ⟨1, 1⟩ ⟨-1, 0⟩
      = GetRay2DCollisionLineSegment Real.sqrt ⟨⟨0, 0⟩, ⟨1, 0⟩⟩ ⟨1, -1⟩ ⟨1, 1⟩ ∧
    (GetRay2DCollisionLineSegmentF32 ⟨⟨0, 0⟩, ⟨1, 0⟩⟩ ⟨1, -1⟩ ⟨1, 1⟩).hit = true ∧
    (GetRay2DCollisionLineSegmentF32 ⟨⟨0, 0⟩, ⟨1, 0⟩⟩ ⟨1, -1⟩ ⟨1, 1⟩).distance ≤ 1000000 ∧
    (GetRay2DCollisionLineSegmentF32 ⟨⟨0, 0⟩, ⟨1, 0⟩⟩ ⟨1, 1⟩ ⟨-1, 0⟩).hit = false ∧
    (GetRay2DCollisionLineSegmentF32 ⟨⟨0, 0⟩, ⟨1, 0⟩⟩ ⟨-1, 0⟩ ⟨1, -1⟩).hit = false ∧
    GetRay2DCollisionTriangleF32 ⟨⟨0, 0⟩, ⟨1, 0⟩⟩ ⟨1, -1⟩ ⟨1, 1⟩ ⟨-1, 0⟩
      = GetRay2DCollisionLineSegmentF32 ⟨⟨0, 0⟩, ⟨1, 0⟩⟩ ⟨1, -1⟩ ⟨1, 1⟩ :=
  have f1 : (GetRay2DCollisionLineSegmentF32
      ⟨⟨0, 0⟩, ⟨1, 0⟩⟩ ⟨1, -1⟩ ⟨1, 1⟩).hit = true := by decide!
  have f1d : (GetRay2DCollisionLineSegmentF32
      ⟨⟨0, 0⟩, ⟨1, 0⟩⟩ ⟨1, -1⟩ ⟨1, 1⟩).distance ≤ 1000000 := by decide!
  have f2 : (GetRay2DCollisionLineSegmentF32
      ⟨⟨0, 0⟩, ⟨1, 0⟩⟩ ⟨1, 1⟩ ⟨-1, 0⟩).hit = false := by decide!
  have f3 : (GetRay2DCollisionLineSegmentF32
      ⟨⟨0, 0⟩, ⟨1, 0⟩⟩ ⟨-1, 0⟩ ⟨1, -1⟩).hit = false := by decide!
  have hD : Vector2Length Real.sqrt (⟨1, 0⟩ : Vector2 ℝ) = 1 := by
    simp [Vector2Length]
  have h1 : (GetRay2DCollisionLineSegment Real.sqrt
      ⟨⟨0, 0⟩, ⟨1, 0⟩⟩ ⟨1, -1⟩ ⟨1, 1⟩).hit = true :=
    (seg_hit_iff Real.sqrt _ _ _).2 (by norm_num [segT, segS, cross, Vector2Subtract])
  have h2 : (GetRay2DCollisionLineSegment Real.sqrt
      ⟨⟨0, 0⟩, ⟨1, 0⟩⟩ ⟨1, 1⟩ ⟨-1, 0⟩).hit = false := by
    rw [← Bool.not_eq_true, seg_hit_iff]
    norm_num [segT, segS, cross, Vector2Subtract]
  have h3 : (GetRay2DCollisionLineSegment Real.sqrt
      ⟨⟨0, 0⟩, ⟨1, 0⟩⟩ ⟨-1, 0⟩ ⟨1, -1⟩).hit = false := by
    rw [← Bool.not_eq_true, seg_hit_iff]
    norm_num [segT, segS, cross, Vector2Subtract]
  ⟨isSqrt_real, hD, h1, h2, h3,
    ((GetRay2DCollisionTriangle_single_edge Real.sqrt ⟨⟨0, 0⟩, ⟨1, 0⟩⟩
      ⟨1, -1⟩ ⟨1, 1⟩ ⟨-1, 0⟩ ⟨⟨0, 0⟩, ⟨1, 0⟩⟩ ⟨1, -1⟩ ⟨1, 1⟩ ⟨-1, 0⟩).2.2.2.2.2.2.2.2
      isSqrt_real hD).1 h1 h2 h3,
    f1, f1d, f2, f3,
    (GetRay2DCollisionTriangle_single_edge Real.sqrt ⟨⟨0, 0⟩, ⟨1, 0⟩⟩
      ⟨1, -1⟩ ⟨1, 1⟩ ⟨-1, 0⟩ ⟨⟨0, 0⟩, ⟨1, 0⟩⟩ ⟨1, -1⟩ ⟨1, 1⟩ ⟨-1, 0⟩).2.2.2.2.2.1
      f1 f1d f2 f3⟩

/-- C6 (as stated, for directions of any length) fails: the ray from `(0,0)`
along `(2,0)` hits the left and right edges of the rectangle
`x = 1500000, y = -1, width = 1, height = 2` at distances `1500000` and
`1500001`, both beyond the sentinel `1000000`, so the rectangle test reports no
hit although an edge test does. This is so reading floats as real numbers and
in binary32 alike (every number involved is a binary32 number). -/
theorem GetRay2DCollisionRectangle_hit_iff_any_edge_counterexample :
    ¬ ((GetRay2DCollisionRectangle Real.sqrt ⟨⟨0, 0⟩, ⟨2, 0⟩⟩ ⟨1500000, -1, 1, 2⟩).hit = true ↔
      ((GetRay2DCollisionLineSegment Real.sqrt ⟨⟨0, 0⟩, ⟨2, 0⟩⟩
          ⟨1500000, -1⟩ ⟨1500000 + 1, -1⟩).hit = true ∨
        (GetRay2DCollisionLineSegment Real.sqrt ⟨⟨0, 0⟩, ⟨2, 0⟩⟩
          ⟨1500000 + 1, -1⟩ ⟨1500000 + 1, -1 + 2⟩).hit = true ∨
        (GetRay2DCollisionLineSegment Real.sqrt ⟨⟨0, 0⟩, ⟨2, 0⟩⟩
          ⟨1500000 + 1, -1 + 2⟩ ⟨1500000, -1 + 2⟩).hit = true ∨
        (GetRay2DCollisionLineSegment Real.sqrt ⟨⟨0, 0⟩, ⟨2, 0⟩⟩
          ⟨1500000, -1 + 2⟩ ⟨1500000, -1⟩).hit = true)) ∧
    (GetRay2DCollisionLineSegmentF32 ⟨⟨0, 0⟩, ⟨2, 0⟩⟩
      ⟨1500000, fadd (-1) 2⟩ ⟨1500000, -1⟩).hit = true ∧
    (GetRay2DCollisionLineSegmentF32 ⟨⟨0, 0⟩, ⟨2, 0⟩⟩
      ⟨1500000, fadd (-1) 2⟩ ⟨1500000, -1⟩).distance = 1500000 ∧
    (GetRay2DCollisionRectangleF32 ⟨⟨0, 0⟩, ⟨2, 0⟩⟩ ⟨1500000, -1, 1, 2⟩).hit = false :=
  ⟨rectangle_long_direction_real, by decide!⟩

/-- In binary32 a unit direction does not keep every edge hit within the start
distance: the ray from `(1000000.1875, 0)` along `(1,0)` hits the left edge of the
rectangle `x = 2000000.25, y = -1, width = 1, height = 2` at distance
`1000000.0625`, and the rectangle test reports no hit. -/
theorem rectangleF32_rounded_far_end :
    (GetRay2DCollisionLineSegmentF32 ⟨⟨16000003 / 16, 0⟩, ⟨1, 0⟩⟩
      ⟨8000001 / 4, fadd (-1) 2⟩ ⟨8000001 / 4, -1⟩).hit = true ∧
    (GetRay2DCollisionLineSegmentF32 ⟨⟨16000003 / 16, 0⟩, ⟨1, 0⟩⟩
      ⟨8000001 / 4, fadd (-1) 2⟩ ⟨8000001 / 4, -1⟩).distance = 16000001 / 16 ∧
    (GetRay2DCollisionRectangleF32 ⟨⟨16000003 / 16, 0⟩, ⟨1, 0⟩⟩
      ⟨8000001 / 4, -1, 1, 2⟩).hit = false := by
  decide!

/-- C6, amended: for every ray and every rectangle, the rectangle test returns
`hit = true` if and only if at least one of the four edge calls returns
`hit = true` with a distance of at most `1000000`: the start distance is
replaced by exactly those hits, over an exact field and in binary32. Reading
floats as real numbers, every edge hit of a ray whose direction has length at
most one is within that distance, so for such rays the rectangle test returns
`hit = true` if and only if at least one edge call returns `hit = true`. -/
theorem GetRay2DCollisionRectangle_hit_iff_any_edge
    (sqrtf : ℝ → ℝ) (ray : Ray2D ℝ) (rect : Rectangle ℝ)
    (rayF : Ray2D ℚ) (rectF : Rectangle ℚ) :
    ((GetRay2DCollisionRectangle sqrtf ray rect).hit = true ↔
      ((GetRay2DCollisionLineSegment sqrtf ray
          ⟨rect.x, rect.y⟩ ⟨rect.x + rect.width, rect.y⟩).hit = true ∧
        (GetRay2DCollisionLineSegment sqrtf ray
          ⟨rect.x, rect.y⟩ ⟨rect.x + rect.width, rect.y⟩).distance ≤ 1000000) ∨
      ((GetRay2DCollisionLineSegment sqrtf ray
          ⟨rect.x + rect.width, rect.y⟩ ⟨rect.x + rect.width, rect.y + rect.height⟩).hit = true ∧
        (GetRay2DCollisionLineSegment sqrtf ray
          ⟨rect.x + rect.width, rect.y⟩ ⟨rect.x + rect.width, rect.y + rect.height⟩).distance ≤ 1000000) ∨
      ((GetRay2DCollisionLineSegment sqrtf ray
          ⟨rect.x + rect.width, rect.y + rect.height⟩ ⟨rect.x, rect.y + rect.height⟩).hit = true ∧
        (GetRay2DCollisionLineSegment sqrtf ray
          ⟨rect.x + rect.width, rect.y + rect.height⟩ ⟨rect.x, rect.y + rect.height⟩).distance ≤ 1000000) ∨
      ((GetRay2DCollisionLineSegment sqrtf ray
          ⟨rect.x, rect.y + rect.height⟩ ⟨rect.x, rect.y⟩).hit = true ∧
        (GetRay2DCollisionLineSegment sqrtf ray
          ⟨rect.x, rect.y + rect.height⟩ ⟨rect.x, rect.y⟩).distance ≤ 1000000)) ∧
    ((GetRay2DCollisionRectangleF32 rayF rectF).hit = true ↔
      ((GetRay2DCollisionLineSegmentF32 rayF
          ⟨rectF.x, rectF.y⟩ ⟨fadd rectF.x rectF.width, rectF.y⟩).hit = true ∧
        (GetRay2DCollisionLineSegmentF32 rayF
          ⟨rectF.x, rectF.y⟩ ⟨fadd rectF.x rectF.width, rectF.y⟩).distance ≤ 1000000) ∨
      ((GetRay2DCollisionLineSegmentF32 rayF
          ⟨fadd rectF.x rectF.width, rectF.y⟩ ⟨fadd rectF.x rectF.width, fadd rectF.y rectF.height⟩).hit = true ∧
        (GetRay2DCollisionLineSegmentF32 rayF
          ⟨fadd rectF.x rectF.width, rectF.y⟩ ⟨fadd rectF.x rectF.width, fadd rectF.y rectF.height⟩).distance ≤ 1000000) ∨
      ((GetRay2DCollisionLineSegmentF32 rayF
          ⟨fadd rectF.x rectF.width, fadd rectF.y rectF.height⟩ ⟨rectF.x, fadd rectF.y rectF.height⟩).hit = true ∧
        (GetRay2DCollisionLineSegmentF32 rayF
          ⟨fadd rectF.x rectF.width, fadd rectF.y rectF.height⟩ ⟨rectF.x, fadd rectF.y rectF.height⟩).distance ≤ 1000000) ∨
      ((GetRay2DCollisionLineSegmentF32 rayF
          ⟨rectF.x, fadd rectF.y rectF.height⟩ ⟨rectF.x, rectF.y⟩).hit = true ∧
        (GetRay2DCollisionLineSegmentF32 rayF
          ⟨rectF.x, fadd rectF.y rectF.height⟩ ⟨rectF.x, rectF.y⟩).distance ≤ 1000000)) ∧
    (IsSqrt sqrtf → Vector2Length sqrtf ray.direction ≤ 1 →
      ((GetRay2DCollisionRectangle sqrtf ray rect).hit = true ↔
        (GetRay2DCollisionLineSegment sqrtf ray
          ⟨rect.x, rect.y⟩ ⟨rect.x + rect.width, rect.y⟩).hit = true ∨
        (GetRay2DCollisionLineSegment sqrtf ray
          ⟨rect.x + rect.width, rect.y⟩ ⟨rect.x + rect.width, rect.y + rect.height⟩).hit = true ∨
        (GetRay2DCollisionLineSegment sqrtf ray
          ⟨rect.x + rect.width, rect.y + rect.height⟩ ⟨rect.x, rect.y + rect.height⟩).hit = true ∨
        (GetRay2DCollisionLineSegment sqrtf ray
          ⟨rect.x, rect.y + rect.height⟩ ⟨rect.x, rect.y⟩).hit = true)) := by
  refine ⟨?_, ?_, fun hs hD => ?_⟩
  · unfold GetRay2DCollisionRectangle
    rw [closestHit_hit_iff_bounded]
    simp [rectangleEdges, RAYLENGTH]
  · unfold GetRay2DCollisionRectangleF32
    rw [closestHit_hit_iff_bounded]
    simp [RAYLENGTH]
  · rw [rectangle_hit_iff sqrtf ray hs (hs.sq_le_one_of_length_le_one hD)]
    simp [rectangleEdges]

/-- Witness for the amended C6: the ray from `(0,0)` along `(1,0)` against the
rectangle `x = 1, y = -1, width = 1, height = 2` hits the left edge at distance
`1`, over the reals and in binary32. -/
theorem GetRay2DCollisionRectangle_hit_iff_any_edge_witness :
    IsSqrt Real.sqrt ∧ Vector2Length Real.sqrt (⟨1, 0⟩ : Vector2 ℝ) ≤ 1 ∧
    (GetRay2DCollisionRectangle Real.sqrt ⟨⟨0, 0⟩, ⟨1, 0⟩⟩ ⟨1, -1, 1, 2⟩).hit = true ∧
    (GetRay2DCollisionLineSegmentF32 ⟨⟨0, 0⟩, ⟨1, 0⟩⟩
      ⟨1, fadd (-1) 2⟩ ⟨1, -1⟩).hit = true ∧
    (GetRay2DCollisionLineSegmentF32 ⟨⟨0, 0⟩, ⟨1, 0⟩⟩
      ⟨1, fadd (-1) 2⟩ ⟨1, -1⟩).distance ≤ 1000000 ∧
    (GetRay2DCollisionRectangleF32 ⟨⟨0, 0⟩, ⟨1, 0⟩⟩ ⟨1, -1, 1, 2⟩).hit = true :=
  have f1 : (GetRay2DCollisionLineSegmentF32 ⟨⟨0, 0⟩, ⟨1, 0⟩⟩
      ⟨1, fadd (-1) 2⟩ ⟨1, -1⟩).hit = true := by decide!
  have f1d : (GetRay2DCollisionLineSegmentF32 ⟨⟨0, 0⟩, ⟨1, 0⟩⟩
      ⟨1, fadd (-1) 2⟩ ⟨1, -1⟩).distance ≤ 1000000 := by decide!
  have hD : Vector2Length Real.sqrt (⟨1, 0⟩ : Vector2 ℝ) ≤ 1 := by
    simp [Vector2Length]
  ⟨isSqrt_real, hD,
    ((GetRay2DCollisionRectangle_hit_iff_any_edge Real.sqrt ⟨⟨0, 0⟩, ⟨1, 0⟩⟩ ⟨1, -1, 1, 2⟩
      ⟨⟨0, 0⟩, ⟨1, 0⟩⟩ ⟨1, -1, 1, 2⟩).2.2 isSqrt_real hD).2
      (Or.inr (Or.inr (Or.inr
        ((seg_hit_iff Real.sqrt _ _ _).2
          (by norm_num [segT, segS, cross, Vector2Subtract]))))),
    f1, f1d,
    (GetRay2DCollisionRectangle_hit_iff_any_edge Real.sqrt ⟨⟨0, 0⟩, ⟨1, 0⟩⟩ ⟨1, -1, 1, 2⟩
      ⟨⟨0, 0⟩, ⟨1, 0⟩⟩ ⟨1, -1, 1, 2⟩).2.1.2
      (Or.inr (Or.inr (Or.inr ⟨f1, f1d⟩)))⟩

end Readings

end Ray2DExtension
